import Mathlib

/-!
# Verification of the LAMMPS dump reader/writer (`gblearn/lammps.py`)

This file gives a shallow embedding of the module `gblearn/lammps.py`:
the streaming `Timestep._read` parser, the `Timestep.__init__` record
constructor, `Timestep.__eq__`, `Timestep.__len__`, the `Timestep.dump`
writer, the `Dump` collection driver with its `__eq__`, and the
`Timestep.gb` / `Timestep.gbids` boundary-extraction entry points.

Modelling conventions:
* A dump file is a `List Line`; a `Line` is either one of the four
  grammar headers (carrying its trailing tokens) or a data line of
  whitespace-delimited tokens.  A token is classified by its lexical
  form: an integer literal, a float literal, or any other string.
  Whitespace splitting/joining is the identity at this level.
* Python `int`s are `Int`, Python/numpy floats are `ℚ` (the decimal
  literals appearing in dump files are exact rationals); the decimal
  formatting done by the writer is modelled by explicit rounding
  functions.
* Exceptions are modelled with `Except Err`; each `Err` constructor
  names the Python exception class raised at that point.
* The mutable file cursor is an index into the `List Line`; `f.tell()` /
  `f.seek()` become explicit cursor values in the parser's result.
* Python `dict`s (the parser's `result`, the object attribute table)
  are insertion-ordered association lists with Python's
  assign-replaces-in-place semantics.
-/

deriving instance DecidableEq for Except

namespace GBLearn

/-- A scalar Python value: `int`, `float`, or any other (string) object. -/
inductive Val where
  | vInt (n : Int)
  | vFloat (q : ℚ)
  | vStr (s : String)
deriving DecidableEq, Repr

/-- One whitespace-delimited token of a dump-file line, classified by its
lexical form: an integer literal, a float literal (decimal or scientific),
or any other bare word. -/
inductive Tok where
  | int (n : Int)
  | float (q : ℚ)
  | str (s : String)
deriving DecidableEq, Repr

/-- One line of a dump file.  Header lines carry their trailing tokens
(the periodicity tokens after `ITEM: BOX BOUNDS`, the column headings
after `ITEM: ATOMS`); every other line is a `data` line of tokens. -/
inductive Line where
  | itemTimestep
  | itemNatoms
  | itemBoxBounds (period : List String)
  | itemAtoms (headings : List String)
  | data (toks : List Tok)
deriving DecidableEq, Repr

/-- The Python exception classes that the embedded code can raise. -/
inductive Err where
  | attributeError
  | valueError
  | nameError
  | indexError
  | typeError
  | keyError
  | nonTermination
deriving DecidableEq, Repr

/-- `sub in s` for Python strings, on the underlying character lists:
some suffix of `s` starts with `sub`. -/
def hasSubAux (sub : List Char) : List Char → Bool
  | [] => sub == []
  | c :: rest => sub.isPrefixOf (c :: rest) || hasSubAux sub rest

/-- Python's substring containment test `sub in s`. -/
def strHasSub (s sub : String) : Bool := hasSubAux sub.data s.data

/-- Characters up to (excluding) the first `':'`. -/
def takeUntilColon : List Char → List Char
  | [] => []
  | c :: rest => if c = ':' then [] else c :: takeUntilColon rest

/-- Characters after the first `':'` (everything, if there is none). -/
def dropToColon : List Char → List Char
  | [] => []
  | c :: rest => if c = ':' then rest else dropToColon rest

/-- `key.split(':')[1]`: the segment between the first and second colon of
`key`.  Every key this is applied to contains the substring `"atom:"`,
hence at least one colon, so the Python indexing cannot fail. -/
def quantOf (key : String) : String :=
  ⟨takeUntilColon (dropToColon key.data)⟩

/-- A value stored by one execution of the parser's generic casting step:
a bare scalar when the cast tuple produced exactly one value, otherwise
the whole list of cast values (e.g. a `(lo, hi)` box row). -/
inductive CVal where
  | one (v : Val)
  | row (vs : List Val)
deriving DecidableEq, Repr

/-- A value held in the parser's `result` dict: a scalar entry
(`result[current] = values`), a list entry built by `.append`, or the
list/tuple of periodicity tokens assigned at the `BOX BOUNDS` header. -/
inductive DVal where
  | single (c : CVal)
  | many (cs : List CVal)
  | strs (ss : List String)
deriving DecidableEq, Repr

/-- The parser's `result` dict: an insertion-ordered association list. -/
abbrev RawDict := List (String × DVal)

/-- `k in d` for a Python dict. -/
def dictMem (d : RawDict) (k : String) : Bool := d.any (fun e => e.1 == k)

/-- `d[k]` lookup. -/
def dictGet (d : RawDict) (k : String) : Option DVal :=
  (d.find? (fun e => e.1 == k)).map (·.2)

/-- `d[k] = v`: replace in place if present, else append (Python dicts keep
the original insertion position on reassignment). -/
def dictSet (d : RawDict) (k : String) (v : DVal) : RawDict :=
  match d with
  | [] => [(k, v)]
  | e :: rest => if e.1 = k then (k, v) :: rest else e :: dictSet rest k v

/-- `d[k].append(c)`.  Fails with `AttributeError` when `d[k]` is not a
list (Python: `int`/`tuple` have no `.append`); `KeyError` when the key is
absent (unreachable: every call site guards or creates the key). -/
def dictAppend (d : RawDict) (k : String) (c : CVal) : Except Err RawDict :=
  match d with
  | [] => .error .keyError
  | e :: rest =>
    if e.1 = k then
      match e.2 with
      | .many cs => .ok ((k, .many (cs ++ [c])) :: rest)
      | _ => .error .attributeError
    else do
      let r ← dictAppend rest k c
      return e :: r

/-! ## Decimal rounding (the writer's `format` specifiers) -/

/-!
The rational arithmetic used by the model is written through `mkRat` on
numerators and denominators rather than through the `Field ℚ` notation,
so that every concrete theorem below can be checked by `decide` (the
field-structure instances on `ℚ` do not reduce inside the kernel).  Each
wrapper computes exactly the usual rational operation.
-/

/-- `a * b` on ℚ. -/
def qmul (a b : ℚ) : ℚ := mkRat (a.num * b.num) (a.den * b.den)

/-- `a + b` on ℚ. -/
def qadd (a b : ℚ) : ℚ := mkRat (a.num * b.den + b.num * a.den) (a.den * b.den)

/-- `a - b` on ℚ. -/
def qsub (a b : ℚ) : ℚ := mkRat (a.num * b.den - b.num * a.den) (a.den * b.den)

/-- `a / b` on ℚ (0 when `b = 0`, as in Lean's field convention). -/
def qdiv (a b : ℚ) : ℚ :=
  if b.num < 0 then mkRat (-(a.num * (b.den : Int))) (a.den * (-b.num).toNat)
  else mkRat (a.num * b.den) (a.den * b.num.toNat)

/-- `abs` on ℚ. -/
def qabs (q : ℚ) : ℚ := if q < 0 then -q else q

/-- Round-half-to-even to an integer (the tie-breaking rule used by
Python's `format` on the decimal expansion). -/
def roundHE (q : ℚ) : Int :=
  let f := ⌊q⌋
  let d := qsub q (f : ℚ)
  if d < mkRat 1 2 then f
  else if mkRat 1 2 < d then f + 1
  else if f % 2 = 0 then f else f + 1

/-- `"{0:.4f}".format q`: round to 4 decimal places. -/
def r4 (q : ℚ) : ℚ := qdiv (roundHE (qmul q 10000) : ℚ) 10000

/-- `"{0:.5f}".format q`: round to 5 decimal places. -/
def r5 (q : ℚ) : ℚ := qdiv (roundHE (qmul q 100000) : ℚ) 100000

/-- Fuel-bounded base-10 logarithm on naturals (`nlog10 n` is the number
of decimal digits of `n` minus one; the fuel `n` itself always
suffices). -/
def nlog10Aux : Nat → Nat → Nat
  | 0, _ => 0
  | fuel + 1, n => if n < 10 then 0 else nlog10Aux fuel (n / 10) + 1

def nlog10 (n : Nat) : Nat := nlog10Aux n n

/-- `10 ^ e` on ℚ for an integer exponent. -/
def qpow10 (e : Int) : ℚ :=
  if 0 ≤ e then mkRat ((10 : Int) ^ e.toNat) 1 else mkRat 1 (10 ^ (-e).toNat)

/-- The decimal exponent of a positive rational: the `e` with
`10 ^ e ≤ q < 10 ^ (e + 1)`. -/
def qlog10 (q : ℚ) : Int :=
  if 1 ≤ q then (nlog10 ⌊q⌋.toNat : Int)
  else
    let m := (mkRat (q.den : Int) q.num.toNat)
    let k := nlog10 ⌊m⌋.toNat
    if 1 ≤ qmul (qpow10 k) q then -(k : Int) else -(k + 1 : Int)

/-- `"{0:.5e}".format q`: round to 6 significant decimal digits
(scientific notation with 5 fractional digits). -/
def r5e (q : ℚ) : ℚ :=
  if q = 0 then 0
  else
    let e : Int := qlog10 (qabs q)
    let s : ℚ := qpow10 (e - 5)
    qmul (roundHE (qdiv q s) : ℚ) s

/-- Python `int(...)` applied to a float value truncates toward zero. -/
def ratTrunc (q : ℚ) : Int := if q < 0 then -⌊-q⌋ else ⌊q⌋

/-! ## The line tokenizer (`[t(r) for t, r in zip(cast, raw)]`) -/

/-- One entry of a cast tuple: `int` or `float`. -/
inductive CK where
  | cInt
  | cFloat
deriving DecidableEq, Repr

/-- Applying `int`/`float` to one raw string token.  `int` accepts only
integer literals (`int("3.5")` and `int("abc")` raise `ValueError`);
`float` accepts integer and float literals. -/
def castTok : CK → Tok → Except Err Val
  | .cInt, .int n => .ok (.vInt n)
  | .cInt, _ => .error .valueError
  | .cFloat, .int n => .ok (.vFloat n)
  | .cFloat, .float q => .ok (.vFloat q)
  | .cFloat, .str _ => .error .valueError

/-- `[t(r) for t, r in zip(cast, raw)]`: `zip` truncates to the shorter
list; the casts are evaluated left to right, the first failure raising. -/
def castLine : List CK → List Tok → Except Err (List Val)
  | c :: cs, t :: ts => do
    let v ← castTok c t
    let vs ← castLine cs ts
    return v :: vs
  | _, _ => .ok []

/-- `if len(values) == 1: values = values[0]`. -/
def mkCVal (vs : List Val) : CVal :=
  match vs with
  | [v] => .one v
  | _ => .row vs

/-- `eval(v)` on one token: numeric literals evaluate to their value; a
bare non-numeric token is an undefined name and raises `NameError`. -/
def evalTok : Tok → Except Err Val
  | .int n => .ok (.vInt n)
  | .float q => .ok (.vFloat q)
  | .str _ => .error .nameError

/-! ## Line classification -/

/-- The raw tokens of a line, as `line.split()` would produce them (header
lines split into their constituent words). -/
def Line.toks : Line → List Tok
  | .itemTimestep => [.str "ITEM:", .str "TIMESTEP"]
  | .itemNatoms => [.str "ITEM:", .str "NUMBER", .str "OF", .str "ATOMS"]
  | .itemBoxBounds p => [.str "ITEM:", .str "BOX", .str "BOUNDS"] ++ p.map .str
  | .itemAtoms hs => [.str "ITEM:", .str "ATOMS"] ++ hs.map .str
  | .data ts => ts

/-- `"ITEM" in line`: true for every header line; a data line contains it
only inside a non-numeric token. -/
def Line.hasITEM : Line → Bool
  | .data ts => ts.any fun t =>
      match t with
      | .str s => strHasSub s "ITEM"
      | _ => false
  | _ => true

/-- `"ITEM: TIMESTEP" in line`.  Tokens are whitespace-free, so a data
line can never contain this two-word substring. -/
def Line.isTimestepHdr : Line → Bool
  | .itemTimestep => true
  | _ => false

/-! ## The record state machine: `Timestep._read` (lines 246–371) -/

/-- The parser's local mutable state inside the `while` loop of `_read`:
`itemstack` (with `None` marking the untyped atoms mode), `current`,
`result`, `xkeys`, `timeskip`, `laststep`, and the enclosing object's
`self.index` (which `_read` may assign). -/
structure RState where
  itemstack : Option (List (List CK))
  current : Option String
  result : RawDict
  xkeys : Option (List String)
  timeskip : Bool
  laststep : Bool
  selfIndex : Option Int
deriving DecidableEq, Repr

/-- What `_read` communicates back: the `result` dict, the possibly
updated `self.index`, and the final stream cursor position. -/
structure ROut where
  result : RawDict
  selfIndex : Option Int
  cursor : Nat
deriving DecidableEq, Repr

/-- `values not in stepfilter` (negated): only an integer scalar can be a
member of the (integer) filter list. -/
def cvMemInts (c : CVal) (sf : List Int) : Bool :=
  match c with
  | .one (.vInt n) => sf.contains n
  | _ => false

/-- Lines 289–301, the `elif`/`else` tail of the `current == "time"`
dispatch once the step filter has passed.  A `.ok none` result models
`return {}`.  A non-integer TIMESTEP value (a blank value line) makes the
ordered comparison `values > self.index` raise `TypeError`. -/
def timeCmp (shared : Bool) (st : RState) (cv : CVal) : Except Err (Option RState) :=
  match st.selfIndex with
  | some i =>
    match cv with
    | .one (.vInt n) =>
      if n ≠ i then
        if n > i then
          if ¬ shared then .ok none
          else .ok (some { st with timeskip := true, laststep := true })
        else .ok (some { st with timeskip := true })
      else .ok (some { st with timeskip := false })
    | _ => .error .typeError
  | none =>
    match cv with
    | .one (.vInt n) => .ok (some { st with selfIndex := some n })
    | _ => .error .typeError

/-- Lines 286–301: the `current == "time"` dispatch. -/
def timeBranch (shared : Bool) (sf : Option (List Int)) (st : RState) (cv : CVal) :
    Except Err (Option RState) :=
  match sf with
  | some l =>
    if ¬ cvMemInts cv l then .ok (some { st with timeskip := true })
    else timeCmp shared st cv
  | none => timeCmp shared st cv

/-- Lines 303–308: store the cast values into `result` — a scalar entry
when the stack just emptied and the key is fresh, otherwise `.append` on
the existing entry (creating an empty list first for a fresh key). -/
def storeValue (d : RawDict) (stackEmpty : Bool) (k : String) (c : CVal) :
    Except Err RawDict :=
  if stackEmpty && !(dictMem d k) then .ok (dictSet d k (.single c))
  else
    let d1 := if dictMem d k then d else dictSet d k (.many [])
    dictAppend d1 k c

/-- `int(...)` on one raw token. -/
def intTok : Tok → Except Err Int
  | .int n => .ok n
  | _ => .error .valueError

/-- `float(...)` on one raw token. -/
def floatTok : Tok → Except Err ℚ
  | .int n => .ok n
  | .float q => .ok q
  | .str _ => .error .valueError

/-- Lines 324–326: `result[xkeys[ikey]].append(eval(v))` for each token
after the fifth.  More value tokens than extra headings raises
`IndexError` (`xkeys[ikey]` out of range). -/
def appendExtras (d : RawDict) (ks : List String) (ts : List Tok) :
    Except Err RawDict :=
  match ts, ks with
  | [], _ => .ok d
  | _ :: _, [] => .error .indexError
  | t :: ts2, k :: ks2 => do
    let v ← evalTok t
    let d2 ← dictAppend d k (.one v)
    appendExtras d2 ks2 ts2

/-- The `while` loop of `_read` (lines 272–366).  The list argument is the
unread remainder of the file; `pos` is the cursor position of its head in
the whole file. Python pops casts from the tail of `itemstack`, but every
set of simultaneously stacked entries is identical (a lone `(int,)`, or
three copies of `(float, float)`), so popping from the head is
equivalent. -/
def readLoop (sf : Option (List Int)) (shared : Bool) :
    List Line → Nat → RState → Except Err ROut
  | [], pos, st => .ok ⟨st.result, st.selfIndex, pos⟩
  | l :: rest, pos, st =>
    match st.itemstack with
    | some (cast :: stk2) => do
      -- lines 279–309: a typed section line is due
      let vs ← castLine cast l.toks
      let cv := mkCVal vs
      let st1 : RState := { st with itemstack := some stk2 }
      let st2? ←
        if st1.current = some "time" then timeBranch shared sf st1 cv
        else .ok (some st1)
      match st2? with
      | none => .ok ⟨[], st.selfIndex, pos + 1⟩
      | some st2 => do
        let d ← storeValue st2.result stk2.isEmpty (st2.current.getD "") cv
        readLoop sf shared rest (pos + 1) { st2 with result := d }
    | none =>
      if st.current = some "atoms" then
        -- lines 310–327: the untyped atoms section
        if l.hasITEM then
          .ok ⟨st.result, st.selfIndex, if shared then pos else pos + 1⟩
        else do
          let vals := l.toks
          match vals with
          | t0 :: t1 :: rv => do
            let sid ← intTok t0
            let atype ← intTok t1
            let d1 ← dictAppend st.result "type" (.one (.vInt atype))
            let d2 ← dictAppend d1 "id" (.one (.vInt sid))
            match rv with
            | a :: b :: c :: rx => do
              let x ← floatTok a
              let y ← floatTok b
              let z ← floatTok c
              let d3 ← dictAppend d2 "xyz" (.row [.vFloat x, .vFloat y, .vFloat z])
              let d4 ←
                if vals.length > 5 then
                  match st.xkeys with
                  | some ks => appendExtras d3 ks rx
                  | none => .ok d3
                else .ok d3
              readLoop sf shared rest (pos + 1) { st with result := d4 }
            | _ => .error .valueError
          | _ => .error .valueError
      else
        -- unreachable: `itemstack` is `None` only while `current == "atoms"`;
        -- Python would hit `itemstack.append` on `None`
        .error .attributeError
    | some [] =>
      -- lines 329–365: header dispatch
      if l.isTimestepHdr then
        if st.laststep then .ok ⟨st.result, st.selfIndex, pos⟩
        else
          readLoop sf shared rest (pos + 1)
            { st with itemstack := some [[CK.cInt]], current := some "time",
                      timeskip := false }
      else if st.timeskip then readLoop sf shared rest (pos + 1) st
      else
        match l with
        | .itemNatoms =>
          readLoop sf shared rest (pos + 1)
            { st with itemstack := some [[CK.cInt]], current := some "natoms" }
        | .itemBoxBounds per =>
          let ptoks := if per.isEmpty then ["ss", "ss", "ss"] else per
          readLoop sf shared rest (pos + 1)
            { st with
                itemstack := some [[CK.cFloat, CK.cFloat], [CK.cFloat, CK.cFloat],
                                   [CK.cFloat, CK.cFloat]],
                current := some "box",
                result := dictSet st.result "periodic" (.strs ptoks) }
        | .itemAtoms hs =>
          let d1 := dictSet (dictSet (dictSet st.result "type" (.many []))
                      "id" (.many [])) "xyz" (.many [])
          -- `headings` also contains the two tokens "ITEM:" and "ATOMS",
          -- so `len(headings) > 7` is `hs.length > 5`
          if hs.length > 5 then
            let ks := (hs.drop 5).map (fun nm => "atom:" ++ nm)
            let d2 := ks.foldl (fun d k => dictSet d k (.many [])) d1
            readLoop sf shared rest (pos + 1)
              { st with itemstack := none, current := some "atoms",
                        result := d2, xkeys := some ks }
          else
            readLoop sf shared rest (pos + 1)
              { st with itemstack := none, current := some "atoms", result := d1 }
        | _ => readLoop sf shared rest (pos + 1) st

/-! ## The columnar record store: `Timestep` objects -/

/-- A Python object attribute value as used by `Timestep`: a 1-d numpy
array (numeric dtype, or `object` dtype for mixed content), the `(n,3)`
position array, the `(3,2)` box array, the periodicity tuple of bools,
a plain list of strings (`extras`), or `None`. -/
inductive PyObj where
  | arr (obj : Bool) (vs : List Val)
  | xyzArr (rows : List (ℚ × ℚ × ℚ))
  | boxArr (rows : List (ℚ × ℚ))
  | flags (ps : List Bool)
  | strsO (ss : List String)
  | noneV
deriving DecidableEq, Repr

/-- A `Timestep` object: its dump-file path, its (possibly discovered)
index, and its attribute table — `types`, `ids`, `xyz`, `extras`,
the dynamically discovered extra columns, `periodic` and `box` are all
set through `setattr`-like assignment into this table. -/
structure Timestep where
  filepath : String
  index : Option Int
  attrs : List (String × PyObj)
deriving DecidableEq, Repr

/-- `getattr(obj, k)`: `AttributeError` when absent. -/
def attrGet (a : List (String × PyObj)) (k : String) : Except Err PyObj :=
  match a.find? (fun e => e.1 == k) with
  | some e => .ok e.2
  | none => .error .attributeError

/-- `setattr(obj, k, v)` (reassignment keeps the slot's position). -/
def attrSet (a : List (String × PyObj)) (k : String) (v : PyObj) :
    List (String × PyObj) :=
  match a with
  | [] => [(k, v)]
  | e :: rest => if e.1 = k then (k, v) :: rest else e :: attrSet rest k v

def Timestep.getattr (ts : Timestep) (k : String) : Except Err PyObj :=
  attrGet ts.attrs k

/-- `len` of an attribute value. -/
def pyLen : PyObj → Except Err Nat
  | .arr _ vs => .ok vs.length
  | .xyzArr rows => .ok rows.length
  | .boxArr rows => .ok rows.length
  | .flags ps => .ok ps.length
  | .strsO ss => .ok ss.length
  | .noneV => .error .typeError

/-- `len(self)` = `len(self.xyz)` (lines 116–117). -/
def Timestep.pyLen? (ts : Timestep) : Except Err Nat := do
  pyLen (← ts.getattr "xyz")

def pyIntOfVal : Val → Except Err Int
  | .vInt n => .ok n
  | .vFloat q => .ok (ratTrunc q)
  | .vStr _ => .error .valueError

def asOne : CVal → Except Err Val
  | .one v => .ok v
  | .row _ => .error .typeError

def asMany : DVal → Except Err (List CVal)
  | .many cs => .ok cs
  | _ => .error .typeError

/-- `np.array(vals, int)` on a list of scalars. -/
def npIntArr (cs : List CVal) : Except Err PyObj := do
  let vals ← cs.mapM asOne
  let ints ← vals.mapM pyIntOfVal
  return .arr false (ints.map Val.vInt)

/-- `np.array(raw["xyz"])` on the list of position triples. -/
def npXyzArr (cs : List CVal) : Except Err PyObj := do
  let rows ← cs.mapM fun c =>
    match c with
    | .row [.vFloat x, .vFloat y, .vFloat z] => .ok (x, y, z)
    | _ => .error .typeError
  return .xyzArr rows

def valIsStr : Val → Bool
  | .vStr _ => true
  | _ => false

def valIsFloat : Val → Bool
  | .vFloat _ => true
  | _ => false

def valToFloat : Val → Val
  | .vInt n => .vFloat n
  | v => v

/-- `np.array(vals)` on a list of mixed scalars: an all-int list becomes
an `int64` array, a numeric list containing a float becomes a `float64`
array (ints promoted), and a list containing a non-numeric entry becomes
an `object` array keeping every element as it was. -/
def npHomog (vs : List Val) : PyObj :=
  if vs.any valIsStr then .arr true vs
  else if vs.any valIsFloat then .arr false (vs.map valToFloat)
  else .arr false vs

/-- The attributes of a sentinel (incomplete) record, lines 90–97. -/
def sentinelAttrs : List (String × PyObj) :=
  [("types", .arr false []), ("ids", .arr false []), ("xyz", .xyzArr []),
   ("box", .noneV), ("periodic", .noneV), ("extras", .noneV)]

/-- One step of the dynamic-attribute discovery loop of
`Timestep.__init__` (lines 103–108): a key containing `"atom:"` appends
its quantity name to `self.extras` and sets the column as an attribute;
any other key is skipped. -/
def ofRawStep (atts : List (String × PyObj)) (e : String × DVal) :
    Except Err (List (String × PyObj)) :=
  if strHasSub e.1 "atom:" then do
    let quant := quantOf e.1
    let exO ← attrGet atts "extras"
    let atts2 ←
      match exO with
      | PyObj.strsO ss => .ok (attrSet atts "extras" (.strsO (ss ++ [quant])))
      | _ => .error .attributeError
    let col ← (← asMany e.2).mapM asOne
    return attrSet atts2 quant (npHomog col)
  else
    return atts

/-- `Timestep.__init__` after `_read` returned `raw` (lines 88–114).
On an atom-count mismatch the code builds the warning text with
`wmsg.format(self.filepath)` — one argument for a three-placeholder
format string — which raises `IndexError` before `msg.warn` is called. -/
def Timestep.ofRaw (filepath : String) (index : Option Int) (raw : RawDict) :
    Except Err Timestep :=
  if raw.length < 6 then
    .ok ⟨filepath, index, sentinelAttrs⟩
  else do
    let tRaw ← (dictGet raw "type").elim (.error .keyError) .ok
    let types ← npIntArr (← asMany tRaw)
    let iRaw ← (dictGet raw "id").elim (.error .keyError) .ok
    let ids ← npIntArr (← asMany iRaw)
    let xRaw ← (dictGet raw "xyz").elim (.error .keyError) .ok
    let xyz ← npXyzArr (← asMany xRaw)
    let atts0 := [("types", types), ("ids", ids), ("xyz", xyz),
                  ("extras", PyObj.strsO ["ids"])]
    -- lines 103–108: dynamic extra attributes, in dict insertion order
    let atts1 ← raw.foldlM ofRawStep atts0
    let perRaw ← (dictGet raw "periodic").elim (.error .keyError) .ok
    let fl ←
      match perRaw with
      | DVal.strs ss => .ok (PyObj.flags (ss.map (fun p => p == "pp")))
      | _ => .error .typeError
    let atts2 := attrSet atts1 "periodic" fl
    let bRaw ← (dictGet raw "box").elim (.error .keyError) .ok
    let bx ← (← asMany bRaw).mapM fun c =>
      match c with
      | CVal.row [.vFloat lo, .vFloat hi] => .ok (lo, hi)
      | _ => .error .typeError
    let atts3 := attrSet atts2 "box" (.boxArr bx)
    let n ← pyLen xyz
    let mismatch : Bool :=
      match dictGet raw "natoms" with
      | some (.single (.one (.vInt m))) => ¬ ((n : Int) = m)
      | some (.single (.one (.vFloat q))) => ¬ ((n : ℚ) = q)
      | some _ => true
      | none => true
    if (dictGet raw "natoms").isNone then .error .keyError
    else if mismatch then .error .indexError
    else return ⟨filepath, index, atts3⟩

/-! ## `Timestep.__eq__` (lines 118–126) -/

/-- The flattened numeric content of an attribute, as `np.allclose` sees
it; non-numeric content raises `TypeError` when subtracted. -/
def numList : PyObj → Except Err (List ℚ)
  | .arr _ vs => vs.mapM fun v =>
      match v with
      | .vInt n => .ok (n : ℚ)
      | .vFloat q => .ok q
      | .vStr _ => .error .typeError
  | .xyzArr rows => .ok (rows.map (fun r => [r.1, r.2.1, r.2.2])).flatten
  | .boxArr rows => .ok (rows.map (fun r => [r.1, r.2])).flatten
  | .flags ps => .ok (ps.map fun p => if p then (1 : ℚ) else 0)
  | .strsO _ => .error .typeError
  | .noneV => .error .typeError

/-- One elementwise `np.allclose` comparison (default `rtol = 1e-5`,
`atol = 1e-8`): `|a - b| ≤ atol + rtol * |b|`. -/
def close1 (a b : ℚ) : Bool :=
  qabs (qsub a b) ≤ qadd (mkRat 1 100000000) (qdiv (qabs b) 100000)

/-- `np.allclose(x, y)` on flattened arrays: pointwise when lengths agree,
broadcasting a single element, and a `ValueError` otherwise. -/
def npAllclose (x y : PyObj) : Except Err Bool := do
  let xs ← numList x
  let ys ← numList y
  if xs.length = ys.length then
    return (xs.zip ys).all fun p => close1 p.1 p.2
  else if xs.length = 1 then
    return ys.all fun b => close1 (xs.headD 0) b
  else if ys.length = 1 then
    return xs.all fun a => close1 a (ys.headD 0)
  else .error .valueError

/-- Python `==` on the non-array attributes compared by `__eq__`
(`extras` lists, `periodic` tuples, `None`); values of different types
compare unequal. -/
def pyEqObj : PyObj → PyObj → Bool
  | .strsO a, .strsO b => a == b
  | .flags a, .flags b => a == b
  | .noneV, .noneV => true
  | _, _ => false

/-- `Timestep.__eq__` (on another `Timestep`): the `and`-chain of
lines 121–126, short-circuiting left to right. -/
def Timestep.beq (a b : Timestep) : Except Err Bool := do
  let c1 ← npAllclose (← a.getattr "xyz") (← b.getattr "xyz")
  if ¬ c1 then return false else do
  let c2 ← npAllclose (← a.getattr "ids") (← b.getattr "ids")
  if ¬ c2 then return false else do
  let c3 ← npAllclose (← a.getattr "types") (← b.getattr "types")
  if ¬ c3 then return false else do
  let c4 := pyEqObj (← a.getattr "extras") (← b.getattr "extras")
  if ¬ c4 then return false else do
  let c5 ← npAllclose (← a.getattr "box") (← b.getattr "box")
  if ¬ c5 then return false else do
  return pyEqObj (← a.getattr "periodic") (← b.getattr "periodic")

/-! ## The record writer: `Timestep.dump` with `rebox=False` (lines 197–244) -/

/-- Indexing a 1-d column attribute with an atom index. -/
def pyIndex (p : PyObj) (i : Nat) : Except Err Val :=
  match p with
  | .arr _ vs =>
    match vs.get? i with
    | some v => .ok v
    | none => .error .indexError
  | _ => .error .typeError

/-- The per-column format kind decided at lines 229–235. -/
inductive FmtK where
  | kInt
  | kFloat
  | kNone
deriving DecidableEq, Repr

/-- `type(getattr(self, x)[0])` matched against `np.int64` / `np.float64`:
only numeric-dtype arrays match (an `object` array holds plain Python
values whose types match neither, and a non-column attribute's elements
are not numpy scalars).  Indexing an empty attribute raises
`IndexError`. -/
def elem0Kind : PyObj → Except Err FmtK
  | .arr _ [] => .error .indexError
  | .arr true (_ :: _) => .ok .kNone
  | .arr false (v :: _) =>
    match v with
    | .vInt _ => .ok .kInt
    | .vFloat _ => .ok .kFloat
    | .vStr _ => .ok .kNone
  | .xyzArr [] => .error .indexError
  | .xyzArr (_ :: _) => .ok .kNone
  | .boxArr [] => .error .indexError
  | .boxArr (_ :: _) => .ok .kNone
  | .flags [] => .error .indexError
  | .flags (_ :: _) => .ok .kNone
  | .strsO [] => .error .indexError
  | .strsO (_ :: _) => .ok .kNone
  | .noneV => .error .typeError

/-- `"{k:d}".format v`: only an integer renders; a float raises. -/
def fmtD : Val → Except Err Tok
  | .vInt n => .ok (.int n)
  | _ => .error .typeError

/-- `"{k:.5e}".format v`. -/
def fmt5e : Val → Except Err Tok
  | .vInt n => .ok (.float (r5e n))
  | .vFloat q => .ok (.float (r5e q))
  | .vStr _ => .error .typeError

/-- Render one extra value according to its column's format kind; a
column whose dtype matched neither `int64` nor `float64` got no format
slot at lines 229–235, so its (still computed) value is dropped from the
output line. -/
def renderX (k : FmtK) (v : Val) : Except Err (Option Tok) :=
  match k with
  | .kInt => (fmtD v).map some
  | .kFloat => (fmt5e v).map some
  | .kNone => .ok none

/-- One atom line of the writer (lines 239–244): `id` and `type` as
integers, the position as 5-decimal fixed floats, then the extra columns
in `extras` order. -/
def atomLine (ts : Timestep) (kinds : List (String × FmtK)) (i : Nat)
    (row : ℚ × ℚ × ℚ) : Except Err Line := do
  let sid ← pyIndex (← ts.getattr "ids") i
  let atype ← pyIndex (← ts.getattr "types") i
  let xvals ← kinds.mapM fun nmk => do
    let col ← ts.getattr nmk.1
    let v ← pyIndex col i
    return (nmk.2, v)
  let t0 ← fmtD sid
  let t1 ← fmtD atype
  let xtoks ← xvals.mapM fun kv => renderX kv.1 kv.2
  return .data ([t0, t1, .float (r5 row.1), .float (r5 row.2.1),
                 .float (r5 row.2.2)] ++ xtoks.reduceOption)

/-- `Timestep.dump(filename, rebox=False)`: the lines appended to the
output stream. -/
def Timestep.dumpLines (ts : Timestep) : Except Err (List Line) := do
  let idxTok : Tok := match ts.index with | some i => .int i | none => .str "None"
  let n ← ts.pyLen?
  let per ← ts.getattr "periodic"
  let perToks ←
    match per with
    | PyObj.flags ps => .ok (ps.map fun p => if p then "pp" else "ss")
    | _ => .error .typeError
  let bx ← ts.getattr "box"
  let boxRows ←
    match bx with
    | PyObj.boxArr rows => .ok rows
    | _ => .error .typeError
  let exO ← ts.getattr "extras"
  let exs ←
    match exO with
    | PyObj.strsO ss => .ok ss
    | _ => .error .typeError
  let kinds ← exs.mapM fun x => do
    let col ← ts.getattr x
    let k ← elem0Kind col
    return (x, k)
  let xyzO ← ts.getattr "xyz"
  let rows ←
    match xyzO with
    | PyObj.xyzArr r => .ok r
    | _ => .error .typeError
  let alines ← rows.enum.mapM fun p => atomLine ts kinds p.1 p.2
  return [Line.itemTimestep, .data [idxTok], .itemNatoms, .data [.int (n : Int)],
          .itemBoxBounds perToks]
      ++ boxRows.map (fun p => Line.data [.float (r4 p.1), .float (r4 p.2)])
      ++ [Line.itemAtoms (["id", "type", "x", "y", "z"] ++ exs)]
      ++ alines

/-! ## `Timestep.__init__` driving `_read`, and the `Dump` driver -/

/-- The initial loop state of `_read` for a `Timestep` constructed with
the given target `index`. -/
def initRState (index : Option Int) : RState :=
  ⟨some [], none, [], none, false, false, index⟩

/-- `Timestep(filepath, index, openf, stepfilter)`: run `_read` from the
stream cursor and build the record; returns the record together with the
cursor position after the call.  `shared = false` models `openf is None`
(a private stream opened at the file's start). -/
def parseTimestep (filepath : String) (file : List Line) (index : Option Int)
    (shared : Bool) (cursor : Nat) (sf : Option (List Int)) :
    Except Err (Timestep × Nat) := do
  let r ← readLoop sf shared (file.drop cursor) cursor (initRState index)
  let ts ← Timestep.ofRaw filepath r.selfIndex r.result
  return (ts, r.cursor)

/-- A `Dump` object: its path and the insertion-ordered `steps` dict. -/
structure Dump where
  filepath : String
  steps : List (Option Int × Timestep)
deriving DecidableEq, Repr

/-- `self.steps[t.index] = t` (dict assignment). -/
def stepsSet (d : List (Option Int × Timestep)) (k : Option Int) (v : Timestep) :
    List (Option Int × Timestep) :=
  match d with
  | [] => [(k, v)]
  | e :: rest => if e.1 = k then (k, v) :: rest else e :: stepsSet rest k v

/-- The `while len(t) > 0` loop of `Dump.__init__` (lines 23–27), with a
fuel bound of one parse call per remaining line plus one; the loop always
consumes lines between non-sentinel records, so the fuel suffices. -/
def dumpLoop (filepath : String) (file : List Line) (sf : Option (List Int)) :
    Nat → Nat → List (Option Int × Timestep) →
    Except Err (List (Option Int × Timestep))
  | 0, _, _ => .error .nonTermination
  | fuel + 1, cursor, acc => do
    let (t, c2) ← parseTimestep filepath file none true cursor sf
    let n ← t.pyLen?
    if n > 0 then dumpLoop filepath file sf fuel c2 (stepsSet acc t.index t)
    else .ok acc

/-- `Dump(filepath, stepfilter)` (lines 18–27). -/
def Dump.ofLines (filepath : String) (file : List Line)
    (sf : Option (List Int)) : Except Err Dump := do
  let steps ← dumpLoop filepath file sf (file.length + 1) 0 []
  return ⟨filepath, steps⟩

/-- One zipped comparison of `Dump.__eq__`: each iterated element is a
`(timestep, record)` pair from `steps.items()`, and Python tuple equality
compares the keys first, only calling `Timestep.__eq__` when they
agree. -/
def pairEq (a b : Option Int × Timestep) : Except Err Bool :=
  if a.1 ≠ b.1 then .ok false else a.2.beq b.2

/-- `all(...)` over the zipped pairs, short-circuiting on the first
`False`. -/
def allPairsEq : List ((Option Int × Timestep) × (Option Int × Timestep)) →
    Except Err Bool
  | [] => .ok true
  | p :: rest => do
    let b ← pairEq p.1 p.2
    if b then allPairsEq rest else return false

/-- `Dump.__eq__` (lines 38–41): `all(a == b for a, b in zip(self, other))`
where iteration yields the `(index, record)` items of `steps`. -/
def Dump.beq (d1 d2 : Dump) : Except Err Bool :=
  allPairsEq (d1.steps.zip d2.steps)

/-! ## Boundary extraction: `Timestep.gb` / `Timestep.gbids` -/

/-- An external selection routine (`gblearn.selection.median` /
`cna_max`): consumes the positions, the named parameter column and the
types column, and yields selected indices.  The selection algorithms are
external collaborators, so they are parameters of the model. -/
def SelFn := PyObj → PyObj → PyObj → List Nat

/-- The external `GrainBoundary` constructor's arguments, as `gb` passes
them (`gblearn.gb.GrainBoundary` itself is an external collaborator). -/
structure GrainBoundary where
  xyz : List (ℚ × ℚ × ℚ)
  types : List Val
  box : PyObj
  Z : Val
  extras : Option (List (String × PyObj))
deriving Repr

/-- `Timestep.gbids` (lines 163–195): look the method name up in the
registry and invoke it on `(self.xyz, getattr(self, pattr),
types=self.types)`; an unknown name falls through and returns `None`. -/
def Timestep.gbids (ts : Timestep) (selMedian selCna : SelFn)
    (method pattr : String) : Except Err (Option (List Nat)) :=
  if method = "median" ∨ method = "cna" then do
    let xyzO ← ts.getattr "xyz"
    let p ← ts.getattr pattr
    let tys ← ts.getattr "types"
    return some ((if method = "median" then selMedian else selCna) xyzO p tys)
  else return none

/-- Select the atoms at `ids` from the position and type columns
(`self.xyz[ids,:]`, `self.types[ids]`). -/
def selectRows (p : PyObj) (ids : List Nat) : Except Err PyObj :=
  match p with
  | .xyzArr rows => do
    let sel ← ids.mapM fun i =>
      match rows.get? i with
      | some r => .ok r
      | none => .error .indexError
    return .xyzArr sel
  | .arr o vs => do
    let sel ← ids.mapM fun i =>
      match vs.get? i with
      | some v => .ok v
      | none => .error .indexError
    return .arr o sel
  | _ => .error .typeError

/-- `Timestep.gb` (lines 128–161): the required-species check at
lines 149–151 (`raise ValueError` when `Z is None`) runs before
`gbids` — and hence before any selection routine — is invoked. -/
def Timestep.gb (ts : Timestep) (Z : Option Val) (method pattr : String)
    (extras : Bool) (selMedian selCna : SelFn) : Except Err GrainBoundary := do
  if Z.isNone then .error .valueError
  else do
    let ids? ← ts.gbids selMedian selCna method pattr
    let ids := ids?.getD []
    let x ←
      if extras then do
        let exO ← ts.getattr "extras"
        match exO with
        | PyObj.strsO ss => do
          let cols ← ss.mapM fun k => do
            let col ← ts.getattr k
            let sel ← selectRows col ids
            return (k, sel)
          pure (some cols)
        | _ => .error .typeError
      else pure none
    let xyzO ← ts.getattr "xyz"
    let xyzSel ← selectRows xyzO ids
    let xyzRows ←
      match xyzSel with
      | PyObj.xyzArr rows => .ok rows
      | _ => .error .typeError
    let tysO ← ts.getattr "types"
    let tysSel ← selectRows tysO ids
    let tys ←
      match tysSel with
      | PyObj.arr _ vs => .ok vs
      | _ => .error .typeError
    let bx ← ts.getattr "box"
    return ⟨xyzRows, tys, bx, Z.getD (.vInt 0), x⟩

/-! ## A well-formed single-record line family

`mkRecordLines` builds the lines of one complete record of the §6 grammar:
a TIMESTEP header and value, the atom count, the box header with its
periodicity tokens and three bound rows, the ATOMS header and one data
line per atom.  All the general theorems below quantify over this
family. -/

/-- One atom data row: the five fixed fields and the trailing extra
tokens. -/
structure ARow where
  sid : Int
  ty : Int
  x : ℚ
  y : ℚ
  z : ℚ
  xtra : List Tok
deriving DecidableEq, Repr

def mkAtomLine (r : ARow) : Line :=
  .data ([.int r.sid, .int r.ty, .float r.x, .float r.y, .float r.z] ++ r.xtra)

def mkRecordLines (t n : Int) (per : List String) (b1 b2 b3 : ℚ × ℚ)
    (names : List String) (rows : List ARow) : List Line :=
  [.itemTimestep, .data [.int t], .itemNatoms, .data [.int n],
   .itemBoxBounds per,
   .data [.float b1.1, .float b1.2], .data [.float b2.1, .float b2.2],
   .data [.float b3.1, .float b3.2],
   .itemAtoms names]
  ++ rows.map mkAtomLine

/-- A numeric token (one that `eval` accepts). -/
def Tok.isNum : Tok → Bool
  | .str _ => false
  | _ => true

/-- The value a numeric token evaluates to. -/
def numV : Tok → Val
  | .int n => .vInt n
  | .float q => .vFloat q
  | .str s => .vStr s

/-- The values of the `j`-th extra column collected over the atom rows. -/
def colVals (rows : List ARow) (j : Nat) : List Val :=
  rows.map (fun r => numV (r.xtra.getD j (.str "")))

/-- The extra-column region of the parser's dict: one entry
`("atom:<name>", list of collected scalars)` per extra heading, holding
bare names paired with their column values. -/
def xcolsD (xc : List (String × List Val)) : RawDict :=
  xc.map (fun p => ("atom:" ++ p.1, DVal.many (p.2.map CVal.one)))

/-- Extend each accumulated extra column with the corresponding value of
one atom row. -/
def zipExtend (xc : List (String × List Val)) (vs : List Val) :
    List (String × List Val) :=
  List.zipWith (fun p v => (p.1, p.2 ++ [v])) xc vs

/-- Extend the accumulated extra columns with every row in order. -/
def extendAll (xc : List (String × List Val)) (rows : List ARow) :
    List (String × List Val) :=
  rows.foldl (fun cs r => zipExtend cs (r.xtra.map numV)) xc

/-- The parser's `result` dict while the atoms section is being consumed:
the six scalar/box entries, the three fixed columns accumulated so far,
and the extra-column region. -/
def atomsDict (t n : Int) (per : List String) (b1 b2 b3 : ℚ × ℚ)
    (tys ids : List Int) (ps : List (ℚ × ℚ × ℚ))
    (xc : List (String × List Val)) : RawDict :=
  [("time", .single (.one (.vInt t))),
   ("natoms", .single (.one (.vInt n))),
   ("periodic", .strs per),
   ("box", .many [.row [.vFloat b1.1, .vFloat b1.2], .row [.vFloat b2.1, .vFloat b2.2],
                  .row [.vFloat b3.1, .vFloat b3.2]]),
   ("type", .many (tys.map (fun k => CVal.one (Val.vInt k)))),
   ("id", .many (ids.map (fun k => CVal.one (Val.vInt k)))),
   ("xyz", .many (ps.map (fun v => CVal.row [.vFloat v.1, .vFloat v.2.1, .vFloat v.2.2])))]
  ++ xcolsD xc

/-- The `Timestep` that parsing a well-formed `mkRecordLines` file (with
no target index, no filter) produces: types/ids/xyz from the atom rows,
`extras` seeded with `"ids"` followed by the extra headings, one
homogenized column attribute per heading, then the periodicity flags and
the box. -/
def recTimestep (fp : String) (t : Int) (per : List String) (b1 b2 b3 : ℚ × ℚ)
    (xnames : List String) (rows : List ARow) : Timestep :=
  ⟨fp, some t,
   [("types", .arr false ((rows.map ARow.ty).map Val.vInt)),
    ("ids", .arr false ((rows.map ARow.sid).map Val.vInt)),
    ("xyz", .xyzArr (rows.map (fun r => (r.x, r.y, r.z)))),
    ("extras", .strsO ("ids" :: xnames))]
   ++ xnames.mapIdx (fun j nm => (nm, npHomog (colVals rows j)))
   ++ [("periodic",
        .flags ((if per.isEmpty then ["ss", "ss", "ss"] else per).map (fun p => p == "pp"))),
       ("box", .boxArr [b1, b2, b3])]⟩

/-- Attribute names an extra heading must avoid in order not to shadow a
fixed record attribute on `setattr`, and headings must be colon-free for
`key.split(':')[1]` to recover them. -/
def goodName (nm : String) : Prop :=
  (':' ∉ nm.data) ∧
  nm ∉ (["types", "ids", "xyz", "extras", "periodic", "box"] : List String)

instance (nm : String) : Decidable (goodName nm) := by
  unfold goodName
  infer_instance

/-! ## Concrete example inputs -/

/-- One complete record with index `t` and a single atom, no extra
columns. -/
def egRec (t : Int) : List Line :=
  mkRecordLines t 1 ["pp", "pp", "pp"] (0, 10) (0, 10) (0, 10)
    ["id", "type", "x", "y", "z"]
    [⟨1, 1, mkRat 1 2, mkRat 3 2, mkRat 5 2, []⟩]

/-- A four-record file with TIMESTEP values `[0, 1, 2, 3]`. -/
def egFile4 : List Line := egRec 0 ++ egRec 1 ++ egRec 2 ++ egRec 3

/-- A record declaring `NUMBER OF ATOMS 10` but containing a single atom
line. -/
def egMismatch : List Line :=
  mkRecordLines 0 10 [] (0, 10) (0, 10) (0, 10)
    ["id", "type", "x", "y", "z"]
    [⟨1, 1, mkRat 1 2, mkRat 3 2, mkRat 5 2, []⟩]

/-- A file whose first record has TIMESTEP value 7 (then one more record
at 9), for seeking a smaller target. -/
def egFile79 : List Line := egRec 7 ++ egRec 9

/-- A record whose atom line carries the non-numeric extra token `abc`
under the extra heading `c_csd`. -/
def egStrExtra : List Line :=
  mkRecordLines 0 1 [] (0, 10) (0, 10) (0, 10)
    ["id", "type", "x", "y", "z", "c_csd"]
    [⟨1, 1, mkRat 1 2, mkRat 3 2, mkRat 5 2, [.str "abc"]⟩]

/-- Parse one record, write it back (`rebox=False`), parse the written
text again; yields the original and re-parsed records. -/
def roundTrip (file : List Line) : Except Err (Timestep × Timestep) := do
  let p ← parseTimestep "f" file none false 0 none
  let w ← p.1.dumpLines
  let p2 ← parseTimestep "g" w none false 0 none
  return (p.1, p2.1)

/-- The one-atom record content shared by the concrete examples, as a
`Timestep` value (what parsing `egRec 0` yields). -/
def egTs : Timestep :=
  ⟨"f", some 0,
   [("types", .arr false [.vInt 1]), ("ids", .arr false [.vInt 1]),
    ("xyz", .xyzArr [(mkRat 1 2, mkRat 3 2, mkRat 5 2)]),
    ("extras", .strsO ["ids"]),
    ("periodic", .flags [true, true, true]),
    ("box", .boxArr [(0, 10), (0, 10), (0, 10)])]⟩

/-- A row with its first extra token removed (used to peel the extra
columns off one position at a time). -/
def xtail (r : ARow) : ARow := ⟨r.sid, r.ty, r.x, r.y, r.z, r.xtra.tail⟩

/-- The format kind lines 229–235 assign to an all-numeric extra column:
`int64` when every collected value is an `int`, `float64` as soon as one
value is a `float` (numpy promotes the whole column). -/
def colKind (c : List Val) : FmtK :=
  if c.any valIsFloat then .kFloat else .kInt

/-- The token the writer emits for one extra value of a column of the
given kind: `{:d}` for an `int64` column, `{:.5e}` for a `float64`
column (an `int` collected into a promoted column was already promoted
by `np.array`). -/
def wTok (k : FmtK) (v : Val) : Tok :=
  match k, v with
  | .kInt, .vInt m => .int m
  | .kFloat, .vInt m => .float (r5e (m : ℚ))
  | .kFloat, .vFloat q => .float (r5e q)
  | _, _ => .str ""

/-- The atom row the writer emits for a parsed row `r`: `id` and `type`
unchanged, the position rounded to 5 decimals, and the extra tokens:
first the `id` again (under the extras heading `"ids"`), then each extra
column's value formatted by that column's kind. -/
def wRow (rows : List ARow) (nms : List String) (r : ARow) : ARow :=
  ⟨r.sid, r.ty, r5 r.x, r5 r.y, r5 r.z,
   Tok.int r.sid :: nms.mapIdx fun j _ =>
     wTok (colKind (colVals rows j)) (numV (r.xtra.getD j (.str "")))⟩

/-! ## General lemmas -/

@[simp] theorem exc_bind_ok {α β : Type _} (a : α) (f : α → Except Err β) :
    (Except.ok a >>= f) = f a := rfl

@[simp] theorem exc_bind_err {α β : Type _} (e : Err) (f : α → Except Err β) :
    ((Except.error e : Except Err α) >>= f) = Except.error e := rfl

@[simp] theorem exc_map_ok {α β : Type _} (a : α) (f : α → β) :
    (f <$> (Except.ok a : Except Err α)) = Except.ok (f a) := rfl

@[simp] theorem exc_map_err {α β : Type _} (e : Err) (f : α → β) :
    (f <$> (Except.error e : Except Err α)) = Except.error e := rfl

@[simp] theorem exc_pure_eq {α : Type _} (a : α) :
    (pure a : Except Err α) = Except.ok a := rfl

/-- While `timeskip` holds with an empty cast stack, every line that is
not a `TIMESTEP` header is consumed without any effect on the state. -/
theorem readLoop_skip (sf : Option (List Int)) (shared : Bool)
    (ls rest : List Line) (pos : Nat) (cur : Option String) (res : RawDict)
    (xk : Option (List String)) (ls2 : Bool) (sidx : Option Int)
    (hno : ∀ l ∈ ls, l.isTimestepHdr = false) :
    readLoop sf shared (ls ++ rest) pos ⟨some [], cur, res, xk, true, ls2, sidx⟩
    = readLoop sf shared rest (pos + ls.length) ⟨some [], cur, res, xk, true, ls2, sidx⟩ := by
  induction ls generalizing pos with
  | nil => simp
  | cons l ls ih =>
    have hl : l.isTimestepHdr = false := hno l (by simp)
    have hrec := ih (pos + 1) (fun x hx => hno x (by simp [hx]))
    have harith : pos + 1 + ls.length = pos + (l :: ls).length := by
      simp only [List.length_cons]
      omega
    simp only [List.cons_append, readLoop, hl, Bool.false_eq_true, if_false, if_true]
    rw [show ls.append rest = ls ++ rest from rfl, hrec, harith]

/-! ### String-key lemmas -/

theorem atomKey_data (nm : String) :
    ("atom:" ++ nm).data = 'a' :: 't' :: 'o' :: 'm' :: ':' :: nm.data := by
  rw [String.data_append]
  rfl

theorem atomKey_ne (nm s : String) (hs : s.data.head? ≠ some 'a') :
    "atom:" ++ nm ≠ s := by
  intro h
  apply hs
  rw [← h, atomKey_data]
  rfl

theorem atomKey_inj {a b : String} (h : "atom:" ++ a = "atom:" ++ b) : a = b := by
  have hd := congrArg String.data h
  rw [atomKey_data, atomKey_data] at hd
  simp only [List.cons.injEq, true_and] at hd
  exact String.ext hd

theorem strHasSub_atomKey (nm : String) : strHasSub ("atom:" ++ nm) "atom:" = true := by
  show hasSubAux "atom:".data ("atom:" ++ nm).data = true
  rw [atomKey_data]
  show ("atom:".data.isPrefixOf ('a' :: 't' :: 'o' :: 'm' :: ':' :: nm.data)
    || hasSubAux "atom:".data ('t' :: 'o' :: 'm' :: ':' :: nm.data)) = true
  have hp : "atom:".data.isPrefixOf ('a' :: 't' :: 'o' :: 'm' :: ':' :: nm.data) = true := by
    show List.isPrefixOf ['a', 't', 'o', 'm', ':'] _ = true
    simp [List.isPrefixOf]
  simp [hp]

theorem takeUntilColon_all (l : List Char) (h : ':' ∉ l) : takeUntilColon l = l := by
  induction l with
  | nil => rfl
  | cons c rest ih =>
    have hc : c ≠ ':' := fun hc => h (by simp [hc])
    simp [takeUntilColon, hc, ih (fun hr => h (by simp [hr]))]

theorem quantOf_atomKey (nm : String) (h : ':' ∉ nm.data) :
    quantOf ("atom:" ++ nm) = nm := by
  unfold quantOf
  rw [atomKey_data]
  show (⟨takeUntilColon (dropToColon ('a' :: 't' :: 'o' :: 'm' :: ':' :: nm.data))⟩ : String) = nm
  have hdrop : dropToColon ('a' :: 't' :: 'o' :: 'm' :: ':' :: nm.data) = nm.data := by
    simp [dropToColon]
  rw [hdrop, takeUntilColon_all nm.data h]

/-! ### Dict and attribute-table lemmas -/

theorem dictAppend_front (a d : RawDict) (k : String) (c : CVal)
    (h : ∀ e ∈ a, e.1 ≠ k) :
    dictAppend (a ++ d) k c = (a ++ ·) <$> dictAppend d k c := by
  induction a with
  | nil => cases hx : dictAppend d k c <;> simp [hx]
  | cons e a ih =>
    have he : e.1 ≠ k := h e (by simp)
    have iha := ih (fun x hx => h x (by simp [hx]))
    simp only [List.cons_append, dictAppend, he, if_false]
    rw [show a.append d = a ++ d from rfl, iha]
    cases dictAppend d k c <;> simp

theorem dictAppend_head_many (k : String) (cs : List CVal) (rest : RawDict) (c : CVal) :
    dictAppend ((k, DVal.many cs) :: rest) k c
    = .ok ((k, DVal.many (cs ++ [c])) :: rest) := by
  simp [dictAppend]

theorem attrGet_append_right (a b : List (String × PyObj)) (k : String)
    (h : ∀ e ∈ a, e.1 ≠ k) :
    attrGet (a ++ b) k = attrGet b k := by
  induction a with
  | nil => rfl
  | cons e a ih =>
    have he : e.1 ≠ k := h e (by simp)
    simp only [List.cons_append, attrGet, List.find?]
    rw [show (e.1 == k) = false by simp [he]]
    exact ih (fun x hx => h x (by simp [hx]))

theorem attrGet_cons_self (k : String) (v : PyObj) (rest : List (String × PyObj)) :
    attrGet ((k, v) :: rest) k = .ok v := by
  simp [attrGet, List.find?]

theorem attrSet_fresh (a : List (String × PyObj)) (k : String) (v : PyObj)
    (h : ∀ e ∈ a, e.1 ≠ k) :
    attrSet a k v = a ++ [(k, v)] := by
  induction a with
  | nil => rfl
  | cons e a ih =>
    have he : e.1 ≠ k := h e (by simp)
    simp only [attrSet, he, if_false, List.cons_append]
    exact congrArg (e :: ·) (ih (fun x hx => h x (by simp [hx])))

theorem attrSet_found (front back : List (String × PyObj)) (k : String) (x v : PyObj)
    (h : ∀ e ∈ front, e.1 ≠ k) :
    attrSet (front ++ (k, x) :: back) k v = front ++ (k, v) :: back := by
  induction front with
  | nil => simp [attrSet]
  | cons e a ih =>
    have he : e.1 ≠ k := h e (by simp)
    simp only [List.cons_append, attrSet, he, if_false]
    exact congrArg (e :: ·) (ih (fun y hy => h y (by simp [hy])))

theorem mapM_asOne_ones (vs : List Val) :
    (vs.map CVal.one).mapM asOne = .ok vs := by
  induction vs with
  | nil => rfl
  | cons v rest ih =>
    rw [List.map_cons, List.mapM_cons, ih]
    rfl

theorem mapM_pyInt_ints (ns : List Int) :
    (ns.map Val.vInt).mapM pyIntOfVal = .ok ns := by
  induction ns with
  | nil => rfl
  | cons v rest ih =>
    rw [List.map_cons, List.mapM_cons, ih]
    rfl

theorem npIntArr_ints (ns : List Int) :
    npIntArr (ns.map (fun k => CVal.one (Val.vInt k)))
    = .ok (.arr false (ns.map Val.vInt)) := by
  have h1 : ns.map (fun k => CVal.one (Val.vInt k)) = (ns.map Val.vInt).map CVal.one := by
    simp [List.map_map]
  rw [npIntArr, h1, mapM_asOne_ones]
  rw [exc_bind_ok, mapM_pyInt_ints]
  rfl

theorem npXyzArr_rows (ps : List (ℚ × ℚ × ℚ)) :
    npXyzArr (ps.map (fun v => CVal.row [.vFloat v.1, .vFloat v.2.1, .vFloat v.2.2]))
    = .ok (.xyzArr ps) := by
  rw [npXyzArr]
  have hm : (ps.map (fun v => CVal.row [.vFloat v.1, .vFloat v.2.1, .vFloat v.2.2])).mapM
      (fun c => match c with
        | CVal.row [Val.vFloat x, Val.vFloat y, Val.vFloat z] => Except.ok (x, y, z)
        | _ => Except.error Err.typeError) = Except.ok ps := by
    induction ps with
    | nil => rfl
    | cons p rest ih =>
      rw [List.map_cons, List.mapM_cons, ih]
      rfl
  rw [hm]
  rfl

/-- `allPairsEq` succeeds when every zipped pair has equal keys and
record values that compare equal. -/
theorem allPairsEq_ok (l : List ((Option Int × Timestep) × (Option Int × Timestep)))
    (h : ∀ p ∈ l, p.1.1 = p.2.1 ∧ p.1.2.beq p.2.2 = .ok true) :
    allPairsEq l = .ok true := by
  induction l with
  | nil => rfl
  | cons p rest ih =>
    obtain ⟨h1, h2⟩ := h p (by simp)
    have hrest := ih (fun q hq => h q (by simp [hq]))
    simp [allPairsEq, pairEq, h1, h2, hrest]

theorem zip_self_append {α : Type _} (a t : List α) : a.zip (a ++ t) = a.zip a := by
  induction a with
  | nil => rfl
  | cons x xs ih =>
    simp only [List.cons_append, List.zip_cons_cons]
    exact congrArg _ ih

theorem append_zip_self {α : Type _} (a t : List α) : (a ++ t).zip a = a.zip a := by
  induction a with
  | nil => simp
  | cons x xs ih =>
    simp only [List.cons_append, List.zip_cons_cons]
    exact congrArg _ ih

theorem zip_self_eq_map {α : Type _} (a : List α) :
    a.zip a = a.map (fun x => (x, x)) := by
  induction a with
  | nil => rfl
  | cons x xs ih =>
    simp only [List.zip_cons_cons, List.map_cons]
    exact congrArg _ ih

/-! ## Claim theorems -/

/-- C2: the claim says constructing a `Dump` over a file with TIMESTEP
values `[0,1,2,3]` and allow-list `{0,2}` succeeds and keeps exactly
records 0 and 2.  The code instead raises `AttributeError`: the skipped
record stored its TIMESTEP value as a scalar under `result["time"]`, and
the next record's value line then calls `.append` on that `int`
(line 308).  This theorem evaluates the code at the failing input. -/
theorem claim_C2_filter_crash :
    Dump.ofLines "f" egFile4 (some [0, 2]) = .error .attributeError := by decide

/-- C3: the claim says a record declaring 10 atoms but containing 9 atom
lines parses with a warning and no exception.  The code instead raises
`IndexError`: the warning text is built by `wmsg.format(self.filepath)`,
one argument for a three-placeholder format string (line 114), so
`msg.warn` is never reached.  This theorem evaluates the code at the
failing input (declared count 10, one actual atom line). -/
theorem claim_C3_mismatch_raises :
    parseTimestep "f" egMismatch none false 0 none = .error .indexError := by decide

/-- C7: parsing with a target index on a private (non-shared) stream
whose next TIMESTEP value exceeds the target returns the empty sentinel
record immediately (lines 289–292, `return {}`), with no exception. -/
theorem claim_C7_forward_seek (fp : String) (i v : Int) (rest : List Line)
    (h : i < v) :
    parseTimestep fp (.itemTimestep :: .data [.int v] :: rest) (some i) false 0 none
    = .ok (⟨fp, some i, sentinelAttrs⟩, 2) := by
  have hne : v ≠ i := ne_of_gt h
  simp [parseTimestep, readLoop, initRState, Line.isTimestepHdr, castLine, castTok,
        Line.toks, mkCVal, timeBranch, timeCmp, hne, h, Timestep.ofRaw]

theorem claim_C7_witness :
    (5 : Int) < 7 ∧
    parseTimestep "f" (.itemTimestep :: .data [.int 7] :: []) (some 5) false 0 none
      = .ok (⟨"f", some 5, sentinelAttrs⟩, 2) :=
  ⟨by decide, claim_C7_forward_seek "f" 5 7 [] (by decide)⟩

/-- C4 (counterexample): the claim says that after the shared-stream
lookahead reads TIMESTEP value 7 while seeking target 5, the cursor is
rewound to just before that same TIMESTEP header (position 0 here, so no
bytes of the record are lost).  In fact the parse returns with the cursor
at position 10 — past the whole 10-line record of value 7, just before
the NEXT record's header. -/
theorem claim_C4_counterexample :
    (parseTimestep "f" egFile79 (some 5) true 0 none).map Prod.snd = .ok 10 ∧
    egFile79[0]? = some Line.itemTimestep ∧
    egFile79[10]? = some Line.itemTimestep ∧ (10 : Nat) ≠ 0 := by decide

/-- C4 (amended): on a shared stream, when the TIMESTEP value `v` read
while seeking target `i < v` is too large, the parser consumes the whole
record (tokenizing and discarding its sections) and returns the sentinel
with the cursor positioned just before the NEXT `ITEM: TIMESTEP` header —
not before the header of the record it just read. -/
theorem claim_C4_lookahead (fp : String) (i v : Int) (body rest : List Line)
    (hv : i < v) (hb : ∀ l ∈ body, l.isTimestepHdr = false) :
    parseTimestep fp
      ((Line.itemTimestep :: Line.data [Tok.int v] :: body) ++ Line.itemTimestep :: rest)
      (some i) true 0 none
    = .ok (⟨fp, some i, sentinelAttrs⟩, 2 + body.length) := by
  have hne : v ≠ i := ne_of_gt hv
  simp only [parseTimestep, initRState, List.drop_zero, List.cons_append]
  simp [readLoop, Line.isTimestepHdr, castLine, castTok, Line.toks, mkCVal,
        timeBranch, timeCmp, hne, hv, storeValue, dictMem, dictSet]
  rw [readLoop_skip none true body (Line.itemTimestep :: rest) 2 (some "time") _ none
        true (some i) hb]
  simp [readLoop, Line.isTimestepHdr, Timestep.ofRaw]

theorem claim_C4_witness :
    ((5 : Int) < 7 ∧ ∀ l ∈ (egRec 7).drop 2, l.isTimestepHdr = false) ∧
    parseTimestep "f"
      ((Line.itemTimestep :: Line.data [Tok.int 7] :: (egRec 7).drop 2)
        ++ Line.itemTimestep :: (egRec 9).drop 1)
      (some 5) true 0 none
    = .ok (⟨"f", some 5, sentinelAttrs⟩, 2 + ((egRec 7).drop 2).length) :=
  ⟨⟨by decide, by decide⟩, claim_C4_lookahead "f" 5 7 _ _ (by decide) (by decide)⟩

/-- C5 (counterexample): the claim says two Dumps with pairwise-equal
record values compare equal even when the stored integer keys differ.
With identical single records under keys 0 and 1, `Dump.__eq__` returns
`False`, because iteration yields `(key, record)` tuples and tuple
equality compares the keys too; the records themselves compare equal. -/
theorem claim_C5_counterexample :
    Dump.beq ⟨"a", [(some 0, egTs)]⟩ ⟨"b", [(some 1, egTs)]⟩ = .ok false ∧
    Timestep.beq egTs egTs = .ok true := by decide

/-- C5 (amended): `Dump.__eq__` compares the zipped `(index, record)`
pairs of the two iteration sequences: it returns `True` exactly when each
zipped pair has equal keys and record values that compare equal — the
timestep keys ARE compared, so renumbered trajectories compare
unequal. -/
theorem claim_C5_eq_with_keys (d1 d2 : Dump)
    (h : ∀ p ∈ d1.steps.zip d2.steps, p.1.1 = p.2.1 ∧ p.1.2.beq p.2.2 = .ok true) :
    d1.beq d2 = .ok true :=
  allPairsEq_ok _ h

theorem claim_C5_witness :
    (∀ p ∈ (Dump.steps ⟨"a", [(some 0, egTs)]⟩).zip (Dump.steps ⟨"b", [(some 0, egTs)]⟩),
        p.1.1 = p.2.1 ∧ p.1.2.beq p.2.2 = .ok true) ∧
    Dump.beq ⟨"a", [(some 0, egTs)]⟩ ⟨"b", [(some 0, egTs)]⟩ = .ok true :=
  ⟨by decide, claim_C5_eq_with_keys ⟨"a", [(some 0, egTs)]⟩ ⟨"b", [(some 0, egTs)]⟩
    (by decide)⟩

/-- C9: invoking `Timestep.gb` without the species parameter `Z` fails
with `ValueError` (lines 149–151) before any selection routine can run —
the result is this error for EVERY selection function the model could
dispatch to. -/
theorem claim_C9_missing_Z (ts : Timestep) (method pattr : String) (extras : Bool)
    (selMedian selCna : SelFn) :
    ts.gb none method pattr extras selMedian selCna = .error .valueError := rfl

/-- C10: `Dump.__eq__` zips the two iteration sequences and stops at the
shorter one without comparing lengths, so a Dump whose sequence is a
prefix of another's compares equal to it (in both orders), provided each
of its records compares equal to itself. -/
theorem claim_C10_zip_prefix (d1 d2 : Dump) (t : List (Option Int × Timestep))
    (h2 : d2.steps = d1.steps ++ t)
    (hself : ∀ p ∈ d1.steps, p.2.beq p.2 = .ok true) :
    d1.beq d2 = .ok true ∧ d2.beq d1 = .ok true := by
  constructor
  · show allPairsEq (d1.steps.zip d2.steps) = .ok true
    rw [h2, zip_self_append, zip_self_eq_map]
    apply allPairsEq_ok
    intro p hp
    simp only [List.mem_map] at hp
    obtain ⟨x, hx, rfl⟩ := hp
    exact ⟨rfl, hself x hx⟩
  · show allPairsEq (d2.steps.zip d1.steps) = .ok true
    rw [h2, append_zip_self, zip_self_eq_map]
    apply allPairsEq_ok
    intro p hp
    simp only [List.mem_map] at hp
    obtain ⟨x, hx, rfl⟩ := hp
    exact ⟨rfl, hself x hx⟩

theorem claim_C10_witness :
    ((Dump.steps ⟨"b", [(some 0, egTs), (some 1, egTs), (some 2, egTs)]⟩
        = Dump.steps ⟨"a", [(some 0, egTs), (some 1, egTs)]⟩ ++ [(some 2, egTs)]) ∧
      (∀ p ∈ Dump.steps ⟨"a", [(some 0, egTs), (some 1, egTs)]⟩,
        p.2.beq p.2 = .ok true)) ∧
    Dump.beq ⟨"a", [(some 0, egTs), (some 1, egTs)]⟩
        ⟨"b", [(some 0, egTs), (some 1, egTs), (some 2, egTs)]⟩ = .ok true ∧
    Dump.beq ⟨"b", [(some 0, egTs), (some 1, egTs), (some 2, egTs)]⟩
        ⟨"a", [(some 0, egTs), (some 1, egTs)]⟩ = .ok true :=
  ⟨⟨by decide, by decide⟩,
    claim_C10_zip_prefix ⟨"a", [(some 0, egTs), (some 1, egTs)]⟩
      ⟨"b", [(some 0, egTs), (some 1, egTs), (some 2, egTs)]⟩ [(some 2, egTs)]
      (by decide) (by decide)⟩

/-- C6 (counterexample): the claim says a non-numeric extra token is
"left as emitted (stored unchanged, without raising)".  In fact the code
applies `eval` to it (line 326), and a bare non-numeric token such as
`abc` raises `NameError`, aborting the parse. -/
theorem claim_C6_counterexample :
    parseTimestep "f" egStrExtra none false 0 none = .error .nameError := by decide

/-- C1 (counterexample): the claim says a parsed record with at least one
atom, written with `rebox=False` and re-parsed, equals the original
(exact extra-column name list included).  For the one-atom record parsed
from `egRec 0` the round trip yields a record that compares UNEQUAL: the
writer emits the id column a second time under the extra heading "ids",
so the re-parsed record's extras list is `["ids", "ids"] ≠ ["ids"]`. -/
theorem claim_C1_counterexample :
    (do
      let p ← roundTrip (egRec 0)
      let n ← p.1.pyLen?
      let b ← p.1.beq p.2
      pure (n, b)) = Except.ok (1, false) := by decide

end GBLearn

namespace GBLearn

theorem evalTok_isNum (t : Tok) (h : t.isNum = true) : evalTok t = .ok (numV t) := by
  cases t with
  | int n => rfl
  | float q => rfl
  | str s => simp [Tok.isNum] at h

theorem appendExtras_region (xc : List (String × List Val)) (pre : RawDict) (ts : List Tok)
    (hpre : ∀ e ∈ pre, ∀ p ∈ xc, e.1 ≠ "atom:" ++ p.1)
    (hnd : (xc.map Prod.fst).Nodup)
    (hnum : ∀ tk ∈ ts, tk.isNum = true)
    (hlen : ts.length = xc.length) :
    appendExtras (pre ++ xcolsD xc) (xc.map (fun p => "atom:" ++ p.1)) ts
    = .ok (pre ++ xcolsD (zipExtend xc (ts.map numV))) := by
  induction xc generalizing pre ts with
  | nil =>
    cases ts with
    | nil => simp [appendExtras, xcolsD, zipExtend]
    | cons t tr => simp at hlen
  | cons p xcr ih =>
    cases ts with
    | nil => simp at hlen
    | cons t tr =>
      rw [List.map_cons, List.nodup_cons] at hnd
      have hkent : ∀ e ∈ pre, e.1 ≠ "atom:" ++ p.1 := fun e he => hpre e he p (by simp)
      have hev : evalTok t = .ok (numV t) := evalTok_isNum t (hnum t (by simp))
      have hda : dictAppend (pre ++ xcolsD (p :: xcr)) ("atom:" ++ p.1)
          (.one (numV t))
          = .ok (pre ++ ("atom:" ++ p.1,
              DVal.many ((p.2 ++ [numV t]).map CVal.one)) :: xcolsD xcr) := by
        show dictAppend (pre ++ (("atom:" ++ p.1, DVal.many (p.2.map CVal.one)) :: xcolsD xcr))
            ("atom:" ++ p.1) (.one (numV t)) = _
        rw [dictAppend_front pre _ _ _ hkent, dictAppend_head_many]
        simp [List.map_append]
      show appendExtras (pre ++ xcolsD (p :: xcr))
          (("atom:" ++ p.1) :: xcr.map (fun q => "atom:" ++ q.1)) (t :: tr) = _
      rw [appendExtras, hev, exc_bind_ok, hda, exc_bind_ok]
      have hpre2 : ∀ e ∈ pre ++ [("atom:" ++ p.1,
          DVal.many ((p.2 ++ [numV t]).map CVal.one))], ∀ q ∈ xcr, e.1 ≠ "atom:" ++ q.1 := by
        intro e he q hq
        rcases List.mem_append.mp he with h1 | h2
        · exact hpre e h1 q (by simp [hq])
        · simp only [List.mem_singleton] at h2
          subst h2
          intro hk
          have hpq := atomKey_inj hk
          exact hnd.1 (hpq ▸ List.mem_map_of_mem Prod.fst hq)
      have hrec := ih (pre ++ [("atom:" ++ p.1,
          DVal.many ((p.2 ++ [numV t]).map CVal.one))]) tr hpre2 hnd.2
        (fun tk htk => hnum tk (by simp [htk])) (by simpa using hlen)
      rw [show pre ++ ("atom:" ++ p.1, DVal.many ((p.2 ++ [numV t]).map CVal.one))
            :: xcolsD xcr
          = (pre ++ [("atom:" ++ p.1, DVal.many ((p.2 ++ [numV t]).map CVal.one))])
            ++ xcolsD xcr by simp]
      rw [hrec]
      simp [xcolsD, zipExtend]

end GBLearn

namespace GBLearn

theorem mkAtomLine_noITEM (r : ARow) (h : ∀ tk ∈ r.xtra, tk.isNum = true) :
    (mkAtomLine r).hasITEM = false := by
  simp only [mkAtomLine, Line.hasITEM, List.any_append, Bool.or_eq_false_iff]
  refine ⟨rfl, ?_⟩
  rw [List.any_eq_false]
  intro tk htk
  cases tk with
  | int n => simp
  | float q => simp
  | str s => exact absurd (h _ htk) (by simp [Tok.isNum])

theorem zipExtend_keys (xc : List (String × List Val)) (vs : List Val)
    (h : vs.length = xc.length) :
    (zipExtend xc vs).map Prod.fst = xc.map Prod.fst := by
  induction xc generalizing vs with
  | nil => simp [zipExtend]
  | cons p xcr ih =>
    cases vs with
    | nil => simp at h
    | cons v vr =>
      simp only [zipExtend, List.zipWith_cons_cons, List.map_cons]
      rw [show List.zipWith (fun p v => (p.1, p.2 ++ [v])) xcr vr = zipExtend xcr vr from rfl]
      rw [ih vr (by simpa using h)]

theorem zipExtend_length (xc : List (String × List Val)) (vs : List Val)
    (h : vs.length = xc.length) :
    (zipExtend xc vs).length = xc.length := by
  simp [zipExtend, h]

theorem atomsDict_app_type (t n : Int) (per : List String) (b1 b2 b3 : ℚ × ℚ)
    (tys ids : List Int) (ps : List (ℚ × ℚ × ℚ)) (xc : List (String × List Val)) (k : Int) :
    dictAppend (atomsDict t n per b1 b2 b3 tys ids ps xc) "type" (.one (.vInt k))
    = .ok (atomsDict t n per b1 b2 b3 (tys ++ [k]) ids ps xc) := by
  simp [atomsDict, dictAppend, List.map_append]

theorem atomsDict_app_id (t n : Int) (per : List String) (b1 b2 b3 : ℚ × ℚ)
    (tys ids : List Int) (ps : List (ℚ × ℚ × ℚ)) (xc : List (String × List Val)) (k : Int) :
    dictAppend (atomsDict t n per b1 b2 b3 tys ids ps xc) "id" (.one (.vInt k))
    = .ok (atomsDict t n per b1 b2 b3 tys (ids ++ [k]) ps xc) := by
  simp [atomsDict, dictAppend, List.map_append]

theorem atomsDict_app_xyz (t n : Int) (per : List String) (b1 b2 b3 : ℚ × ℚ)
    (tys ids : List Int) (ps : List (ℚ × ℚ × ℚ)) (xc : List (String × List Val))
    (x y z : ℚ) :
    dictAppend (atomsDict t n per b1 b2 b3 tys ids ps xc) "xyz"
      (.row [.vFloat x, .vFloat y, .vFloat z])
    = .ok (atomsDict t n per b1 b2 b3 tys ids (ps ++ [(x, y, z)]) xc) := by
  simp [atomsDict, dictAppend, List.map_append]

end GBLearn

namespace GBLearn

theorem fixed7_ne_atom (t n : Int) (per : List String) (b1 b2 b3 : ℚ × ℚ)
    (tys ids : List Int) (ps : List (ℚ × ℚ × ℚ)) :
    ∀ e ∈ ([("time", DVal.single (.one (.vInt t))),
      ("natoms", DVal.single (.one (.vInt n))),
      ("periodic", DVal.strs per),
      ("box", DVal.many [.row [.vFloat b1.1, .vFloat b1.2], .row [.vFloat b2.1, .vFloat b2.2],
                  .row [.vFloat b3.1, .vFloat b3.2]]),
      ("type", DVal.many (tys.map (fun k => CVal.one (Val.vInt k)))),
      ("id", DVal.many (ids.map (fun k => CVal.one (Val.vInt k)))),
      ("xyz", DVal.many (ps.map (fun v => CVal.row [.vFloat v.1, .vFloat v.2.1, .vFloat v.2.2])))]
      : RawDict), ∀ nm : String, e.1 ≠ "atom:" ++ nm := by
  intro e he nm
  simp only [List.mem_cons, List.not_mem_nil, or_false] at he
  rcases he with rfl | rfl | rfl | rfl | rfl | rfl | rfl
  · exact Ne.symm (atomKey_ne nm "time" (by decide))
  · exact Ne.symm (atomKey_ne nm "natoms" (by decide))
  · exact Ne.symm (atomKey_ne nm "periodic" (by decide))
  · exact Ne.symm (atomKey_ne nm "box" (by decide))
  · exact Ne.symm (atomKey_ne nm "type" (by decide))
  · exact Ne.symm (atomKey_ne nm "id" (by decide))
  · exact Ne.symm (atomKey_ne nm "xyz" (by decide))

theorem extendAll_nil (rows : List ARow) : extendAll [] rows = [] := by
  induction rows with
  | nil => rfl
  | cons r rs ih => simpa [extendAll, zipExtend] using ih

theorem readLoop_rows (sf : Option (List Int)) (shared : Bool) (rows : List ARow)
    (rest : List Line) (pos : Nat) (t n : Int) (per : List String) (b1 b2 b3 : ℚ × ℚ)
    (tys ids : List Int) (ps : List (ℚ × ℚ × ℚ)) (xc : List (String × List Val))
    (xkv : Option (List String)) (ts0 ls0 : Bool) (sidx : Option Int)
    (hxk : xkv = some (xc.map (fun p => "atom:" ++ p.1)) ∨ (xkv = none ∧ xc = []))
    (hnd : (xc.map Prod.fst).Nodup)
    (hrows : ∀ r ∈ rows, (∀ tk ∈ r.xtra, tk.isNum = true) ∧ r.xtra.length = xc.length) :
    readLoop sf shared (rows.map mkAtomLine ++ rest) pos
      ⟨none, some "atoms", atomsDict t n per b1 b2 b3 tys ids ps xc, xkv, ts0, ls0, sidx⟩
    = readLoop sf shared rest (pos + rows.length)
      ⟨none, some "atoms",
        atomsDict t n per b1 b2 b3 (tys ++ rows.map ARow.ty) (ids ++ rows.map ARow.sid)
          (ps ++ rows.map (fun r => (r.x, r.y, r.z))) (extendAll xc rows),
        xkv, ts0, ls0, sidx⟩ := by
  induction rows generalizing pos tys ids ps xc with
  | nil => simp [extendAll]
  | cons r rows ih =>
    obtain ⟨hrnum, hrlen⟩ := hrows r (by simp)
    have hItem := mkAtomLine_noITEM r hrnum
    simp only [mkAtomLine, List.cons_append, List.nil_append] at hItem
    have harith : pos + 1 + rows.length = pos + (r :: rows).length := by
      simp only [List.length_cons]
      omega
    rcases hxk with hxk | ⟨hxk, hxc⟩
    · subst hxk
      rw [List.map_cons, List.cons_append]
      simp only [readLoop, hItem, Bool.false_eq_true, if_false, if_true, mkAtomLine,
        Line.toks, List.cons_append, List.nil_append, intTok, floatTok, exc_bind_ok,
        atomsDict_app_type, atomsDict_app_id, atomsDict_app_xyz]
      by_cases hx0 : r.xtra = []
      · have hxc0 : xc = [] := by
          rw [hx0] at hrlen
          exact List.length_eq_zero.mp hrlen.symm
        subst hxc0
        rw [hx0]
        have hnot : ¬ ((Tok.int r.sid :: Tok.int r.ty :: Tok.float r.x :: Tok.float r.y ::
            Tok.float r.z :: ([] : List Tok)).length > 5) := by simp
        rw [if_neg hnot]
        have hih := ih (pos + 1) (tys ++ [r.ty]) (ids ++ [r.sid]) (ps ++ [(r.x, r.y, r.z)]) []
          (Or.inl rfl) (by simp)
          (fun q hq => ⟨(hrows q (by simp [hq])).1, (hrows q (by simp [hq])).2⟩)
        rw [hih, harith]
        simp [extendAll_nil, List.append_assoc]
      · have hlen5 : (Tok.int r.sid :: Tok.int r.ty :: Tok.float r.x :: Tok.float r.y ::
            Tok.float r.z :: r.xtra).length > 5 := by
          simp only [List.length_cons]
          have := List.length_pos.mpr hx0
          omega
        rw [if_pos hlen5]
        have hreg := appendExtras_region xc
          [("time", DVal.single (.one (.vInt t))),
           ("natoms", DVal.single (.one (.vInt n))),
           ("periodic", DVal.strs per),
           ("box", DVal.many [.row [.vFloat b1.1, .vFloat b1.2],
              .row [.vFloat b2.1, .vFloat b2.2], .row [.vFloat b3.1, .vFloat b3.2]]),
           ("type", DVal.many ((tys ++ [r.ty]).map (fun k => CVal.one (Val.vInt k)))),
           ("id", DVal.many ((ids ++ [r.sid]).map (fun k => CVal.one (Val.vInt k)))),
           ("xyz", DVal.many ((ps ++ [(r.x, r.y, r.z)]).map
              (fun v => CVal.row [.vFloat v.1, .vFloat v.2.1, .vFloat v.2.2])))]
          r.xtra
          (fun e he p hp => fixed7_ne_atom t n per b1 b2 b3 (tys ++ [r.ty]) (ids ++ [r.sid])
            (ps ++ [(r.x, r.y, r.z)]) e he p.1)
          hnd hrnum (by simp [hrlen])
        rw [show atomsDict t n per b1 b2 b3 (tys ++ [r.ty]) (ids ++ [r.sid])
            (ps ++ [(r.x, r.y, r.z)]) xc
          = [("time", DVal.single (.one (.vInt t))),
             ("natoms", DVal.single (.one (.vInt n))),
             ("periodic", DVal.strs per),
             ("box", DVal.many [.row [.vFloat b1.1, .vFloat b1.2],
                .row [.vFloat b2.1, .vFloat b2.2], .row [.vFloat b3.1, .vFloat b3.2]]),
             ("type", DVal.many ((tys ++ [r.ty]).map (fun k => CVal.one (Val.vInt k)))),
             ("id", DVal.many ((ids ++ [r.sid]).map (fun k => CVal.one (Val.vInt k)))),
             ("xyz", DVal.many ((ps ++ [(r.x, r.y, r.z)]).map
                (fun v => CVal.row [.vFloat v.1, .vFloat v.2.1, .vFloat v.2.2])))]
            ++ xcolsD xc from rfl, hreg, exc_bind_ok]
        have hkeys : (zipExtend xc (r.xtra.map numV)).map (fun p => "atom:" ++ p.1)
            = xc.map (fun p => "atom:" ++ p.1) := by
          have h1 := zipExtend_keys xc (r.xtra.map numV) (by simp [hrlen])
          calc (zipExtend xc (r.xtra.map numV)).map (fun p => "atom:" ++ p.1)
              = ((zipExtend xc (r.xtra.map numV)).map Prod.fst).map ("atom:" ++ ·) := by
                simp [List.map_map]
            _ = (xc.map Prod.fst).map ("atom:" ++ ·) := by rw [h1]
            _ = xc.map (fun p => "atom:" ++ p.1) := by simp [List.map_map]
        have hnd2 : ((zipExtend xc (r.xtra.map numV)).map Prod.fst).Nodup := by
          rw [zipExtend_keys xc (r.xtra.map numV) (by simp [hrlen])]
          exact hnd
        have hrows2 : ∀ q ∈ rows, (∀ tk ∈ q.xtra, tk.isNum = true) ∧
            q.xtra.length = (zipExtend xc (r.xtra.map numV)).length := by
          intro q hq
          refine ⟨(hrows q (by simp [hq])).1, ?_⟩
          rw [zipExtend_length xc (r.xtra.map numV) (by simp [hrlen])]
          exact (hrows q (by simp [hq])).2
        have hih := ih (pos + 1) (tys ++ [r.ty]) (ids ++ [r.sid]) (ps ++ [(r.x, r.y, r.z)])
          (zipExtend xc (r.xtra.map numV)) (Or.inl (congrArg some hkeys.symm)) hnd2 hrows2
        rw [show ([("time", DVal.single (.one (.vInt t))),
             ("natoms", DVal.single (.one (.vInt n))),
             ("periodic", DVal.strs per),
             ("box", DVal.many [.row [.vFloat b1.1, .vFloat b1.2],
                .row [.vFloat b2.1, .vFloat b2.2], .row [.vFloat b3.1, .vFloat b3.2]]),
             ("type", DVal.many ((tys ++ [r.ty]).map (fun k => CVal.one (Val.vInt k)))),
             ("id", DVal.many ((ids ++ [r.sid]).map (fun k => CVal.one (Val.vInt k)))),
             ("xyz", DVal.many ((ps ++ [(r.x, r.y, r.z)]).map
                (fun v => CVal.row [.vFloat v.1, .vFloat v.2.1, .vFloat v.2.2])))]
            ++ xcolsD (zipExtend xc (r.xtra.map numV)))
          = atomsDict t n per b1 b2 b3 (tys ++ [r.ty]) (ids ++ [r.sid])
              (ps ++ [(r.x, r.y, r.z)]) (zipExtend xc (r.xtra.map numV)) from rfl]
        rw [hih, harith]
        simp [extendAll, List.append_assoc]
    · subst hxk
      subst hxc
      have hx0 : r.xtra = [] := List.length_eq_zero.mp (by simpa using hrlen)
      rw [List.map_cons, List.cons_append]
      simp only [readLoop, hItem, Bool.false_eq_true, if_false, if_true, mkAtomLine,
        Line.toks, List.cons_append, List.nil_append, intTok, floatTok, exc_bind_ok,
        atomsDict_app_type, atomsDict_app_id, atomsDict_app_xyz]
      rw [hx0]
      have hnot : ¬ ((Tok.int r.sid :: Tok.int r.ty :: Tok.float r.x :: Tok.float r.y ::
          Tok.float r.z :: ([] : List Tok)).length > 5) := by simp
      rw [if_neg hnot]
      have hih := ih (pos + 1) (tys ++ [r.ty]) (ids ++ [r.sid]) (ps ++ [(r.x, r.y, r.z)]) []
        (Or.inr ⟨rfl, rfl⟩) (by simp)
        (fun q hq => ⟨(hrows q (by simp [hq])).1, (hrows q (by simp [hq])).2⟩)
      rw [hih, harith]
      simp [extendAll_nil, List.append_assoc]

end GBLearn

namespace GBLearn

theorem dictSet_fresh (d : RawDict) (k : String) (v : DVal)
    (h : ∀ e ∈ d, e.1 ≠ k) :
    dictSet d k v = d ++ [(k, v)] := by
  induction d with
  | nil => rfl
  | cons e a ih =>
    have he : e.1 ≠ k := h e (by simp)
    simp only [dictSet, he, if_false, List.cons_append]
    exact congrArg (e :: ·) (ih (fun x hx => h x (by simp [hx])))

theorem foldl_dictSet_fresh (ks : List String) (d : RawDict)
    (hf : ∀ k ∈ ks, ∀ e ∈ d, e.1 ≠ k) (hnd : ks.Nodup) :
    ks.foldl (fun d k => dictSet d k (.many [])) d
    = d ++ ks.map (fun k => (k, DVal.many [])) := by
  induction ks generalizing d with
  | nil => simp
  | cons k ks ih =>
    rw [List.nodup_cons] at hnd
    rw [List.foldl_cons, dictSet_fresh d k _ (fun e he => hf k (by simp) e he)]
    rw [ih (d ++ [(k, DVal.many [])])
      (fun q hq e he => by
        rcases List.mem_append.mp he with h1 | h2
        · exact hf q (by simp [hq]) e h1
        · simp only [List.mem_singleton] at h2
          subst h2
          intro hk
          exact hnd.1 (by rw [show k = q from hk]; exact hq))
      hnd.2]
    simp

theorem readLoop_record (t n : Int) (per : List String) (b1 b2 b3 : ℚ × ℚ)
    (names : List String) (rows : List ARow)
    (hnd : (names.drop 5).Nodup)
    (hrows : ∀ r ∈ rows, (∀ tk ∈ r.xtra, tk.isNum = true) ∧
      r.xtra.length = (names.drop 5).length) :
    readLoop none false (mkRecordLines t n per b1 b2 b3 names rows) 0 (initRState none)
    = .ok ⟨atomsDict t n (if per.isEmpty then ["ss", "ss", "ss"] else per) b1 b2 b3
        (rows.map ARow.ty) (rows.map ARow.sid) (rows.map fun r => (r.x, r.y, r.z))
        (extendAll ((names.drop 5).map fun nm => (nm, [])) rows),
        some t, 9 + rows.length⟩ := by
  have h8 : readLoop none false (mkRecordLines t n per b1 b2 b3 names rows) 0
        (initRState none)
      = readLoop none false (Line.itemAtoms names :: rows.map mkAtomLine) 8
        ⟨some [], some "box",
         [("time", DVal.single (.one (.vInt t))),
          ("natoms", DVal.single (.one (.vInt n))),
          ("periodic", DVal.strs (if per.isEmpty then ["ss", "ss", "ss"] else per)),
          ("box", DVal.many [.row [.vFloat b1.1, .vFloat b1.2],
            .row [.vFloat b2.1, .vFloat b2.2], .row [.vFloat b3.1, .vFloat b3.2]])],
         none, false, false, some t⟩ := rfl
  rw [h8]
  simp only [readLoop, Line.isTimestepHdr, Bool.false_eq_true, if_false]
  by_cases h5 : names.length > 5
  · rw [if_pos h5]
    have hks : ((names.drop 5).map (fun nm => "atom:" ++ nm)).Nodup :=
      hnd.map (fun a b hab => atomKey_inj hab)
    have hfold := foldl_dictSet_fresh ((names.drop 5).map (fun nm => "atom:" ++ nm))
      (dictSet (dictSet (dictSet
        [("time", DVal.single (.one (.vInt t))),
         ("natoms", DVal.single (.one (.vInt n))),
         ("periodic", DVal.strs (if per.isEmpty then ["ss", "ss", "ss"] else per)),
         ("box", DVal.many [.row [.vFloat b1.1, .vFloat b1.2],
           .row [.vFloat b2.1, .vFloat b2.2], .row [.vFloat b3.1, .vFloat b3.2]])]
        "type" (DVal.many [])) "id" (DVal.many [])) "xyz" (DVal.many []))
      (by
        intro k hk e he
        obtain ⟨nm, hnm, rfl⟩ := List.mem_map.mp hk
        exact fixed7_ne_atom t n (if per.isEmpty then ["ss", "ss", "ss"] else per)
          b1 b2 b3 [] [] [] e he nm)
      hks
    rw [hfold]
    have hdict : (dictSet (dictSet (dictSet
        [("time", DVal.single (.one (.vInt t))),
         ("natoms", DVal.single (.one (.vInt n))),
         ("periodic", DVal.strs (if per.isEmpty then ["ss", "ss", "ss"] else per)),
         ("box", DVal.many [.row [.vFloat b1.1, .vFloat b1.2],
           .row [.vFloat b2.1, .vFloat b2.2], .row [.vFloat b3.1, .vFloat b3.2]])]
        "type" (DVal.many [])) "id" (DVal.many [])) "xyz" (DVal.many []))
        ++ ((names.drop 5).map (fun nm => "atom:" ++ nm)).map
             (fun k => (k, DVal.many []))
        = atomsDict t n (if per.isEmpty then ["ss", "ss", "ss"] else per) b1 b2 b3
            [] [] [] ((names.drop 5).map fun nm => (nm, [])) := by
      simp only [atomsDict, xcolsD, List.map_map]
      rfl
    rw [hdict]
    have hrr := readLoop_rows none false rows [] 9 t n
      (if per.isEmpty then ["ss", "ss", "ss"] else per) b1 b2 b3 [] [] []
      ((names.drop 5).map fun nm => (nm, []))
      (some ((names.drop 5).map (fun nm => "atom:" ++ nm)))
      false false (some t)
      (Or.inl (by rw [List.map_map]; rfl))
      (by
        rw [List.map_map, show (Prod.fst ∘ fun nm : String => (nm, ([] : List Val))) = id
          from rfl, List.map_id]
        exact hnd)
      (by
        intro q hq
        refine ⟨(hrows q hq).1, ?_⟩
        rw [List.length_map]
        exact (hrows q hq).2)
    simp only [List.append_nil, List.nil_append] at hrr
    rw [hrr]
    simp [readLoop]
  · rw [if_neg h5]
    have hd5 : names.drop 5 = [] := List.drop_eq_nil_of_le (by omega)
    have hrr := readLoop_rows none false rows [] 9 t n
      (if per.isEmpty then ["ss", "ss", "ss"] else per) b1 b2 b3 [] [] [] []
      none false false (some t) (Or.inr ⟨rfl, rfl⟩) (by simp)
      (by
        intro q hq
        refine ⟨(hrows q hq).1, ?_⟩
        simpa [hd5] using (hrows q hq).2)
    simp only [List.append_nil, List.nil_append] at hrr
    rw [show (dictSet (dictSet (dictSet
        [("time", DVal.single (.one (.vInt t))),
         ("natoms", DVal.single (.one (.vInt n))),
         ("periodic", DVal.strs (if per.isEmpty then ["ss", "ss", "ss"] else per)),
         ("box", DVal.many [.row [.vFloat b1.1, .vFloat b1.2],
           .row [.vFloat b2.1, .vFloat b2.2], .row [.vFloat b3.1, .vFloat b3.2]])]
        "type" (DVal.many [])) "id" (DVal.many [])) "xyz" (DVal.many []))
      = atomsDict t n (if per.isEmpty then ["ss", "ss", "ss"] else per) b1 b2 b3
          [] [] [] [] from rfl]
    rw [hrr]
    simp [readLoop, hd5, extendAll_nil]

end GBLearn

namespace GBLearn

theorem ofRaw_fold (xs : List (String × List Val)) (front back : List (String × PyObj))
    (cur : List String)
    (hfront : ∀ e ∈ front, e.1 ≠ "extras")
    (hcol : ∀ p ∈ xs, (':' ∉ p.1.data))
    (hfresh : ∀ p ∈ xs, (∀ e ∈ front, p.1 ≠ e.1) ∧ (∀ e ∈ back, p.1 ≠ e.1) ∧ p.1 ≠ "extras")
    (hnd : (xs.map Prod.fst).Nodup) :
    List.foldlM ofRawStep (front ++ ("extras", PyObj.strsO cur) :: back) (xcolsD xs)
    = .ok ((front ++ ("extras", PyObj.strsO (cur ++ xs.map Prod.fst)) :: back)
           ++ xs.map (fun p => (p.1, npHomog p.2))) := by
  induction xs generalizing back cur with
  | nil => simp [xcolsD]
  | cons p xs ih =>
    rw [List.map_cons, List.nodup_cons] at hnd
    obtain ⟨hf1, hf2, hf3⟩ := hfresh p (by simp)
    have hget : attrGet (front ++ ("extras", PyObj.strsO cur) :: back) "extras"
        = .ok (PyObj.strsO cur) := by
      rw [attrGet_append_right front _ "extras" hfront, attrGet_cons_self]
    have hfr2 : ∀ e ∈ front ++ ("extras", PyObj.strsO (cur ++ [p.1])) :: back,
        e.1 ≠ p.1 := by
      intro e he
      rcases List.mem_append.mp he with h1 | h2
      · exact fun hk => hf1 e h1 hk.symm
      · rcases List.mem_cons.mp h2 with h3 | h4
        · rw [h3]
          exact fun hk => hf3 hk.symm
        · exact fun hk => hf2 e h4 hk.symm
    have hstep : ofRawStep (front ++ ("extras", PyObj.strsO cur) :: back)
        ("atom:" ++ p.1, DVal.many (p.2.map CVal.one))
        = .ok ((front ++ ("extras", PyObj.strsO (cur ++ [p.1])) :: back)
            ++ [(p.1, npHomog p.2)]) := by
      simp only [ofRawStep, strHasSub_atomKey, if_true,
        quantOf_atomKey p.1 (hcol p (by simp)), hget, exc_bind_ok,
        attrSet_found front back "extras" (PyObj.strsO cur) (PyObj.strsO (cur ++ [p.1]))
          hfront,
        asMany, mapM_asOne_ones,
        attrSet_fresh (front ++ ("extras", PyObj.strsO (cur ++ [p.1])) :: back) p.1
          (npHomog p.2) hfr2]
      rfl
    rw [show xcolsD (p :: xs) = ("atom:" ++ p.1, DVal.many (p.2.map CVal.one)) :: xcolsD xs
      from rfl]
    rw [List.foldlM_cons, hstep, exc_bind_ok]
    have hrec := ih (back ++ [(p.1, npHomog p.2)]) (cur ++ [p.1])
      (fun q hq => hcol q (by simp [hq]))
      (by
        intro q hq
        obtain ⟨g1, g2, g3⟩ := hfresh q (by simp [hq])
        refine ⟨g1, ?_, g3⟩
        intro e he
        rcases List.mem_append.mp he with h1 | h2
        · exact g2 e h1
        · simp only [List.mem_singleton] at h2
          subst h2
          intro hk
          exact hnd.1 (by rw [← hk]; exact List.mem_map_of_mem Prod.fst hq))
      hnd.2
    rw [show (front ++ ("extras", PyObj.strsO (cur ++ [p.1])) :: back) ++ [(p.1, npHomog p.2)]
        = front ++ ("extras", PyObj.strsO (cur ++ [p.1])) :: (back ++ [(p.1, npHomog p.2)])
      by simp]
    rw [hrec]
    simp

end GBLearn

namespace GBLearn

theorem ofRaw_atomsDict (fp : String) (idx : Option Int) (t n : Int) (perT : List String)
    (b1 b2 b3 : ℚ × ℚ) (tys ids : List Int) (ps : List (ℚ × ℚ × ℚ))
    (xc : List (String × List Val))
    (hn : (ps.length : Int) = n)
    (hnd : (xc.map Prod.fst).Nodup)
    (hgood : ∀ p ∈ xc, goodName p.1) :
    Timestep.ofRaw fp idx (atomsDict t n perT b1 b2 b3 tys ids ps xc)
    = .ok ⟨fp, idx,
        [("types", .arr false (tys.map Val.vInt)),
         ("ids", .arr false (ids.map Val.vInt)),
         ("xyz", .xyzArr ps),
         ("extras", .strsO ("ids" :: xc.map Prod.fst))]
        ++ xc.map (fun p => (p.1, npHomog p.2))
        ++ [("periodic", .flags (perT.map (fun p => p == "pp"))),
            ("box", .boxArr [b1, b2, b3])]⟩ := by
  have hlen : ¬ ((atomsDict t n perT b1 b2 b3 tys ids ps xc).length < 6) := by
    simp [atomsDict, xcolsD]
  rw [Timestep.ofRaw, if_neg hlen]
  have hgT : dictGet (atomsDict t n perT b1 b2 b3 tys ids ps xc) "type"
      = some (.many (tys.map (fun k => CVal.one (Val.vInt k)))) := by
    simp [atomsDict, dictGet, List.find?]
  have hgI : dictGet (atomsDict t n perT b1 b2 b3 tys ids ps xc) "id"
      = some (.many (ids.map (fun k => CVal.one (Val.vInt k)))) := by
    simp [atomsDict, dictGet, List.find?]
  have hgX : dictGet (atomsDict t n perT b1 b2 b3 tys ids ps xc) "xyz"
      = some (.many (ps.map (fun v => CVal.row [.vFloat v.1, .vFloat v.2.1, .vFloat v.2.2]))) := by
    simp [atomsDict, dictGet, List.find?]
  have hgP : dictGet (atomsDict t n perT b1 b2 b3 tys ids ps xc) "periodic"
      = some (.strs perT) := by
    simp [atomsDict, dictGet, List.find?]
  have hgB : dictGet (atomsDict t n perT b1 b2 b3 tys ids ps xc) "box"
      = some (.many [.row [.vFloat b1.1, .vFloat b1.2], .row [.vFloat b2.1, .vFloat b2.2],
          .row [.vFloat b3.1, .vFloat b3.2]]) := by
    simp [atomsDict, dictGet, List.find?]
  have hgN : dictGet (atomsDict t n perT b1 b2 b3 tys ids ps xc) "natoms"
      = some (.single (.one (.vInt n))) := by
    simp [atomsDict, dictGet, List.find?]
  rw [hgT]
  simp only [Option.elim, exc_bind_ok, asMany, npIntArr_ints]
  rw [hgI]
  simp only [Option.elim, exc_bind_ok, asMany, npIntArr_ints]
  rw [hgX]
  simp only [Option.elim, exc_bind_ok, asMany, npXyzArr_rows]
  rw [show atomsDict t n perT b1 b2 b3 tys ids ps xc
      = ([("time", DVal.single (.one (.vInt t))),
          ("natoms", DVal.single (.one (.vInt n))),
          ("periodic", DVal.strs perT),
          ("box", DVal.many [.row [.vFloat b1.1, .vFloat b1.2],
            .row [.vFloat b2.1, .vFloat b2.2], .row [.vFloat b3.1, .vFloat b3.2]]),
          ("type", DVal.many (tys.map (fun k => CVal.one (Val.vInt k)))),
          ("id", DVal.many (ids.map (fun k => CVal.one (Val.vInt k)))),
          ("xyz", DVal.many (ps.map (fun v =>
            CVal.row [.vFloat v.1, .vFloat v.2.1, .vFloat v.2.2])))] : RawDict)
        ++ xcolsD xc from rfl]
  rw [List.foldlM_append]
  rw [show List.foldlM ofRawStep
      [("types", PyObj.arr false (List.map Val.vInt tys)),
       ("ids", PyObj.arr false (List.map Val.vInt ids)), ("xyz", PyObj.xyzArr ps),
       ("extras", PyObj.strsO ["ids"])]
      ([("time", DVal.single (.one (.vInt t))),
        ("natoms", DVal.single (.one (.vInt n))),
        ("periodic", DVal.strs perT),
        ("box", DVal.many [.row [.vFloat b1.1, .vFloat b1.2],
          .row [.vFloat b2.1, .vFloat b2.2], .row [.vFloat b3.1, .vFloat b3.2]]),
        ("type", DVal.many (tys.map (fun k => CVal.one (Val.vInt k)))),
        ("id", DVal.many (ids.map (fun k => CVal.one (Val.vInt k)))),
        ("xyz", DVal.many (ps.map (fun v =>
          CVal.row [.vFloat v.1, .vFloat v.2.1, .vFloat v.2.2])))] : RawDict)
      = .ok [("types", PyObj.arr false (List.map Val.vInt tys)),
             ("ids", PyObj.arr false (List.map Val.vInt ids)), ("xyz", PyObj.xyzArr ps),
             ("extras", PyObj.strsO ["ids"])] from rfl]
  rw [exc_bind_ok]
  have hfold := ofRaw_fold xc
    [("types", PyObj.arr false (List.map Val.vInt tys)),
     ("ids", PyObj.arr false (List.map Val.vInt ids)), ("xyz", PyObj.xyzArr ps)]
    [] ["ids"]
    (by
      intro e he
      simp only [List.mem_cons, List.not_mem_nil, or_false] at he
      rcases he with rfl | rfl | rfl <;> simp)
    (fun q hq => (hgood q hq).1)
    (by
      intro q hq
      have hg := (hgood q hq).2
      simp only [List.mem_cons, List.not_mem_nil, or_false, not_or] at hg
      refine ⟨?_, by simp, ?_⟩
      · intro e he
        simp only [List.mem_cons, List.not_mem_nil, or_false] at he
        rcases he with rfl | rfl | rfl
        · exact hg.1
        · exact hg.2.1
        · exact hg.2.2.1
      · exact hg.2.2.2.1)
    hnd
  rw [show ([("types", PyObj.arr false (List.map Val.vInt tys)),
       ("ids", PyObj.arr false (List.map Val.vInt ids)),
       ("xyz", PyObj.xyzArr ps)] ++ ("extras", PyObj.strsO ["ids"]) :: [])
      = [("types", PyObj.arr false (List.map Val.vInt tys)),
         ("ids", PyObj.arr false (List.map Val.vInt ids)), ("xyz", PyObj.xyzArr ps),
         ("extras", PyObj.strsO ["ids"])] from rfl] at hfold
  rw [hfold, exc_bind_ok]
  rw [show ([("time", DVal.single (.one (.vInt t))),
          ("natoms", DVal.single (.one (.vInt n))),
          ("periodic", DVal.strs perT),
          ("box", DVal.many [.row [.vFloat b1.1, .vFloat b1.2],
            .row [.vFloat b2.1, .vFloat b2.2], .row [.vFloat b3.1, .vFloat b3.2]]),
          ("type", DVal.many (tys.map (fun k => CVal.one (Val.vInt k)))),
          ("id", DVal.many (ids.map (fun k => CVal.one (Val.vInt k)))),
          ("xyz", DVal.many (ps.map (fun v =>
            CVal.row [.vFloat v.1, .vFloat v.2.1, .vFloat v.2.2])))] : RawDict)
        ++ xcolsD xc = atomsDict t n perT b1 b2 b3 tys ids ps xc from rfl]
  rw [hgP]
  simp only [Option.elim, exc_bind_ok]
  rw [hgB]
  simp only [Option.elim, exc_bind_ok]
  simp only [List.mapM_cons, List.mapM_nil, exc_bind_ok, exc_pure_eq, pyLen]
  rw [hgN]
  simp only [Option.isNone_some, Bool.false_eq_true, if_false, hn, not_true,
    decide_False, if_false]
  have hfr : ∀ e ∈ ([("types", PyObj.arr false (List.map Val.vInt tys)),
        ("ids", PyObj.arr false (List.map Val.vInt ids)),
        ("xyz", PyObj.xyzArr ps)] ++
      [("extras", PyObj.strsO (["ids"] ++ List.map Prod.fst xc))] ++
      List.map (fun p => (p.1, npHomog p.2)) xc),
      e.1 ≠ "periodic" := by
    intro e he
    simp only [List.append_assoc, List.mem_append, List.mem_cons, List.not_mem_nil,
      or_false, List.mem_map] at he
    rcases he with (rfl | rfl | rfl) | rfl | ⟨q, hq, rfl⟩
    · simp
    · simp
    · simp
    · simp
    · have hg := (hgood q hq).2
      simp only [List.mem_cons, List.not_mem_nil, or_false, not_or] at hg
      exact hg.2.2.2.2.1
  rw [attrSet_fresh _ "periodic" _ hfr]
  have hfr2 : ∀ e ∈ (([("types", PyObj.arr false (List.map Val.vInt tys)),
        ("ids", PyObj.arr false (List.map Val.vInt ids)),
        ("xyz", PyObj.xyzArr ps)] ++
      [("extras", PyObj.strsO (["ids"] ++ List.map Prod.fst xc))] ++
      List.map (fun p => (p.1, npHomog p.2)) xc)
      ++ [("periodic", PyObj.flags (List.map (fun p => p == "pp") perT))]),
      e.1 ≠ "box" := by
    intro e he
    simp only [List.append_assoc, List.mem_append, List.mem_cons, List.not_mem_nil,
      or_false, List.mem_map] at he
    rcases he with (rfl | rfl | rfl) | rfl | ⟨q, hq, rfl⟩ | rfl
    · simp
    · simp
    · simp
    · simp
    · have hg := (hgood q hq).2
      simp only [List.mem_cons, List.not_mem_nil, or_false, not_or] at hg
      exact hg.2.2.2.2.2
    · simp
  rw [attrSet_fresh _ "box" _ hfr2]
  simp [List.append_assoc]

end GBLearn

namespace GBLearn

theorem extendAll_keys (xc : List (String × List Val)) (rows : List ARow)
    (h : ∀ r ∈ rows, r.xtra.length = xc.length) :
    (extendAll xc rows).map Prod.fst = xc.map Prod.fst := by
  induction rows generalizing xc with
  | nil => rfl
  | cons r rs ih =>
    have hl : (r.xtra.map numV).length = xc.length := by
      rw [List.length_map]
      exact h r (by simp)
    have h2 : ∀ q ∈ rs, q.xtra.length = (zipExtend xc (r.xtra.map numV)).length := by
      intro q hq
      rw [zipExtend_length xc _ hl]
      exact h q (by simp [hq])
    rw [show extendAll xc (r :: rs) = extendAll (zipExtend xc (r.xtra.map numV)) rs
      from rfl, ih _ h2, zipExtend_keys xc _ hl]

theorem parse_record (fp : String) (t n : Int) (per : List String) (b1 b2 b3 : ℚ × ℚ)
    (names : List String) (rows : List ARow)
    (hnd : (names.drop 5).Nodup)
    (hrows : ∀ r ∈ rows, (∀ tk ∈ r.xtra, tk.isNum = true) ∧
      r.xtra.length = (names.drop 5).length)
    (hn : (rows.length : Int) = n)
    (hgood : ∀ nm ∈ names.drop 5, goodName nm) :
    parseTimestep fp (mkRecordLines t n per b1 b2 b3 names rows) none false 0 none
    = .ok (⟨fp, some t,
        [("types", .arr false ((rows.map ARow.ty).map Val.vInt)),
         ("ids", .arr false ((rows.map ARow.sid).map Val.vInt)),
         ("xyz", .xyzArr (rows.map fun r => (r.x, r.y, r.z))),
         ("extras", .strsO ("ids" :: names.drop 5))]
        ++ (extendAll ((names.drop 5).map fun nm => (nm, ([] : List Val))) rows).map
             (fun p => (p.1, npHomog p.2))
        ++ [("periodic", .flags ((if per.isEmpty then ["ss", "ss", "ss"] else per).map
              (fun p => p == "pp"))),
            ("box", .boxArr [b1, b2, b3])]⟩, 9 + rows.length) := by
  have hxlen : ∀ r ∈ rows, r.xtra.length
      = (((names.drop 5).map fun nm => (nm, ([] : List Val)))).length := by
    intro r hr
    rw [List.length_map]
    exact (hrows r hr).2
  have hkeys : (extendAll ((names.drop 5).map fun nm => (nm, ([] : List Val))) rows).map
      Prod.fst = names.drop 5 := by
    rw [extendAll_keys _ _ hxlen, List.map_map,
      show (Prod.fst ∘ fun nm : String => (nm, ([] : List Val))) = id from rfl, List.map_id]
  rw [parseTimestep, List.drop_zero]
  rw [readLoop_record t n per b1 b2 b3 names rows hnd hrows, exc_bind_ok]
  rw [ofRaw_atomsDict fp (some t) t n _ b1 b2 b3 _ _ _ _
      (by rw [List.length_map]; exact hn)
      (by rw [hkeys]; exact hnd)
      (by
        intro p hp
        have hmem : p.1 ∈ names.drop 5 := by
          rw [← hkeys]
          exact List.mem_map_of_mem Prod.fst hp
        exact hgood p.1 hmem),
    exc_bind_ok]
  rw [hkeys]
  rfl

end GBLearn

namespace GBLearn

theorem extendAll_goodKeys (names : List String) (rows : List ARow)
    (hlen : ∀ r ∈ rows, r.xtra.length = names.length)
    (hgood : ∀ nm ∈ names, goodName nm) :
    ∀ e ∈ (extendAll (names.map fun nm => (nm, ([] : List Val))) rows).map
        (fun p => (p.1, npHomog p.2)), goodName e.1 := by
  intro e he
  obtain ⟨q, hq, rfl⟩ := List.mem_map.mp he
  have hkeys : (extendAll (names.map fun nm => (nm, ([] : List Val))) rows).map
      Prod.fst = names := by
    rw [extendAll_keys _ _ (by intro r hr; rw [List.length_map]; exact hlen r hr),
      List.map_map, show (Prod.fst ∘ fun nm : String => (nm, ([] : List Val))) = id from rfl,
      List.map_id]
  have hmem : q.1 ∈ names := by
    rw [← hkeys]
    exact List.mem_map_of_mem Prod.fst hq
  exact hgood q.1 hmem

/-- C8: a record whose box header carries the tokens `pp pp ss` parses with
periodic flags `(true, true, false)`, and a record whose box header carries no
trailing tokens parses with flags `(false, false, false)` (the parser
substitutes the default `["ss", "ss", "ss"]`); `periodic` is stored as the
tuple of `p == "pp"` tests over the header tokens (lammps.py lines 340–345 and
110). -/
theorem claim_C8_periodicity (fp : String) (t n : Int) (b1 b2 b3 : ℚ × ℚ)
    (names : List String) (rows : List ARow)
    (hnd : (names.drop 5).Nodup)
    (hrows : ∀ r ∈ rows, (∀ tk ∈ r.xtra, tk.isNum = true) ∧
      r.xtra.length = (names.drop 5).length)
    (hn : (rows.length : Int) = n)
    (hgood : ∀ nm ∈ names.drop 5, goodName nm) :
    ((parseTimestep fp (mkRecordLines t n ["pp", "pp", "ss"] b1 b2 b3 names rows)
        none false 0 none) >>= fun r => r.1.getattr "periodic")
      = .ok (PyObj.flags [true, true, false]) ∧
    ((parseTimestep fp (mkRecordLines t n [] b1 b2 b3 names rows)
        none false 0 none) >>= fun r => r.1.getattr "periodic")
      = .ok (PyObj.flags [false, false, false]) := by
  have hxc := extendAll_goodKeys (names.drop 5) rows (fun r hr => (hrows r hr).2) hgood
  have h4 : ∀ e ∈ ([("types", PyObj.arr false ((rows.map ARow.ty).map Val.vInt)),
      ("ids", PyObj.arr false ((rows.map ARow.sid).map Val.vInt)),
      ("xyz", PyObj.xyzArr (rows.map fun r => (r.x, r.y, r.z))),
      ("extras", PyObj.strsO ("ids" :: names.drop 5))] : List (String × PyObj)),
      e.1 ≠ "periodic" := by
    intro e he
    simp only [List.mem_cons, List.not_mem_nil, or_false] at he
    rcases he with rfl | rfl | rfl | rfl <;> simp
  have hxcp : ∀ e ∈ (extendAll ((names.drop 5).map fun nm => (nm, ([] : List Val))) rows).map
      (fun p => (p.1, npHomog p.2)), e.1 ≠ "periodic" := by
    intro e he
    have hg := (hxc e he).2
    simp only [List.mem_cons, List.not_mem_nil, or_false, not_or] at hg
    exact hg.2.2.2.2.1
  constructor
  · rw [parse_record fp t n ["pp", "pp", "ss"] b1 b2 b3 names rows hnd hrows hn hgood,
      exc_bind_ok]
    show attrGet _ "periodic" = _
    rw [List.append_assoc, attrGet_append_right _ _ _ h4,
      attrGet_append_right _ _ _ hxcp, attrGet_cons_self]
    rfl
  · rw [parse_record fp t n [] b1 b2 b3 names rows hnd hrows hn hgood, exc_bind_ok]
    show attrGet _ "periodic" = _
    rw [List.append_assoc, attrGet_append_right _ _ _ h4,
      attrGet_append_right _ _ _ hxcp, attrGet_cons_self]
    rfl

theorem claim_C8_witness :
    ((["atom1"] : List String).drop 5).Nodup ∧
    (∀ r ∈ ([] : List ARow), (∀ tk ∈ r.xtra, tk.isNum = true) ∧
      r.xtra.length = ((["atom1"] : List String).drop 5).length) ∧
    ((([] : List ARow).length : Int) = 0) ∧
    (∀ nm ∈ (["atom1"] : List String).drop 5, goodName nm) ∧
    (((parseTimestep "d.out" (mkRecordLines 7 0 ["pp", "pp", "ss"]
        (0, 1) (0, 1) (0, 1) ["atom1"] []) none false 0 none) >>=
        fun r => r.1.getattr "periodic")
      = .ok (PyObj.flags [true, true, false]) ∧
    ((parseTimestep "d.out" (mkRecordLines 7 0 []
        (0, 1) (0, 1) (0, 1) ["atom1"] []) none false 0 none) >>=
        fun r => r.1.getattr "periodic")
      = .ok (PyObj.flags [false, false, false])) := by
  refine ⟨by decide, by decide, by decide, by decide, ?_⟩
  exact claim_C8_periodicity "d.out" 7 0 (0, 1) (0, 1) (0, 1) ["atom1"] []
    (by decide) (by decide) (by decide) (by decide)

end GBLearn

namespace GBLearn


theorem getD_tail (l : List Tok) (j : Nat) (d : Tok) :
    l.tail.getD j d = l.getD (j + 1) d := by
  cases l <;> rfl

theorem colVals_xtail (rows : List ARow) (j : Nat) :
    colVals (rows.map xtail) j = colVals rows (j + 1) := by
  rw [colVals, colVals, List.map_map]
  exact List.map_congr_left fun r _ => congrArg numV (getD_tail r.xtra j (.str ""))

theorem extendAll_cons (nm : String) (acc : List Val) (xc0 : List (String × List Val))
    (rows : List ARow) (h : ∀ r ∈ rows, r.xtra ≠ []) :
    extendAll ((nm, acc) :: xc0) rows
    = (nm, acc ++ colVals rows 0) :: extendAll xc0 (rows.map xtail) := by
  induction rows generalizing acc xc0 with
  | nil => simp [extendAll, colVals]
  | cons r rs ih =>
    obtain ⟨v, vt, hv⟩ := List.exists_cons_of_ne_nil (h r (by simp))
    rw [show extendAll ((nm, acc) :: xc0) (r :: rs)
        = extendAll (zipExtend ((nm, acc) :: xc0) (r.xtra.map numV)) rs from rfl]
    rw [show zipExtend ((nm, acc) :: xc0) (r.xtra.map numV)
        = (nm, acc ++ [numV v]) :: zipExtend xc0 (vt.map numV) from by
      rw [hv]; rfl]
    rw [ih (acc ++ [numV v]) (zipExtend xc0 (vt.map numV)) (fun q hq => h q (by simp [hq]))]
    rw [show colVals (r :: rs) 0 = numV v :: colVals rs 0 from by
      rw [colVals, List.map_cons, hv]; rfl]
    rw [show (r :: rs).map xtail = xtail r :: rs.map xtail from rfl]
    rw [show extendAll xc0 (xtail r :: rs.map xtail)
        = extendAll (zipExtend xc0 ((xtail r).xtra.map numV)) (rs.map xtail) from rfl]
    rw [show (xtail r).xtra = vt from by simp [xtail, hv]]
    simp

theorem extendAll_eq (nms : List String) (rows : List ARow)
    (h : ∀ r ∈ rows, nms.length ≤ r.xtra.length) :
    extendAll (nms.map fun nm => (nm, ([] : List Val))) rows
    = nms.mapIdx fun j nm => (nm, colVals rows j) := by
  induction nms generalizing rows with
  | nil => simp [extendAll_nil]
  | cons nm rest ih =>
    have hne : ∀ r ∈ rows, r.xtra ≠ [] := by
      intro r hr he
      have hl := h r hr
      rw [he] at hl
      simp at hl
    have hlen : ∀ r ∈ rows.map xtail, rest.length ≤ r.xtra.length := by
      intro q hq
      obtain ⟨r, hr, rfl⟩ := List.mem_map.mp hq
      have hl := h r hr
      have : r.xtra.tail.length = r.xtra.length - 1 := List.length_tail r.xtra
      rw [show (xtail r).xtra = r.xtra.tail from rfl, this]
      simp only [List.length_cons] at hl
      omega
    rw [List.map_cons, extendAll_cons nm [] _ rows hne, List.mapIdx_cons,
      ih (rows.map xtail) hlen, List.nil_append]
    have hfn : (fun j (s : String) => (s, colVals (rows.map xtail) j))
        = fun j (s : String) => (s, colVals rows (j + 1)) := by
      funext j s
      rw [colVals_xtail]
    rw [hfn]

theorem map_mapIdx_pair (nms : List String) (G : Nat → String → List Val) :
    ((nms.mapIdx fun j s => (s, G j s)).map fun p => (p.1, npHomog p.2))
    = nms.mapIdx fun j s => (s, npHomog (G j s)) := by
  induction nms generalizing G with
  | nil => rfl
  | cons nm rest ih =>
    rw [List.mapIdx_cons, List.map_cons, List.mapIdx_cons, ih fun j => G (j + 1)]

theorem mapIdx_fst_eq {β : Type _} (nms : List String) (F : Nat → String → β) :
    (nms.mapIdx fun i s => (s, F i s)).map Prod.fst = nms := by
  induction nms generalizing F with
  | nil => rfl
  | cons nm rest ih =>
    rw [List.mapIdx_cons, List.map_cons, ih fun i => F (i + 1)]

theorem attrGet_cons_ne (e : String × PyObj) (rest : List (String × PyObj)) (k : String)
    (h : e.1 ≠ k) : attrGet (e :: rest) k = attrGet rest k := by
  rw [attrGet, attrGet, List.find?_cons_of_neg]
  simp [h]

theorem attrGet_append_left (a b : List (String × PyObj)) (k : String) (v : PyObj)
    (h : attrGet a k = .ok v) : attrGet (a ++ b) k = .ok v := by
  induction a with
  | nil => simp [attrGet, List.find?] at h
  | cons e a ih =>
    by_cases hek : (e.1 == k) = true
    · rw [attrGet, List.find?_cons_of_pos (p := fun q : String × PyObj => q.1 == k) _ hek] at h
      rw [List.cons_append, attrGet, List.find?_cons_of_pos (p := fun q : String × PyObj => q.1 == k) _ hek]
      exact h
    · rw [attrGet, List.find?_cons_of_neg (p := fun q : String × PyObj => q.1 == k) _ hek] at h
      rw [List.cons_append, attrGet, List.find?_cons_of_neg (p := fun q : String × PyObj => q.1 == k) _ hek]
      exact ih h

theorem attrGet_mapIdx (nms : List String) (F : Nat → String → PyObj) (j : Nat)
    (nm : String) (hnd : nms.Nodup) (hj : nms.get? j = some nm) :
    attrGet (nms.mapIdx fun i s => (s, F i s)) nm = .ok (F j nm) := by
  induction nms generalizing F j with
  | nil => simp at hj
  | cons a rest ih =>
    rw [List.mapIdx_cons]
    cases j with
    | zero =>
      have ha : a = nm := Option.some.inj hj
      subst ha
      exact attrGet_cons_self a (F 0 a) _
    | succ k =>
      have hmem : nm ∈ rest := List.get?_mem hj
      have hne : a ≠ nm := fun he => (List.nodup_cons.mp hnd).1 (he ▸ hmem)
      rw [attrGet_cons_ne _ _ _ hne]
      exact ih (fun i => F (i + 1)) k (List.nodup_cons.mp hnd).2 hj

end GBLearn

namespace GBLearn

/-- C6 (amended): tokens after the first five of an atom line are passed to
`eval` and appended to the extra column at the corresponding header position
(lammps.py lines 324–326 and 355–365): with every extra token numeric, the
parsed record's attribute for the heading at position `j` among the extra
headings holds exactly the evaluated numeric values of token `j` of every
atom line (`numV` maps an integer literal to its `int` and a float literal to
its `float`); a non-numeric token instead aborts the parse with `NameError`,
which the counterexample theorem shows. -/
theorem claim_C6_extra_tokens (fp : String) (t n : Int) (per : List String)
    (b1 b2 b3 : ℚ × ℚ) (names : List String) (rows : List ARow)
    (pre post : List String) (nm : String)
    (hsplit : names.drop 5 = pre ++ nm :: post)
    (hnd : (names.drop 5).Nodup)
    (hrows : ∀ r ∈ rows, (∀ tk ∈ r.xtra, tk.isNum = true) ∧
      r.xtra.length = (names.drop 5).length)
    (hn : (rows.length : Int) = n)
    (hgood : ∀ s ∈ names.drop 5, goodName s) :
    ((parseTimestep fp (mkRecordLines t n per b1 b2 b3 names rows) none false 0 none)
      >>= fun r => r.1.getattr nm)
    = .ok (npHomog (colVals rows pre.length)) := by
  rw [parse_record fp t n per b1 b2 b3 names rows hnd hrows hn hgood, exc_bind_ok]
  show attrGet _ nm = _
  have hmem : nm ∈ names.drop 5 := by
    rw [hsplit]
    simp
  have hg := (hgood nm hmem).2
  simp only [List.mem_cons, List.not_mem_nil, or_false, not_or] at hg
  have h4 : ∀ e ∈ ([("types", PyObj.arr false ((rows.map ARow.ty).map Val.vInt)),
      ("ids", PyObj.arr false ((rows.map ARow.sid).map Val.vInt)),
      ("xyz", PyObj.xyzArr (rows.map fun r => (r.x, r.y, r.z))),
      ("extras", PyObj.strsO ("ids" :: names.drop 5))] : List (String × PyObj)),
      e.1 ≠ nm := by
    intro e he
    simp only [List.mem_cons, List.not_mem_nil, or_false] at he
    rcases he with rfl | rfl | rfl | rfl
    · exact fun h => hg.1 h.symm
    · exact fun h => hg.2.1 h.symm
    · exact fun h => hg.2.2.1 h.symm
    · exact fun h => hg.2.2.2.1 h.symm
  have hj : (names.drop 5).get? pre.length = some nm := by
    rw [hsplit, List.get?_append_right (le_refl pre.length)]
    simp
  rw [List.append_assoc, attrGet_append_right _ _ _ h4]
  rw [extendAll_eq (names.drop 5) rows (fun r hr => le_of_eq (hrows r hr).2.symm),
    map_mapIdx_pair]
  exact attrGet_append_left _ _ _ _
    (attrGet_mapIdx (names.drop 5) (fun j s => npHomog (colVals rows j))
      pre.length nm hnd hj)

theorem claim_C6_witness :
    ((["id", "type", "x", "y", "z", "c_eng", "flag2"] : List String).drop 5
      = ["c_eng"] ++ "flag2" :: []) ∧
    ((["id", "type", "x", "y", "z", "c_eng", "flag2"] : List String).drop 5).Nodup ∧
    (∀ r ∈ [(⟨1, 2, mkRat 1 2, 0, 0, [Tok.float (mkRat 3 2), Tok.int 7]⟩ : ARow)],
      (∀ tk ∈ r.xtra, tk.isNum = true) ∧
      r.xtra.length = ((["id", "type", "x", "y", "z", "c_eng", "flag2"] : List String).drop
        5).length) ∧
    ((([(⟨1, 2, mkRat 1 2, 0, 0, [Tok.float (mkRat 3 2), Tok.int 7]⟩ : ARow)]).length : Int)
      = 1) ∧
    (∀ s ∈ (["id", "type", "x", "y", "z", "c_eng", "flag2"] : List String).drop 5,
      goodName s) ∧
    ((parseTimestep "d.out" (mkRecordLines 7 1 ["pp", "pp", "pp"] (0, 1) (0, 1) (0, 1)
        ["id", "type", "x", "y", "z", "c_eng", "flag2"]
        [⟨1, 2, mkRat 1 2, 0, 0, [Tok.float (mkRat 3 2), Tok.int 7]⟩]) none false 0 none)
      >>= fun r => r.1.getattr "flag2")
    = .ok (npHomog (colVals
        [⟨1, 2, mkRat 1 2, 0, 0, [Tok.float (mkRat 3 2), Tok.int 7]⟩]
        (["c_eng"] : List String).length)) := by
  refine ⟨by decide, by decide, by decide, by decide, by decide, ?_⟩
  exact claim_C6_extra_tokens "d.out" 7 1 ["pp", "pp", "pp"] (0, 1) (0, 1) (0, 1)
    ["id", "type", "x", "y", "z", "c_eng", "flag2"]
    [⟨1, 2, mkRat 1 2, 0, 0, [Tok.float (mkRat 3 2), Tok.int 7]⟩]
    ["c_eng"] [] "flag2" (by decide) (by decide) (by decide) (by decide) (by decide)

end GBLearn

namespace GBLearn

theorem npHomog_ints (l : List Int) :
    npHomog (l.map Val.vInt) = .arr false (l.map Val.vInt) := by
  rw [npHomog]
  rw [if_neg (by simp [List.any_map, valIsStr, Function.comp]),
    if_neg (by simp [List.any_map, valIsFloat, Function.comp])]

theorem valIsStr_numV (tk : Tok) (h : tk.isNum = true) : valIsStr (numV tk) = false := by
  cases tk with
  | str s => simp [Tok.isNum] at h
  | int n => rfl
  | float q => rfl

theorem elem0Kind_npHomog (c : List Val) (hne : c ≠ [])
    (hnum : ∀ v ∈ c, valIsStr v = false) :
    elem0Kind (npHomog c) = .ok (colKind c) := by
  obtain ⟨v, ct, rfl⟩ := List.exists_cons_of_ne_nil hne
  rw [npHomog, if_neg (by simp only [Bool.not_eq_true, List.any_eq_false]; exact hnum)]
  by_cases hf : (v :: ct).any valIsFloat = true
  · rw [if_pos hf, colKind, if_pos hf, List.map_cons]
    have hv := hnum v (by simp)
    cases v with
    | vStr s => simp [valIsStr] at hv
    | vInt m => rfl
    | vFloat q => rfl
  · rw [if_neg hf, colKind, if_neg hf]
    have hv := hnum v (by simp)
    have hvf : valIsFloat v = false := by
      rw [List.any_cons] at hf
      simp only [Bool.or_eq_true, not_or, Bool.not_eq_true] at hf
      exact hf.1
    cases v with
    | vStr s => simp [valIsStr] at hv
    | vInt m => rfl
    | vFloat q => simp [valIsFloat] at hvf

theorem mapM_map {α β γ : Type _} (l : List α) (g : α → β) (f : β → Except Err γ) :
    (l.map g).mapM f = l.mapM (fun a => f (g a)) := by
  induction l with
  | nil => rfl
  | cons a l ih => rw [List.map_cons, List.mapM_cons, List.mapM_cons, ih]

theorem enumFrom_mapM {α β : Type _} (k : Nat) (l : List α)
    (f : Nat × α → Except Err β) (g : α → β)
    (h : ∀ i a, l.get? i = some a → f (k + i, a) = .ok (g a)) :
    (l.enumFrom k).mapM f = .ok (l.map g) := by
  induction l generalizing k with
  | nil => rfl
  | cons a l ih =>
    rw [show (a :: l).enumFrom k = (k, a) :: l.enumFrom (k + 1) from rfl,
      List.mapM_cons, show f (k, a) = .ok (g a) from by
        have := h 0 a rfl
        rwa [Nat.add_zero] at this,
      exc_bind_ok, ih (k + 1) (by
        intro i b hb
        have := h (i + 1) b hb
        rwa [show k + (i + 1) = k + 1 + i by omega] at this),
      exc_bind_ok, List.map_cons]
    rfl

theorem get?_getD_mem (l : List Tok) (j : Nat) (d : Tok) (h : j < l.length) :
    l.getD j d ∈ l := by
  cases hq : l.get? j with
  | none => exact absurd (List.get?_eq_none.mp hq) (by omega)
  | some tk =>
    have : l.getD j d = tk := by
      rw [List.get?_eq_getElem?] at hq
      simp [List.getD, hq]
    rw [this]
    exact List.get?_mem hq

end GBLearn

namespace GBLearn

theorem reduceOption_mapIdx_some {β : Type _} (nms : List String) (F : Nat → String → β) :
    (nms.mapIdx fun j s => some (F j s)).reduceOption = nms.mapIdx F := by
  induction nms generalizing F with
  | nil => rfl
  | cons nm rest ih =>
    rw [List.mapIdx_cons, List.mapIdx_cons, List.reduceOption_cons_of_some,
      ih fun j => F (j + 1)]

theorem colVals_get? (rows : List ARow) (j i : Nat) (r : ARow) (hi : rows.get? i = some r) :
    (colVals rows j).get? i = some (numV (r.xtra.getD j (.str ""))) := by
  rw [colVals, List.get?_map, hi]
  rfl

theorem mapIdx_mapIdx {α β γ : Type _} (l : List α) (F : Nat → α → β) (G : Nat → β → γ) :
    (l.mapIdx F).mapIdx G = l.mapIdx fun j a => G j (F j a) := by
  induction l generalizing F G with
  | nil => rfl
  | cons a l ih =>
    rw [List.mapIdx_cons, List.mapIdx_cons, List.mapIdx_cons,
      ih (fun j => F (j + 1)) (fun j => G (j + 1))]

theorem get?_mapIdx {α β : Type _} (l : List α) (g : Nat → α → β) (i : Nat) :
    (l.mapIdx g).get? i = (l.get? i).map (g i) := by
  induction l generalizing g i with
  | nil => simp
  | cons a l ih =>
    cases i with
    | zero => simp [List.mapIdx_cons]
    | succ k =>
      rw [List.mapIdx_cons,
        show ((g 0 a :: l.mapIdx fun i => g (i + 1)).get? (k + 1))
          = (l.mapIdx fun i => g (i + 1)).get? k from rfl,
        ih (fun i => g (i + 1)) k]
      rfl

theorem mapM_mapIdx {α β : Type _} (l : List α) (f : α → Except Err β)
    (g : Nat → α → β) (h : ∀ i a, l.get? i = some a → f a = .ok (g i a)) :
    l.mapM f = .ok (l.mapIdx g) := by
  induction l generalizing g with
  | nil => rfl
  | cons a l ih =>
    rw [List.mapM_cons, h 0 a rfl, exc_bind_ok,
      ih (fun i => g (i + 1)) (fun i b hb => h (i + 1) b hb), exc_bind_ok,
      List.mapIdx_cons]
    rfl

theorem atomLine_row (fp : String) (t : Int) (perI : List String) (b1 b2 b3 : ℚ × ℚ)
    (nms : List String) (rows : List ARow) (i : Nat) (r : ARow)
    (hi : rows.get? i = some r)
    (hnd : nms.Nodup)
    (hgood : ∀ s ∈ nms, goodName s)
    (hrows : ∀ q ∈ rows, (∀ tk ∈ q.xtra, tk.isNum = true) ∧ q.xtra.length = nms.length) :
    atomLine ⟨fp, some t,
      [("types", .arr false ((rows.map ARow.ty).map Val.vInt)),
       ("ids", .arr false ((rows.map ARow.sid).map Val.vInt)),
       ("xyz", .xyzArr (rows.map fun q => (q.x, q.y, q.z))),
       ("extras", .strsO ("ids" :: nms))]
      ++ (nms.mapIdx fun j s => (s, npHomog (colVals rows j)))
      ++ [("periodic", .flags (perI.map fun p => p == "pp")),
          ("box", .boxArr [b1, b2, b3])]⟩
      (("ids", FmtK.kInt) :: nms.mapIdx fun j s => (s, colKind (colVals rows j)))
      i (r.x, r.y, r.z)
    = .ok (mkAtomLine (wRow rows nms r)) := by
  have hmemr : r ∈ rows := List.get?_mem hi
  have hi' : rows[i]? = some r := by
    rw [← List.get?_eq_getElem?]
    exact hi
  have hxlen : r.xtra.length = nms.length := (hrows r hmemr).2
  have hgids : attrGet ([("types", PyObj.arr false ((rows.map ARow.ty).map Val.vInt)),
      ("ids", PyObj.arr false ((rows.map ARow.sid).map Val.vInt)),
      ("xyz", PyObj.xyzArr (rows.map fun q => (q.x, q.y, q.z))),
      ("extras", PyObj.strsO ("ids" :: nms))]
      ++ ((nms.mapIdx fun j s => (s, npHomog (colVals rows j)))
      ++ [("periodic", PyObj.flags (perI.map fun p => p == "pp")),
          ("box", PyObj.boxArr [b1, b2, b3])])) "ids"
      = .ok (PyObj.arr false ((rows.map ARow.sid).map Val.vInt)) :=
    attrGet_append_left _ _ _ _ (by simp [attrGet, List.find?])
  have hgty : attrGet ([("types", PyObj.arr false ((rows.map ARow.ty).map Val.vInt)),
      ("ids", PyObj.arr false ((rows.map ARow.sid).map Val.vInt)),
      ("xyz", PyObj.xyzArr (rows.map fun q => (q.x, q.y, q.z))),
      ("extras", PyObj.strsO ("ids" :: nms))]
      ++ ((nms.mapIdx fun j s => (s, npHomog (colVals rows j)))
      ++ [("periodic", PyObj.flags (perI.map fun p => p == "pp")),
          ("box", PyObj.boxArr [b1, b2, b3])])) "types"
      = .ok (PyObj.arr false ((rows.map ARow.ty).map Val.vInt)) :=
    attrGet_append_left _ _ _ _ (by simp [attrGet, List.find?])
  have hpids : pyIndex (PyObj.arr false ((rows.map ARow.sid).map Val.vInt)) i
      = .ok (.vInt r.sid) := by
    simp [pyIndex, hi']
  have hpty : pyIndex (PyObj.arr false ((rows.map ARow.ty).map Val.vInt)) i
      = .ok (.vInt r.ty) := by
    simp [pyIndex, hi']
  rw [atomLine, show Timestep.getattr _ "ids" = attrGet _ "ids" from rfl,
    List.append_assoc, hgids, exc_bind_ok, hpids, exc_bind_ok,
    show Timestep.getattr _ "types" = attrGet _ "types" from rfl,
    hgty, exc_bind_ok, hpty, exc_bind_ok]
  have hstep : ∀ (idx : Nat) (e : String × FmtK),
      ((("ids", FmtK.kInt) :: nms.mapIdx fun j s =>
        (s, colKind (colVals rows j))).get? idx = some e) →
      (do
        let col ← (⟨fp, some t,
          [("types", PyObj.arr false ((rows.map ARow.ty).map Val.vInt)),
           ("ids", PyObj.arr false ((rows.map ARow.sid).map Val.vInt)),
           ("xyz", PyObj.xyzArr (rows.map fun q => (q.x, q.y, q.z))),
           ("extras", PyObj.strsO ("ids" :: nms))]
          ++ ((nms.mapIdx fun j s => (s, npHomog (colVals rows j)))
          ++ [("periodic", PyObj.flags (perI.map fun p => p == "pp")),
              ("box", PyObj.boxArr [b1, b2, b3])])⟩ : Timestep).getattr e.1
        let v ← pyIndex col i
        pure (e.2, v) : Except Err (FmtK × Val))
      = .ok ((fun idx (e : String × FmtK) =>
          ((e.2 : FmtK), match idx with
            | 0 => Val.vInt r.sid
            | j + 1 =>
              if (colVals rows j).any valIsFloat then
                valToFloat (numV (r.xtra.getD j (.str "")))
              else numV (r.xtra.getD j (.str "")))) idx e) := by
    intro idx e he
    match idx with
    | 0 =>
      have he0 : e = ("ids", FmtK.kInt) := (Option.some.inj he).symm
      subst he0
      show (do
        let col ← attrGet _ "ids"
        let v ← pyIndex col i
        pure ((FmtK.kInt : FmtK), v) : Except Err (FmtK × Val)) = _
      rw [hgids, exc_bind_ok, hpids, exc_bind_ok]
      rfl
    | j + 1 =>
      rw [show ((("ids", FmtK.kInt) :: nms.mapIdx fun j s =>
          (s, colKind (colVals rows j))).get? (j + 1))
          = (nms.mapIdx fun j s => (s, colKind (colVals rows j))).get? j from rfl,
        get?_mapIdx] at he
      cases hnm : nms.get? j with
      | none =>
        rw [hnm] at he
        exact absurd he (by simp)
      | some nm =>
        rw [hnm] at he
        have he2 : e = (nm, colKind (colVals rows j)) := (Option.some.inj he).symm
        subst he2
        have hmemnm : nm ∈ nms := List.get?_mem hnm
        have hgnm := (hgood nm hmemnm).2
        simp only [List.mem_cons, List.not_mem_nil, or_false, not_or] at hgnm
        have h4 : ∀ q ∈ ([("types", PyObj.arr false ((rows.map ARow.ty).map Val.vInt)),
            ("ids", PyObj.arr false ((rows.map ARow.sid).map Val.vInt)),
            ("xyz", PyObj.xyzArr (rows.map fun q => (q.x, q.y, q.z))),
            ("extras", PyObj.strsO ("ids" :: nms))] : List (String × PyObj)),
            q.1 ≠ nm := by
          intro q hq
          simp only [List.mem_cons, List.not_mem_nil, or_false] at hq
          rcases hq with rfl | rfl | rfl | rfl
          · exact fun h => hgnm.1 h.symm
          · exact fun h => hgnm.2.1 h.symm
          · exact fun h => hgnm.2.2.1 h.symm
          · exact fun h => hgnm.2.2.2.1 h.symm
        have hga : attrGet ([("types", PyObj.arr false ((rows.map ARow.ty).map Val.vInt)),
            ("ids", PyObj.arr false ((rows.map ARow.sid).map Val.vInt)),
            ("xyz", PyObj.xyzArr (rows.map fun q => (q.x, q.y, q.z))),
            ("extras", PyObj.strsO ("ids" :: nms))]
            ++ ((nms.mapIdx fun j s => (s, npHomog (colVals rows j)))
            ++ [("periodic", PyObj.flags (perI.map fun p => p == "pp")),
                ("box", PyObj.boxArr [b1, b2, b3])])) nm
            = .ok (npHomog (colVals rows j)) := by
          rw [attrGet_append_right _ _ _ h4]
          exact attrGet_append_left _ _ _ _
            (attrGet_mapIdx nms (fun j s => npHomog (colVals rows j)) j nm hnd hnm)
        have hlt : j < nms.length := by
          by_contra hc
          rw [List.get?_eq_none.mpr (by omega)] at hnm
          exact absurd hnm (by simp)
        have hnum : ∀ v ∈ colVals rows j, valIsStr v = false := by
          intro v hv
          obtain ⟨q, hq, rfl⟩ := List.mem_map.mp hv
          exact valIsStr_numV _ ((hrows q hq).1 _
            (get?_getD_mem _ _ _ (by rw [(hrows q hq).2]; omega)))
        have hpy : pyIndex (npHomog (colVals rows j)) i
            = .ok (if (colVals rows j).any valIsFloat then
                valToFloat (numV (r.xtra.getD j (.str "")))
              else numV (r.xtra.getD j (.str ""))) := by
          rw [npHomog,
            if_neg (by simp only [Bool.not_eq_true, List.any_eq_false]; exact hnum)]
          by_cases hf : (colVals rows j).any valIsFloat = true
          · rw [if_pos hf, if_pos hf]
            rw [show pyIndex (PyObj.arr false ((colVals rows j).map valToFloat)) i
                = (match ((colVals rows j).map valToFloat).get? i with
                  | some v => .ok v
                  | none => .error .indexError) from rfl]
            rw [List.get?_map, colVals_get? rows j i r hi]
            rfl
          · rw [if_neg hf, if_neg hf]
            rw [show pyIndex (PyObj.arr false (colVals rows j)) i
                = (match (colVals rows j).get? i with
                  | some v => .ok v
                  | none => .error .indexError) from rfl]
            rw [colVals_get? rows j i r hi]
        show (do
          let col ← attrGet _ nm
          let v ← pyIndex col i
          pure ((colKind (colVals rows j) : FmtK), v) : Except Err (FmtK × Val)) = _
        rw [hga, exc_bind_ok, hpy, exc_bind_ok]
        rfl
  rw [mapM_mapIdx (("ids", FmtK.kInt) :: nms.mapIdx fun j s =>
      (s, colKind (colVals rows j))) _
      (fun idx (e : String × FmtK) =>
        ((e.2 : FmtK), match idx with
          | 0 => Val.vInt r.sid
          | j + 1 =>
            if (colVals rows j).any valIsFloat then
              valToFloat (numV (r.xtra.getD j (.str "")))
            else numV (r.xtra.getD j (.str "")))) hstep,
    exc_bind_ok, List.mapIdx_cons, mapIdx_mapIdx]
  show (do
      let t0 ← fmtD (Val.vInt r.sid)
      let t1 ← fmtD (Val.vInt r.ty)
      let xtoks ← ((FmtK.kInt, Val.vInt r.sid) :: nms.mapIdx fun j s =>
          ((colKind (colVals rows j) : FmtK),
           if (colVals rows j).any valIsFloat then
             valToFloat (numV (r.xtra.getD j (.str "")))
           else numV (r.xtra.getD j (.str "")))).mapM
        fun kv => renderX kv.1 kv.2
      pure (Line.data
        ([t0, t1, Tok.float (r5 (r.x, r.y, r.z).1), Tok.float (r5 (r.x, r.y, r.z).2.1),
          Tok.float (r5 (r.x, r.y, r.z).2.2)] ++ xtoks.reduceOption))
    : Except Err Line) = .ok (mkAtomLine (wRow rows nms r))
  have hstep2 : ∀ (j : Nat) (kv : FmtK × Val),
      ((nms.mapIdx fun j s => ((colKind (colVals rows j) : FmtK),
        if (colVals rows j).any valIsFloat then
          valToFloat (numV (r.xtra.getD j (.str "")))
        else numV (r.xtra.getD j (.str "")))).get? j = some kv) →
      renderX kv.1 kv.2
      = .ok (some (wTok (colKind (colVals rows j))
          (numV (r.xtra.getD j (Tok.str ""))))) := by
    intro j kv he
    rw [get?_mapIdx] at he
    cases hnm : nms.get? j with
    | none =>
      rw [hnm] at he
      exact absurd he (by simp)
    | some nm =>
      rw [hnm] at he
      have he2 := (Option.some.inj he).symm
      subst he2
      have hlt : j < nms.length := by
        by_contra hc
        rw [List.get?_eq_none.mpr (by omega)] at hnm
        exact absurd hnm (by simp)
      have htk : r.xtra.getD j (Tok.str "") ∈ r.xtra :=
        get?_getD_mem _ _ _ (by omega)
      have htknum : (r.xtra.getD j (Tok.str "")).isNum = true :=
        (hrows r hmemr).1 _ htk
      by_cases hf : (colVals rows j).any valIsFloat = true
      · rw [show ((colKind (colVals rows j) : FmtK),
            if (colVals rows j).any valIsFloat then
              valToFloat (numV (r.xtra.getD j (.str "")))
            else numV (r.xtra.getD j (.str ""))).2
            = valToFloat (numV (r.xtra.getD j (.str ""))) from by rw [if_pos hf],
          show ((colKind (colVals rows j) : FmtK),
            if (colVals rows j).any valIsFloat then
              valToFloat (numV (r.xtra.getD j (.str "")))
            else numV (r.xtra.getD j (.str ""))).1
            = FmtK.kFloat from by rw [colKind, if_pos hf]]
        rw [show colKind (colVals rows j) = FmtK.kFloat from by rw [colKind, if_pos hf]]
        cases htok : r.xtra.getD j (Tok.str "") with
        | str a =>
          rw [htok] at htknum
          simp [Tok.isNum] at htknum
        | int m => rfl
        | float q => rfl
      · rw [show ((colKind (colVals rows j) : FmtK),
            if (colVals rows j).any valIsFloat then
              valToFloat (numV (r.xtra.getD j (.str "")))
            else numV (r.xtra.getD j (.str ""))).2
            = numV (r.xtra.getD j (.str "")) from by rw [if_neg hf],
          show ((colKind (colVals rows j) : FmtK),
            if (colVals rows j).any valIsFloat then
              valToFloat (numV (r.xtra.getD j (.str "")))
            else numV (r.xtra.getD j (.str ""))).1
            = FmtK.kInt from by rw [colKind, if_neg hf]]
        rw [show colKind (colVals rows j) = FmtK.kInt from by rw [colKind, if_neg hf]]
        have hmemv : numV (r.xtra.getD j (Tok.str "")) ∈ colVals rows j :=
          List.mem_map_of_mem _ hmemr
        have hnf : valIsFloat (numV (r.xtra.getD j (Tok.str ""))) = false := by
          have hf' : (colVals rows j).any valIsFloat = false := by simpa using hf
          rw [List.any_eq_false] at hf'
          simpa using hf' _ hmemv
        cases htok : r.xtra.getD j (Tok.str "") with
        | str a =>
          rw [htok] at htknum
          simp [Tok.isNum] at htknum
        | int m => rfl
        | float q =>
          rw [htok] at hnf
          simp [numV, valIsFloat] at hnf
  rw [show fmtD (Val.vInt r.sid) = Except.ok (Tok.int r.sid) from rfl, exc_bind_ok,
    show fmtD (Val.vInt r.ty) = Except.ok (Tok.int r.ty) from rfl, exc_bind_ok,
    List.mapM_cons,
    show renderX (FmtK.kInt, Val.vInt r.sid).1 (FmtK.kInt, Val.vInt r.sid).2
      = Except.ok (some (Tok.int r.sid)) from rfl,
    exc_bind_ok,
    mapM_mapIdx _ _ _ hstep2, exc_bind_ok, mapIdx_mapIdx]
  rw [exc_pure_eq, exc_bind_ok, List.reduceOption_cons_of_some, reduceOption_mapIdx_some]
  rfl

end GBLearn

namespace GBLearn


end GBLearn

namespace GBLearn

theorem dumpLines_record (fp : String) (t : Int) (perI : List String) (b1 b2 b3 : ℚ × ℚ)
    (nms : List String) (rows : List ARow)
    (hne : rows ≠ [])
    (hnd : nms.Nodup)
    (hgood : ∀ s ∈ nms, goodName s)
    (hrows : ∀ q ∈ rows, (∀ tk ∈ q.xtra, tk.isNum = true) ∧ q.xtra.length = nms.length) :
    Timestep.dumpLines ⟨fp, some t,
      [("types", .arr false ((rows.map ARow.ty).map Val.vInt)),
       ("ids", .arr false ((rows.map ARow.sid).map Val.vInt)),
       ("xyz", .xyzArr (rows.map fun q => (q.x, q.y, q.z))),
       ("extras", .strsO ("ids" :: nms))]
      ++ ((nms.mapIdx fun j s => (s, npHomog (colVals rows j)))
      ++ [("periodic", .flags (perI.map fun p => p == "pp")),
          ("box", .boxArr [b1, b2, b3])])⟩
    = .ok (mkRecordLines t rows.length
        (perI.map fun p => if p == "pp" then "pp" else "ss")
        (r4 b1.1, r4 b1.2) (r4 b2.1, r4 b2.2) (r4 b3.1, r4 b3.2)
        (["id", "type", "x", "y", "z"] ++ "ids" :: nms)
        (rows.map (wRow rows nms))) := by
  have hxcne : ∀ e ∈ (nms.mapIdx fun j s => (s, npHomog (colVals rows j))),
      ∀ k, k ∈ (["types", "ids", "xyz", "extras", "periodic", "box"] : List String) →
      e.1 ≠ k := by
    intro e he k hk
    have hfst : e.1 ∈ nms := by
      have := List.mem_map_of_mem Prod.fst he
      rwa [mapIdx_fst_eq] at this
    have hg := (hgood e.1 hfst).2
    intro hek
    rw [hek] at hg
    exact hg hk
  have hgxyz : attrGet ([("types", PyObj.arr false ((rows.map ARow.ty).map Val.vInt)),
      ("ids", PyObj.arr false ((rows.map ARow.sid).map Val.vInt)),
      ("xyz", PyObj.xyzArr (rows.map fun q => (q.x, q.y, q.z))),
      ("extras", PyObj.strsO ("ids" :: nms))]
      ++ ((nms.mapIdx fun j s => (s, npHomog (colVals rows j)))
      ++ [("periodic", PyObj.flags (perI.map fun p => p == "pp")),
          ("box", PyObj.boxArr [b1, b2, b3])])) "xyz"
      = .ok (PyObj.xyzArr (rows.map fun q => (q.x, q.y, q.z))) :=
    attrGet_append_left _ _ _ _ (by simp [attrGet, List.find?])
  have hgex : attrGet ([("types", PyObj.arr false ((rows.map ARow.ty).map Val.vInt)),
      ("ids", PyObj.arr false ((rows.map ARow.sid).map Val.vInt)),
      ("xyz", PyObj.xyzArr (rows.map fun q => (q.x, q.y, q.z))),
      ("extras", PyObj.strsO ("ids" :: nms))]
      ++ ((nms.mapIdx fun j s => (s, npHomog (colVals rows j)))
      ++ [("periodic", PyObj.flags (perI.map fun p => p == "pp")),
          ("box", PyObj.boxArr [b1, b2, b3])])) "extras"
      = .ok (PyObj.strsO ("ids" :: nms)) :=
    attrGet_append_left _ _ _ _ (by simp [attrGet, List.find?])
  have h4p : ∀ e ∈ ([("types", PyObj.arr false ((rows.map ARow.ty).map Val.vInt)),
      ("ids", PyObj.arr false ((rows.map ARow.sid).map Val.vInt)),
      ("xyz", PyObj.xyzArr (rows.map fun q => (q.x, q.y, q.z))),
      ("extras", PyObj.strsO ("ids" :: nms))] : List (String × PyObj)),
      e.1 ≠ "periodic" := by
    intro e he
    simp only [List.mem_cons, List.not_mem_nil, or_false] at he
    rcases he with rfl | rfl | rfl | rfl <;> simp
  have h4b : ∀ e ∈ ([("types", PyObj.arr false ((rows.map ARow.ty).map Val.vInt)),
      ("ids", PyObj.arr false ((rows.map ARow.sid).map Val.vInt)),
      ("xyz", PyObj.xyzArr (rows.map fun q => (q.x, q.y, q.z))),
      ("extras", PyObj.strsO ("ids" :: nms))] : List (String × PyObj)),
      e.1 ≠ "box" := by
    intro e he
    simp only [List.mem_cons, List.not_mem_nil, or_false] at he
    rcases he with rfl | rfl | rfl | rfl <;> simp
  have hgper : attrGet ([("types", PyObj.arr false ((rows.map ARow.ty).map Val.vInt)),
      ("ids", PyObj.arr false ((rows.map ARow.sid).map Val.vInt)),
      ("xyz", PyObj.xyzArr (rows.map fun q => (q.x, q.y, q.z))),
      ("extras", PyObj.strsO ("ids" :: nms))]
      ++ ((nms.mapIdx fun j s => (s, npHomog (colVals rows j)))
      ++ [("periodic", PyObj.flags (perI.map fun p => p == "pp")),
          ("box", PyObj.boxArr [b1, b2, b3])])) "periodic"
      = .ok (PyObj.flags (perI.map fun p => p == "pp")) := by
    rw [attrGet_append_right _ _ _ h4p,
      attrGet_append_right _ _ _ (fun e he => hxcne e he "periodic" (by simp)),
      attrGet_cons_self]
  have hgbox : attrGet ([("types", PyObj.arr false ((rows.map ARow.ty).map Val.vInt)),
      ("ids", PyObj.arr false ((rows.map ARow.sid).map Val.vInt)),
      ("xyz", PyObj.xyzArr (rows.map fun q => (q.x, q.y, q.z))),
      ("extras", PyObj.strsO ("ids" :: nms))]
      ++ ((nms.mapIdx fun j s => (s, npHomog (colVals rows j)))
      ++ [("periodic", PyObj.flags (perI.map fun p => p == "pp")),
          ("box", PyObj.boxArr [b1, b2, b3])])) "box"
      = .ok (PyObj.boxArr [b1, b2, b3]) := by
    rw [attrGet_append_right _ _ _ h4b,
      attrGet_append_right _ _ _ (fun e he => hxcne e he "box" (by simp)),
      attrGet_cons_ne _ _ _ (by simp), attrGet_cons_self]
  have hgids2 : attrGet ([("types", PyObj.arr false ((rows.map ARow.ty).map Val.vInt)),
      ("ids", PyObj.arr false ((rows.map ARow.sid).map Val.vInt)),
      ("xyz", PyObj.xyzArr (rows.map fun q => (q.x, q.y, q.z))),
      ("extras", PyObj.strsO ("ids" :: nms))]
      ++ ((nms.mapIdx fun j s => (s, npHomog (colVals rows j)))
      ++ [("periodic", PyObj.flags (perI.map fun p => p == "pp")),
          ("box", PyObj.boxArr [b1, b2, b3])])) "ids"
      = .ok (PyObj.arr false ((rows.map ARow.sid).map Val.vInt)) :=
    attrGet_append_left _ _ _ _ (by simp [attrGet, List.find?])
  obtain ⟨r0, rs, hr0⟩ := List.exists_cons_of_ne_nil hne
  have hkstep : ∀ (j : Nat) (nm : String), nms.get? j = some nm →
      (do
        let col ← attrGet ([("types", PyObj.arr false ((rows.map ARow.ty).map Val.vInt)),
          ("ids", PyObj.arr false ((rows.map ARow.sid).map Val.vInt)),
          ("xyz", PyObj.xyzArr (rows.map fun q => (q.x, q.y, q.z))),
          ("extras", PyObj.strsO ("ids" :: nms))]
          ++ ((nms.mapIdx fun j s => (s, npHomog (colVals rows j)))
          ++ [("periodic", PyObj.flags (perI.map fun p => p == "pp")),
              ("box", PyObj.boxArr [b1, b2, b3])])) nm
        let k ← elem0Kind col
        pure (nm, k) : Except Err (String × FmtK))
      = .ok (nm, colKind (colVals rows j)) := by
    intro j nm hnm
    have hmemnm : nm ∈ nms := List.get?_mem hnm
    have hgnm := (hgood nm hmemnm).2
    simp only [List.mem_cons, List.not_mem_nil, or_false, not_or] at hgnm
    have h4 : ∀ q ∈ ([("types", PyObj.arr false ((rows.map ARow.ty).map Val.vInt)),
        ("ids", PyObj.arr false ((rows.map ARow.sid).map Val.vInt)),
        ("xyz", PyObj.xyzArr (rows.map fun q => (q.x, q.y, q.z))),
        ("extras", PyObj.strsO ("ids" :: nms))] : List (String × PyObj)),
        q.1 ≠ nm := by
      intro q hq
      simp only [List.mem_cons, List.not_mem_nil, or_false] at hq
      rcases hq with rfl | rfl | rfl | rfl
      · exact fun h => hgnm.1 h.symm
      · exact fun h => hgnm.2.1 h.symm
      · exact fun h => hgnm.2.2.1 h.symm
      · exact fun h => hgnm.2.2.2.1 h.symm
    have hga : attrGet ([("types", PyObj.arr false ((rows.map ARow.ty).map Val.vInt)),
        ("ids", PyObj.arr false ((rows.map ARow.sid).map Val.vInt)),
        ("xyz", PyObj.xyzArr (rows.map fun q => (q.x, q.y, q.z))),
        ("extras", PyObj.strsO ("ids" :: nms))]
        ++ ((nms.mapIdx fun j s => (s, npHomog (colVals rows j)))
        ++ [("periodic", PyObj.flags (perI.map fun p => p == "pp")),
            ("box", PyObj.boxArr [b1, b2, b3])])) nm
        = .ok (npHomog (colVals rows j)) := by
      rw [attrGet_append_right _ _ _ h4]
      exact attrGet_append_left _ _ _ _
        (attrGet_mapIdx nms (fun j s => npHomog (colVals rows j)) j nm hnd hnm)
    have hcne : colVals rows j ≠ [] := by
      rw [colVals, hr0]
      simp
    have hnum : ∀ v ∈ colVals rows j, valIsStr v = false := by
      intro v hv
      obtain ⟨q, hq, rfl⟩ := List.mem_map.mp hv
      have hlt : j < nms.length := by
        by_contra hc
        rw [List.get?_eq_none.mpr (by omega)] at hnm
        exact absurd hnm (by simp)
      exact valIsStr_numV _ ((hrows q hq).1 _
        (get?_getD_mem _ _ _ (by rw [(hrows q hq).2]; omega)))
    rw [hga, exc_bind_ok, elem0Kind_npHomog _ hcne hnum, exc_bind_ok]
    rfl
  have hkinds : List.mapM (fun x => do
      let col ← attrGet ([("types", PyObj.arr false ((rows.map ARow.ty).map Val.vInt)),
        ("ids", PyObj.arr false ((rows.map ARow.sid).map Val.vInt)),
        ("xyz", PyObj.xyzArr (rows.map fun q : ARow => (q.x, q.y, q.z))),
        ("extras", PyObj.strsO ("ids" :: nms))]
        ++ ((nms.mapIdx fun j s => (s, npHomog (colVals rows j)))
        ++ [("periodic", PyObj.flags (perI.map fun p => p == "pp")),
            ("box", PyObj.boxArr [b1, b2, b3])])) x
      let k ← elem0Kind col
      pure (x, k)) ("ids" :: nms)
      = .ok (("ids", FmtK.kInt) :: nms.mapIdx fun j s => (s, colKind (colVals rows j))) := by
    rw [List.mapM_cons]
    rw [hgids2, exc_bind_ok,
      show elem0Kind (PyObj.arr false ((rows.map ARow.sid).map Val.vInt))
        = .ok FmtK.kInt from by rw [hr0]; rfl,
      exc_bind_ok, exc_pure_eq, exc_bind_ok,
      mapM_mapIdx nms _ (fun j nm => (nm, colKind (colVals rows j))) hkstep,
      exc_bind_ok]
    rfl
  simp only [Timestep.dumpLines, Timestep.pyLen?, Timestep.getattr]
  rw [hgxyz, exc_bind_ok,
    show pyLen (PyObj.xyzArr (rows.map fun q => (q.x, q.y, q.z)))
      = .ok (rows.map fun q : ARow => (q.x, q.y, q.z)).length from rfl,
    exc_bind_ok, hgper, exc_bind_ok]
  simp only [exc_bind_ok]
  rw [hgbox]
  simp only [exc_bind_ok]
  rw [hgex]
  simp only [exc_bind_ok]
  rw [hkinds]
  simp only [exc_bind_ok]
  rw [List.enum_map rows (fun q : ARow => (q.x, q.y, q.z)),
    mapM_map, show rows.enum = rows.enumFrom 0 from rfl,
    enumFrom_mapM 0 rows _ (fun r => mkAtomLine (wRow rows nms r)) (by
      intro i q hq
      rw [Nat.zero_add]
      exact atomLine_row fp t perI b1 b2 b3 nms rows i q hq hnd hgood hrows),
    exc_bind_ok]
  simp [mkRecordLines, List.map_map, List.length_map, Function.comp]

end GBLearn

namespace GBLearn

theorem ofRaw_atomsDict_ids (fp : String) (idx : Option Int) (t n : Int)
    (perT : List String) (b1 b2 b3 : ℚ × ℚ) (tys ids : List Int) (ps : List (ℚ × ℚ × ℚ))
    (xc : List (String × List Val))
    (hn : (ps.length : Int) = n)
    (hnd : (xc.map Prod.fst).Nodup)
    (hgood : ∀ p ∈ xc, goodName p.1) :
    Timestep.ofRaw fp idx (atomsDict t n perT b1 b2 b3 tys ids ps
      (("ids", ids.map Val.vInt) :: xc))
    = .ok ⟨fp, idx,
        [("types", .arr false (tys.map Val.vInt)),
         ("ids", .arr false (ids.map Val.vInt)),
         ("xyz", .xyzArr ps),
         ("extras", .strsO ("ids" :: "ids" :: xc.map Prod.fst))]
        ++ xc.map (fun p => (p.1, npHomog p.2))
        ++ [("periodic", .flags (perT.map (fun p => p == "pp"))),
            ("box", .boxArr [b1, b2, b3])]⟩ := by
  have hlen : ¬ ((atomsDict t n perT b1 b2 b3 tys ids ps
      (("ids", ids.map Val.vInt) :: xc)).length < 6) := by
    simp [atomsDict, xcolsD]
  rw [Timestep.ofRaw, if_neg hlen]
  have hgT : dictGet (atomsDict t n perT b1 b2 b3 tys ids ps
      (("ids", ids.map Val.vInt) :: xc)) "type"
      = some (.many (tys.map (fun k => CVal.one (Val.vInt k)))) := by
    simp [atomsDict, dictGet, List.find?]
  have hgI : dictGet (atomsDict t n perT b1 b2 b3 tys ids ps
      (("ids", ids.map Val.vInt) :: xc)) "id"
      = some (.many (ids.map (fun k => CVal.one (Val.vInt k)))) := by
    simp [atomsDict, dictGet, List.find?]
  have hgX : dictGet (atomsDict t n perT b1 b2 b3 tys ids ps
      (("ids", ids.map Val.vInt) :: xc)) "xyz"
      = some (.many (ps.map (fun v => CVal.row [.vFloat v.1, .vFloat v.2.1, .vFloat v.2.2]))) := by
    simp [atomsDict, dictGet, List.find?]
  have hgP : dictGet (atomsDict t n perT b1 b2 b3 tys ids ps
      (("ids", ids.map Val.vInt) :: xc)) "periodic"
      = some (.strs perT) := by
    simp [atomsDict, dictGet, List.find?]
  have hgB : dictGet (atomsDict t n perT b1 b2 b3 tys ids ps
      (("ids", ids.map Val.vInt) :: xc)) "box"
      = some (.many [.row [.vFloat b1.1, .vFloat b1.2], .row [.vFloat b2.1, .vFloat b2.2],
          .row [.vFloat b3.1, .vFloat b3.2]]) := by
    simp [atomsDict, dictGet, List.find?]
  have hgN : dictGet (atomsDict t n perT b1 b2 b3 tys ids ps
      (("ids", ids.map Val.vInt) :: xc)) "natoms"
      = some (.single (.one (.vInt n))) := by
    simp [atomsDict, dictGet, List.find?]
  rw [hgT]
  simp only [Option.elim, exc_bind_ok, asMany, npIntArr_ints]
  rw [hgI]
  simp only [Option.elim, exc_bind_ok, asMany, npIntArr_ints]
  rw [hgX]
  simp only [Option.elim, exc_bind_ok, asMany, npXyzArr_rows]
  rw [show atomsDict t n perT b1 b2 b3 tys ids ps (("ids", ids.map Val.vInt) :: xc)
      = ([("time", DVal.single (.one (.vInt t))),
          ("natoms", DVal.single (.one (.vInt n))),
          ("periodic", DVal.strs perT),
          ("box", DVal.many [.row [.vFloat b1.1, .vFloat b1.2],
            .row [.vFloat b2.1, .vFloat b2.2], .row [.vFloat b3.1, .vFloat b3.2]]),
          ("type", DVal.many (tys.map (fun k => CVal.one (Val.vInt k)))),
          ("id", DVal.many (ids.map (fun k => CVal.one (Val.vInt k)))),
          ("xyz", DVal.many (ps.map (fun v =>
            CVal.row [.vFloat v.1, .vFloat v.2.1, .vFloat v.2.2])))] : RawDict)
        ++ xcolsD (("ids", ids.map Val.vInt) :: xc) from rfl]
  rw [List.foldlM_append]
  rw [show List.foldlM ofRawStep
      [("types", PyObj.arr false (List.map Val.vInt tys)),
       ("ids", PyObj.arr false (List.map Val.vInt ids)), ("xyz", PyObj.xyzArr ps),
       ("extras", PyObj.strsO ["ids"])]
      ([("time", DVal.single (.one (.vInt t))),
        ("natoms", DVal.single (.one (.vInt n))),
        ("periodic", DVal.strs perT),
        ("box", DVal.many [.row [.vFloat b1.1, .vFloat b1.2],
          .row [.vFloat b2.1, .vFloat b2.2], .row [.vFloat b3.1, .vFloat b3.2]]),
        ("type", DVal.many (tys.map (fun k => CVal.one (Val.vInt k)))),
        ("id", DVal.many (ids.map (fun k => CVal.one (Val.vInt k)))),
        ("xyz", DVal.many (ps.map (fun v =>
          CVal.row [.vFloat v.1, .vFloat v.2.1, .vFloat v.2.2])))] : RawDict)
      = .ok [("types", PyObj.arr false (List.map Val.vInt tys)),
             ("ids", PyObj.arr false (List.map Val.vInt ids)), ("xyz", PyObj.xyzArr ps),
             ("extras", PyObj.strsO ["ids"])] from rfl]
  rw [exc_bind_ok]
  rw [show xcolsD (("ids", ids.map Val.vInt) :: xc)
      = ("atom:" ++ "ids", DVal.many ((ids.map Val.vInt).map CVal.one)) :: xcolsD xc
    from rfl]
  rw [List.foldlM_cons]
  have hidstep : ofRawStep
      [("types", PyObj.arr false (List.map Val.vInt tys)),
       ("ids", PyObj.arr false (List.map Val.vInt ids)), ("xyz", PyObj.xyzArr ps),
       ("extras", PyObj.strsO ["ids"])]
      ("atom:" ++ "ids", DVal.many ((ids.map Val.vInt).map CVal.one))
      = .ok [("types", PyObj.arr false (List.map Val.vInt tys)),
             ("ids", PyObj.arr false (List.map Val.vInt ids)), ("xyz", PyObj.xyzArr ps),
             ("extras", PyObj.strsO ["ids", "ids"])] := by
    simp only [ofRawStep, strHasSub_atomKey, if_true,
      quantOf_atomKey "ids" (by decide), attrGet, List.find?, exc_bind_ok,
      asMany, mapM_asOne_ones]
    simp [attrSet, npHomog_ints]
  rw [hidstep, exc_bind_ok]
  have hfold := ofRaw_fold xc
    [("types", PyObj.arr false (List.map Val.vInt tys)),
     ("ids", PyObj.arr false (List.map Val.vInt ids)), ("xyz", PyObj.xyzArr ps)]
    [] ["ids", "ids"]
    (by
      intro e he
      simp only [List.mem_cons, List.not_mem_nil, or_false] at he
      rcases he with rfl | rfl | rfl <;> simp)
    (fun q hq => (hgood q hq).1)
    (by
      intro q hq
      have hg := (hgood q hq).2
      simp only [List.mem_cons, List.not_mem_nil, or_false, not_or] at hg
      refine ⟨?_, by simp, ?_⟩
      · intro e he
        simp only [List.mem_cons, List.not_mem_nil, or_false] at he
        rcases he with rfl | rfl | rfl
        · exact hg.1
        · exact hg.2.1
        · exact hg.2.2.1
      · exact hg.2.2.2.1)
    hnd
  rw [show ([("types", PyObj.arr false (List.map Val.vInt tys)),
       ("ids", PyObj.arr false (List.map Val.vInt ids)),
       ("xyz", PyObj.xyzArr ps)] ++ ("extras", PyObj.strsO ["ids", "ids"]) :: [])
      = [("types", PyObj.arr false (List.map Val.vInt tys)),
         ("ids", PyObj.arr false (List.map Val.vInt ids)), ("xyz", PyObj.xyzArr ps),
         ("extras", PyObj.strsO ["ids", "ids"])] from rfl] at hfold
  rw [hfold, exc_bind_ok]
  rw [show ([("time", DVal.single (.one (.vInt t))),
          ("natoms", DVal.single (.one (.vInt n))),
          ("periodic", DVal.strs perT),
          ("box", DVal.many [.row [.vFloat b1.1, .vFloat b1.2],
            .row [.vFloat b2.1, .vFloat b2.2], .row [.vFloat b3.1, .vFloat b3.2]]),
          ("type", DVal.many (tys.map (fun k => CVal.one (Val.vInt k)))),
          ("id", DVal.many (ids.map (fun k => CVal.one (Val.vInt k)))),
          ("xyz", DVal.many (ps.map (fun v =>
            CVal.row [.vFloat v.1, .vFloat v.2.1, .vFloat v.2.2])))] : RawDict)
        ++ ("atom:" ++ "ids", DVal.many ((ids.map Val.vInt).map CVal.one)) :: xcolsD xc
      = atomsDict t n perT b1 b2 b3 tys ids ps (("ids", ids.map Val.vInt) :: xc) from rfl]
  rw [hgP]
  simp only [Option.elim, exc_bind_ok]
  rw [hgB]
  simp only [Option.elim, exc_bind_ok]
  simp only [List.mapM_cons, List.mapM_nil, exc_bind_ok, exc_pure_eq, pyLen]
  rw [hgN]
  simp only [Option.isNone_some, Bool.false_eq_true, if_false, hn, not_true,
    decide_False, if_false]
  have hfr : ∀ e ∈ ([("types", PyObj.arr false (List.map Val.vInt tys)),
        ("ids", PyObj.arr false (List.map Val.vInt ids)),
        ("xyz", PyObj.xyzArr ps)] ++
      [("extras", PyObj.strsO (["ids", "ids"] ++ List.map Prod.fst xc))] ++
      List.map (fun p => (p.1, npHomog p.2)) xc),
      e.1 ≠ "periodic" := by
    intro e he
    simp only [List.append_assoc, List.mem_append, List.mem_cons, List.not_mem_nil,
      or_false, List.mem_map] at he
    rcases he with (rfl | rfl | rfl) | rfl | ⟨q, hq, rfl⟩
    · simp
    · simp
    · simp
    · simp
    · have hg := (hgood q hq).2
      simp only [List.mem_cons, List.not_mem_nil, or_false, not_or] at hg
      exact hg.2.2.2.2.1
  rw [attrSet_fresh _ "periodic" _ hfr]
  have hfr2 : ∀ e ∈ (([("types", PyObj.arr false (List.map Val.vInt tys)),
        ("ids", PyObj.arr false (List.map Val.vInt ids)),
        ("xyz", PyObj.xyzArr ps)] ++
      [("extras", PyObj.strsO (["ids", "ids"] ++ List.map Prod.fst xc))] ++
      List.map (fun p => (p.1, npHomog p.2)) xc)
      ++ [("periodic", PyObj.flags (List.map (fun p => p == "pp") perT))]),
      e.1 ≠ "box" := by
    intro e he
    simp only [List.append_assoc, List.mem_append, List.mem_cons, List.not_mem_nil,
      or_false, List.mem_map] at he
    rcases he with (rfl | rfl | rfl) | rfl | ⟨q, hq, rfl⟩ | rfl
    · simp
    · simp
    · simp
    · simp
    · have hg := (hgood q hq).2
      simp only [List.mem_cons, List.not_mem_nil, or_false, not_or] at hg
      exact hg.2.2.2.2.2
    · simp
  rw [attrSet_fresh _ "box" _ hfr2]
  simp [List.append_assoc]

end GBLearn

namespace GBLearn

theorem parse_record_ids (fp : String) (t n : Int) (per : List String) (b1 b2 b3 : ℚ × ℚ)
    (names : List String) (rows : List ARow) (nms : List String)
    (hsplit : names.drop 5 = "ids" :: nms)
    (hnd : nms.Nodup)
    (hids : "ids" ∉ nms)
    (hgood : ∀ s ∈ nms, goodName s)
    (hrows : ∀ r ∈ rows, (∀ tk ∈ r.xtra, tk.isNum = true) ∧
      r.xtra.length = (names.drop 5).length)
    (hid0 : ∀ r ∈ rows, r.xtra.getD 0 (.str "") = .int r.sid)
    (hn : (rows.length : Int) = n) :
    parseTimestep fp (mkRecordLines t n per b1 b2 b3 names rows) none false 0 none
    = .ok (⟨fp, some t,
        [("types", .arr false ((rows.map ARow.ty).map Val.vInt)),
         ("ids", .arr false ((rows.map ARow.sid).map Val.vInt)),
         ("xyz", .xyzArr (rows.map fun r => (r.x, r.y, r.z))),
         ("extras", .strsO ("ids" :: "ids" :: nms))]
        ++ (nms.mapIdx fun j s => (s, npHomog (colVals rows (j + 1))))
        ++ [("periodic", .flags ((if per.isEmpty then ["ss", "ss", "ss"] else per).map
              (fun p => p == "pp"))),
            ("box", .boxArr [b1, b2, b3])]⟩, 9 + rows.length) := by
  have hnd5 : (names.drop 5).Nodup := by
    rw [hsplit, List.nodup_cons]
    exact ⟨hids, hnd⟩
  rw [parseTimestep, List.drop_zero]
  rw [readLoop_record t n per b1 b2 b3 names rows hnd5 hrows, exc_bind_ok]
  have hlen' : ∀ r ∈ rows, ("ids" :: nms).length ≤ r.xtra.length := by
    intro r hr
    rw [(hrows r hr).2, hsplit]
  rw [show extendAll ((names.drop 5).map fun nm => (nm, ([] : List Val))) rows
      = ("ids", colVals rows 0) :: nms.mapIdx (fun j nm => (nm, colVals rows (j + 1)))
    from by
    rw [hsplit, extendAll_eq ("ids" :: nms) rows hlen', List.mapIdx_cons]]
  rw [show colVals rows 0 = (rows.map ARow.sid).map Val.vInt from by
    rw [colVals, List.map_map]
    exact List.map_congr_left fun r hr => by
      rw [hid0 r hr]
      rfl]
  rw [ofRaw_atomsDict_ids fp (some t) t n _ b1 b2 b3 _ _ _ _
      (by rw [List.length_map]; exact hn)
      (by rw [mapIdx_fst_eq]; exact hnd)
      (by
        intro p hp
        have hm : p.1 ∈ nms := by
          have h2 := List.mem_map_of_mem Prod.fst hp
          rwa [mapIdx_fst_eq] at h2
        exact hgood p.1 hm),
    exc_bind_ok]
  rw [map_mapIdx_pair, mapIdx_fst_eq]
  rfl

end GBLearn

namespace GBLearn

theorem mkRat_nonneg_of (n : Int) (d : Nat) (h : 0 ≤ n) : 0 ≤ mkRat n d := by
  rw [Rat.mkRat_eq_div n d]
  apply div_nonneg
  · exact_mod_cast h
  · exact Nat.cast_nonneg d

theorem qabs_nonneg (q : ℚ) : 0 ≤ qabs q := by
  rw [qabs]
  split
  · linarith
  · linarith

theorem close1_self (a : ℚ) : close1 a a = true := by
  rw [close1]
  simp only [decide_eq_true_eq]
  have h1 : qsub a a = 0 := by
    rw [qsub, sub_self, Rat.mkRat_eq_div 0 (a.den * a.den), Int.cast_zero, zero_div]
  rw [h1, show qabs 0 = 0 from by rw [qabs, if_neg (lt_irrefl 0)]]
  have hy : 0 ≤ qdiv (qabs a) 100000 := by
    rw [qdiv, if_neg (by decide : ¬ ((100000 : ℚ)).num < 0)]
    apply mkRat_nonneg_of
    have hn : 0 ≤ (qabs a).num := Rat.num_nonneg.mpr (qabs_nonneg a)
    positivity
  rw [qadd]
  apply mkRat_nonneg_of
  have h2 : (0 : Int) ≤ (qdiv (qabs a) 100000).num := Rat.num_nonneg.mpr hy
  have h3 : (0 : Int) ≤ ((qdiv (qabs a) 100000).den : Int) := by positivity
  have h4 : (mkRat 1 100000000).num = 1 := by decide
  have h5 : ((mkRat 1 100000000).den : Int) = 100000000 := by decide
  rw [h4, h5]
  nlinarith

theorem zip_all_close1_self (qs : List ℚ) :
    ((qs.zip qs).all fun p => close1 p.1 p.2) = true := by
  rw [zip_self_eq_map]
  refine List.all_eq_true.mpr ?_
  intro p hp
  obtain ⟨a, ha, rfl⟩ := List.mem_map.mp hp
  exact close1_self a

theorem npAllclose_self (x : PyObj) (qs : List ℚ) (h : numList x = .ok qs) :
    npAllclose x x = .ok true := by
  rw [npAllclose, h]
  simp only [exc_bind_ok, if_pos rfl]
  simp only [if_true]
  rw [zip_all_close1_self]
  rfl

theorem flatten3_length (xs : List (ℚ × ℚ × ℚ)) :
    ((xs.map fun r => [r.1, r.2.1, r.2.2]).flatten).length = 3 * xs.length := by
  induction xs with
  | nil => rfl
  | cons a l ih =>
    rw [List.map_cons, List.flatten_cons, List.length_append, ih, List.length_cons]
    simp
    omega

theorem npAllclose_xyz (xs ys : List (ℚ × ℚ × ℚ)) (h : xs.length = ys.length) :
    npAllclose (.xyzArr xs) (.xyzArr ys)
    = .ok (((xs.map fun r => [r.1, r.2.1, r.2.2]).flatten.zip
        ((ys.map fun r => [r.1, r.2.1, r.2.2]).flatten)).all fun p => close1 p.1 p.2) := by
  rw [npAllclose,
    show numList (PyObj.xyzArr xs) = .ok (xs.map fun r => [r.1, r.2.1, r.2.2]).flatten
      from rfl,
    show numList (PyObj.xyzArr ys) = .ok (ys.map fun r => [r.1, r.2.1, r.2.2]).flatten
      from rfl]
  simp only [exc_bind_ok]
  rw [if_pos (by rw [flatten3_length, flatten3_length, h])]
  rfl

end GBLearn

namespace GBLearn

theorem mem_mapIdx {α β : Type _} (l : List α) (g : Nat → α → β) (x : β)
    (h : x ∈ l.mapIdx g) : ∃ i a, l.get? i = some a ∧ x = g i a := by
  induction l generalizing g with
  | nil => simp at h
  | cons b l ih =>
    rw [List.mapIdx_cons] at h
    rcases List.mem_cons.mp h with rfl | hm
    · exact ⟨0, b, rfl, rfl⟩
    · obtain ⟨i, a, hia, rfl⟩ := ih (fun i => g (i + 1)) hm
      exact ⟨i + 1, a, hia, rfl⟩

theorem wRow_xtra_isNum (rows : List ARow) (nms : List String) (r : ARow) (hr : r ∈ rows)
    (hrows : ∀ q ∈ rows, (∀ tk ∈ q.xtra, tk.isNum = true) ∧ q.xtra.length = nms.length) :
    ∀ tk ∈ (wRow rows nms r).xtra, tk.isNum = true := by
  intro tk htk
  rw [wRow] at htk
  rcases List.mem_cons.mp htk with rfl | hmem
  · rfl
  · obtain ⟨j, nm, hj, rfl⟩ := mem_mapIdx _ _ _ hmem
    have hlt : j < nms.length := by
      by_contra hc
      rw [List.get?_eq_none.mpr (by omega)] at hj
      exact absurd hj (by simp)
    have htok : (r.xtra.getD j (Tok.str "")) ∈ r.xtra :=
      get?_getD_mem _ _ _ (by rw [(hrows r hr).2]; omega)
    have htknum : (r.xtra.getD j (Tok.str "")).isNum = true := (hrows r hr).1 _ htok
    by_cases hf : (colVals rows j).any valIsFloat = true
    · rw [colKind, if_pos hf]
      cases hgd : r.xtra.getD j (Tok.str "") with
      | str a =>
        rw [hgd] at htknum
        simp [Tok.isNum] at htknum
      | int m => rfl
      | float q => rfl
    · rw [colKind, if_neg hf]
      have hmemv : numV (r.xtra.getD j (Tok.str "")) ∈ colVals rows j :=
        List.mem_map_of_mem _ hr
      have hnf : valIsFloat (numV (r.xtra.getD j (Tok.str ""))) = false := by
        have hf' : (colVals rows j).any valIsFloat = false := by simpa using hf
        rw [List.any_eq_false] at hf'
        simpa using hf' _ hmemv
      cases hgd : r.xtra.getD j (Tok.str "") with
      | str a =>
        rw [hgd] at htknum
        simp [Tok.isNum] at htknum
      | int m => rfl
      | float q =>
        rw [hgd] at hnf
        simp [numV, valIsFloat] at hnf

theorem mapM_ok {α β : Type _} (l : List α) (g : α → β) :
    (l.mapM (fun a => (Except.ok (g a) : Except Err β))) = .ok (l.map g) := by
  induction l with
  | nil => rfl
  | cons a l ih =>
    rw [List.mapM_cons, ih]
    rfl

theorem numList_ints (l : List Int) :
    numList (.arr false (l.map Val.vInt)) = .ok (l.map fun z : Int => (z : ℚ)) := by
  rw [show numList (.arr false (l.map Val.vInt))
      = (l.map Val.vInt).mapM (fun v => match v with
        | Val.vInt n => Except.ok (n : ℚ)
        | Val.vFloat q => Except.ok q
        | Val.vStr s => Except.error Err.typeError) from rfl,
    mapM_map]
  exact mapM_ok l (fun z : Int => (z : ℚ))

end GBLearn

namespace GBLearn

theorem mapIdx_keys_ne {β : Type _} (nms : List String) (F : Nat → String → β)
    (hgood : ∀ s ∈ nms, goodName s) (k : String)
    (hk : k ∈ (["types", "ids", "xyz", "extras", "periodic", "box"] : List String)) :
    ∀ e ∈ nms.mapIdx fun j s => (s, F j s), e.1 ≠ k := by
  intro e he
  have hfst : e.1 ∈ nms := by
    have h2 := List.mem_map_of_mem Prod.fst he
    rwa [mapIdx_fst_eq] at h2
  intro hek
  exact (hgood e.1 hfst).2 (hek ▸ hk)

theorem lit4_keys_ne (v1 v2 v3 v4 : PyObj) (k : String)
    (hk : k ∈ (["periodic", "box"] : List String)) :
    ∀ e ∈ ([("types", v1), ("ids", v2), ("xyz", v3), ("extras", v4)] :
      List (String × PyObj)), e.1 ≠ k := by
  intro e he
  simp only [List.mem_cons, List.not_mem_nil, or_false] at he hk
  rcases hk with rfl | rfl <;> rcases he with rfl | rfl | rfl | rfl <;> simp

theorem beq_extras_false (fpA fpB : String) (iA iB : Option Int)
    (tys ids : List Int) (psA psB : List (ℚ × ℚ × ℚ)) (exA exB : List String)
    (restA restB : List (String × PyObj))
    (hlen : psA.length = psB.length)
    (hex : exA ≠ exB) :
    Timestep.beq
      ⟨fpA, iA, [("types", .arr false (tys.map Val.vInt)),
        ("ids", .arr false (ids.map Val.vInt)), ("xyz", .xyzArr psA),
        ("extras", .strsO exA)] ++ restA⟩
      ⟨fpB, iB, [("types", .arr false (tys.map Val.vInt)),
        ("ids", .arr false (ids.map Val.vInt)), ("xyz", .xyzArr psB),
        ("extras", .strsO exB)] ++ restB⟩
    = .ok false := by
  simp only [Timestep.beq, Timestep.getattr]
  rw [show attrGet ([("types", PyObj.arr false (tys.map Val.vInt)),
      ("ids", PyObj.arr false (ids.map Val.vInt)), ("xyz", PyObj.xyzArr psA),
      ("extras", PyObj.strsO exA)] ++ restA) "xyz" = .ok (PyObj.xyzArr psA)
      from attrGet_append_left _ _ _ _ (by simp [attrGet, List.find?]),
    exc_bind_ok,
    show attrGet ([("types", PyObj.arr false (tys.map Val.vInt)),
      ("ids", PyObj.arr false (ids.map Val.vInt)), ("xyz", PyObj.xyzArr psB),
      ("extras", PyObj.strsO exB)] ++ restB) "xyz" = .ok (PyObj.xyzArr psB)
      from attrGet_append_left _ _ _ _ (by simp [attrGet, List.find?]),
    exc_bind_ok, npAllclose_xyz psA psB hlen, exc_bind_ok]
  cases hall : (((psA.map fun r => [r.1, r.2.1, r.2.2]).flatten.zip
      ((psB.map fun r => [r.1, r.2.1, r.2.2]).flatten)).all fun p => close1 p.1 p.2) with
  | false =>
    rw [if_pos (by simp)]
    rfl
  | true =>
    rw [if_neg (by simp)]
    rw [show attrGet ([("types", PyObj.arr false (tys.map Val.vInt)),
        ("ids", PyObj.arr false (ids.map Val.vInt)), ("xyz", PyObj.xyzArr psA),
        ("extras", PyObj.strsO exA)] ++ restA) "ids"
        = .ok (PyObj.arr false (ids.map Val.vInt))
        from attrGet_append_left _ _ _ _ (by simp [attrGet, List.find?]),
      exc_bind_ok,
      show attrGet ([("types", PyObj.arr false (tys.map Val.vInt)),
        ("ids", PyObj.arr false (ids.map Val.vInt)), ("xyz", PyObj.xyzArr psB),
        ("extras", PyObj.strsO exB)] ++ restB) "ids"
        = .ok (PyObj.arr false (ids.map Val.vInt))
        from attrGet_append_left _ _ _ _ (by simp [attrGet, List.find?]),
      exc_bind_ok, npAllclose_self _ _ (numList_ints ids), exc_bind_ok,
      if_neg (by simp)]
    rw [show attrGet ([("types", PyObj.arr false (tys.map Val.vInt)),
        ("ids", PyObj.arr false (ids.map Val.vInt)), ("xyz", PyObj.xyzArr psA),
        ("extras", PyObj.strsO exA)] ++ restA) "types"
        = .ok (PyObj.arr false (tys.map Val.vInt))
        from attrGet_append_left _ _ _ _ (by simp [attrGet, List.find?]),
      exc_bind_ok,
      show attrGet ([("types", PyObj.arr false (tys.map Val.vInt)),
        ("ids", PyObj.arr false (ids.map Val.vInt)), ("xyz", PyObj.xyzArr psB),
        ("extras", PyObj.strsO exB)] ++ restB) "types"
        = .ok (PyObj.arr false (tys.map Val.vInt))
        from attrGet_append_left _ _ _ _ (by simp [attrGet, List.find?]),
      exc_bind_ok, npAllclose_self _ _ (numList_ints tys), exc_bind_ok,
      if_neg (by simp)]
    rw [show attrGet ([("types", PyObj.arr false (tys.map Val.vInt)),
        ("ids", PyObj.arr false (ids.map Val.vInt)), ("xyz", PyObj.xyzArr psA),
        ("extras", PyObj.strsO exA)] ++ restA) "extras" = .ok (PyObj.strsO exA)
        from attrGet_append_left _ _ _ _ (by simp [attrGet, List.find?]),
      exc_bind_ok,
      show attrGet ([("types", PyObj.arr false (tys.map Val.vInt)),
        ("ids", PyObj.arr false (ids.map Val.vInt)), ("xyz", PyObj.xyzArr psB),
        ("extras", PyObj.strsO exB)] ++ restB) "extras" = .ok (PyObj.strsO exB)
        from attrGet_append_left _ _ _ _ (by simp [attrGet, List.find?]),
      exc_bind_ok,
      show pyEqObj (PyObj.strsO exA) (PyObj.strsO exB) = (exA == exB) from rfl,
      beq_eq_false_iff_ne.mpr hex,
      if_pos (by simp)]
    rfl

/-- C1 (amended): the round trip writes the record and re-parses it; the id
column is emitted a second time under the extras heading `"ids"`, so the
re-parsed record agrees exactly on index, ids, types and periodic flags,
holds the positions rounded to 5 decimals (`r5`) and the box rounded to 4
decimals (`r4`), and carries the extras list `"ids"` prepended to the
original record's list — hence `__eq__` returns `False`. -/
theorem claim_C1_roundtrip (fp fp2 : String) (t n : Int) (per : List String)
    (b1 b2 b3 : ℚ × ℚ) (names : List String) (rows : List ARow)
    (hne : rows ≠ [])
    (hnd : (names.drop 5).Nodup)
    (hids : "ids" ∉ names.drop 5)
    (hrows : ∀ r ∈ rows, (∀ tk ∈ r.xtra, tk.isNum = true) ∧
      r.xtra.length = (names.drop 5).length)
    (hn : (rows.length : Int) = n)
    (hgood : ∀ s ∈ names.drop 5, goodName s) :
    ∃ (R R2 : Timestep) (k k2 : Nat) (outLines : List Line),
      parseTimestep fp (mkRecordLines t n per b1 b2 b3 names rows) none false 0 none
        = .ok (R, k) ∧
      R.dumpLines = .ok outLines ∧
      parseTimestep fp2 outLines none false 0 none = .ok (R2, k2) ∧
      R2.index = R.index ∧
      R2.getattr "ids" = R.getattr "ids" ∧
      R2.getattr "types" = R.getattr "types" ∧
      R2.getattr "periodic" = R.getattr "periodic" ∧
      R.getattr "xyz" = .ok (.xyzArr (rows.map fun r => (r.x, r.y, r.z))) ∧
      R2.getattr "xyz" = .ok (.xyzArr (rows.map fun r => (r5 r.x, r5 r.y, r5 r.z))) ∧
      R.getattr "box" = .ok (.boxArr [b1, b2, b3]) ∧
      R2.getattr "box" = .ok (.boxArr [(r4 b1.1, r4 b1.2), (r4 b2.1, r4 b2.2),
        (r4 b3.1, r4 b3.2)]) ∧
      R.getattr "extras" = .ok (.strsO ("ids" :: names.drop 5)) ∧
      R2.getattr "extras" = .ok (.strsO ("ids" :: "ids" :: names.drop 5)) ∧
      Timestep.beq R R2 = .ok false := by
  have hR := parse_record fp t n per b1 b2 b3 names rows hnd hrows hn hgood
  rw [extendAll_eq (names.drop 5) rows (fun r hr => le_of_eq (hrows r hr).2.symm),
    map_mapIdx_pair] at hR
  have hdump := dumpLines_record fp t (if per.isEmpty then ["ss", "ss", "ss"] else per)
    b1 b2 b3 (names.drop 5) rows hne hnd hgood hrows
  have hrows2 : ∀ q ∈ rows.map (wRow rows (names.drop 5)),
      (∀ tk ∈ q.xtra, tk.isNum = true) ∧
      q.xtra.length = ((["id", "type", "x", "y", "z"]
        ++ "ids" :: names.drop 5 : List String).drop 5).length := by
    intro q hq
    obtain ⟨r, hr, rfl⟩ := List.mem_map.mp hq
    refine ⟨wRow_xtra_isNum rows (names.drop 5) r hr hrows, ?_⟩
    show (Tok.int r.sid :: (names.drop 5).mapIdx fun j _ =>
      wTok (colKind (colVals rows j)) (numV (r.xtra.getD j (.str "")))).length
      = ("ids" :: names.drop 5).length
    rw [List.length_cons, List.length_cons, List.length_mapIdx]
  have hR2 := parse_record_ids fp2 t (rows.length : Int)
    ((if per.isEmpty then ["ss", "ss", "ss"] else per).map
      fun p => if p == "pp" then "pp" else "ss")
    (r4 b1.1, r4 b1.2) (r4 b2.1, r4 b2.2) (r4 b3.1, r4 b3.2)
    (["id", "type", "x", "y", "z"] ++ "ids" :: names.drop 5)
    (rows.map (wRow rows (names.drop 5)))
    (names.drop 5) rfl hnd hids hgood hrows2
    (by
      intro q hq
      obtain ⟨r, hr, rfl⟩ := List.mem_map.mp hq
      rfl)
    (by rw [List.length_map])
  have hsid : (rows.map (wRow rows (names.drop 5))).map ARow.sid = rows.map ARow.sid := by
    rw [List.map_map]
    exact List.map_congr_left fun r _ => rfl
  have hty : (rows.map (wRow rows (names.drop 5))).map ARow.ty = rows.map ARow.ty := by
    rw [List.map_map]
    exact List.map_congr_left fun r _ => rfl
  have hpos : (rows.map (wRow rows (names.drop 5))).map (fun r : ARow => (r.x, r.y, r.z))
      = rows.map fun r => (r5 r.x, r5 r.y, r5 r.z) := by
    rw [List.map_map]
    exact List.map_congr_left fun r _ => rfl
  have hpI : (if per.isEmpty then ["ss", "ss", "ss"] else per) ≠ [] := by
    by_cases hpe : per.isEmpty = true
    · rw [if_pos hpe]
      simp
    · rw [if_neg hpe]
      intro h
      rw [h] at hpe
      exact hpe rfl
  obtain ⟨pa, pas, hpa⟩ := List.exists_cons_of_ne_nil hpI
  have hflags : ((if ((if per.isEmpty then ["ss", "ss", "ss"] else per).map
        fun p => if p == "pp" then "pp" else "ss").isEmpty
      then ["ss", "ss", "ss"]
      else ((if per.isEmpty then ["ss", "ss", "ss"] else per).map
        fun p => if p == "pp" then "pp" else "ss")).map fun p => p == "pp")
      = (if per.isEmpty then ["ss", "ss", "ss"] else per).map fun p => p == "pp" := by
    rw [if_neg (by rw [hpa]; simp)]
    rw [List.map_map]
    refine List.map_congr_left fun s _ => ?_
    by_cases hs : (s == "pp") = true
    · show ((if s == "pp" then "pp" else "ss") == "pp") = (s == "pp")
      rw [if_pos hs, hs]
      rfl
    · show ((if s == "pp" then "pp" else "ss") == "pp") = (s == "pp")
      rw [if_neg hs, show (s == "pp") = false from by simpa using hs]
      rfl
  rw [hsid, hty, hpos, hflags] at hR2
  refine ⟨_, _, _, _, _, hR, hdump, hR2, rfl, ?_, ?_, ?_, ?_, ?_, ?_, ?_, ?_, ?_, ?_⟩
  · show attrGet _ "ids" = attrGet _ "ids"
    trans (Except.ok (PyObj.arr false ((rows.map ARow.sid).map Val.vInt)))
    · rw [List.append_assoc]
      exact attrGet_append_left _ _ _ _ (by simp [attrGet, List.find?])
    · rw [List.append_assoc]
      exact (attrGet_append_left _ _ _ _ (by simp [attrGet, List.find?])).symm
  · show attrGet _ "types" = attrGet _ "types"
    trans (Except.ok (PyObj.arr false ((rows.map ARow.ty).map Val.vInt)))
    · rw [List.append_assoc]
      exact attrGet_append_left _ _ _ _ (by simp [attrGet, List.find?])
    · rw [List.append_assoc]
      exact (attrGet_append_left _ _ _ _ (by simp [attrGet, List.find?])).symm
  · show attrGet _ "periodic" = attrGet _ "periodic"
    trans (Except.ok (PyObj.flags
      ((if per.isEmpty then ["ss", "ss", "ss"] else per).map fun p => p == "pp")))
    · rw [List.append_assoc,
        attrGet_append_right _ _ _ (lit4_keys_ne _ _ _ _ _ (by simp)),
        attrGet_append_right _ _ _ (mapIdx_keys_ne _ _ hgood _ (by simp)),
        attrGet_cons_self]
    · rw [List.append_assoc,
        attrGet_append_right _ _ _ (lit4_keys_ne _ _ _ _ _ (by simp)),
        attrGet_append_right _ _ _ (mapIdx_keys_ne _ _ hgood _ (by simp)),
        attrGet_cons_self]
  · show attrGet _ "xyz" = _
    rw [List.append_assoc]
    exact attrGet_append_left _ _ _ _ (by simp [attrGet, List.find?])
  · show attrGet _ "xyz" = _
    rw [List.append_assoc]
    exact attrGet_append_left _ _ _ _ (by simp [attrGet, List.find?])
  · show attrGet _ "box" = _
    rw [List.append_assoc,
      attrGet_append_right _ _ _ (lit4_keys_ne _ _ _ _ _ (by simp)),
      attrGet_append_right _ _ _ (mapIdx_keys_ne _ _ hgood _ (by simp)),
      attrGet_cons_ne _ _ _ (by simp), attrGet_cons_self]
  · show attrGet _ "box" = _
    rw [List.append_assoc,
      attrGet_append_right _ _ _ (lit4_keys_ne _ _ _ _ _ (by simp)),
      attrGet_append_right _ _ _ (mapIdx_keys_ne _ _ hgood _ (by simp)),
      attrGet_cons_ne _ _ _ (by simp), attrGet_cons_self]
  · show attrGet _ "extras" = _
    rw [List.append_assoc]
    exact attrGet_append_left _ _ _ _ (by simp [attrGet, List.find?])
  · show attrGet _ "extras" = _
    rw [List.append_assoc]
    exact attrGet_append_left _ _ _ _ (by simp [attrGet, List.find?])
  · exact beq_extras_false fp fp2 (some t) (some t)
      (rows.map ARow.ty) (rows.map ARow.sid)
      (rows.map fun r => (r.x, r.y, r.z))
      (rows.map fun r => (r5 r.x, r5 r.y, r5 r.z))
      ("ids" :: names.drop 5) ("ids" :: "ids" :: names.drop 5)
      ((names.drop 5).mapIdx (fun j s => (s, npHomog (colVals rows j)))
        ++ [("periodic", PyObj.flags
            ((if per.isEmpty then ["ss", "ss", "ss"] else per).map fun p => p == "pp")),
          ("box", PyObj.boxArr [b1, b2, b3])])
      ((names.drop 5).mapIdx (fun j s =>
          (s, npHomog (colVals (rows.map (wRow rows (names.drop 5))) (j + 1))))
        ++ [("periodic", PyObj.flags
            ((if per.isEmpty then ["ss", "ss", "ss"] else per).map fun p => p == "pp")),
          ("box", PyObj.boxArr [(r4 b1.1, r4 b1.2), (r4 b2.1, r4 b2.2),
            (r4 b3.1, r4 b3.2)])])
      (by rw [List.length_map, List.length_map])
      (by
        intro h
        have hlen2 := congrArg List.length h
        simp at hlen2)

end GBLearn

namespace GBLearn

theorem claim_C1_witness :
    (([(⟨1, 2, mkRat 1 2, 0, 0, [Tok.float (mkRat 3 2)]⟩ : ARow)] : List ARow) ≠ []) ∧
    (((["id", "type", "x", "y", "z", "c_eng"] : List String).drop 5).Nodup) ∧
    ("ids" ∉ (["id", "type", "x", "y", "z", "c_eng"] : List String).drop 5) ∧
    (∀ r ∈ [(⟨1, 2, mkRat 1 2, 0, 0, [Tok.float (mkRat 3 2)]⟩ : ARow)],
      (∀ tk ∈ r.xtra, tk.isNum = true) ∧
      r.xtra.length
        = ((["id", "type", "x", "y", "z", "c_eng"] : List String).drop 5).length) ∧
    ((([(⟨1, 2, mkRat 1 2, 0, 0, [Tok.float (mkRat 3 2)]⟩ : ARow)] : List ARow).length : Int)
      = 1) ∧
    (∀ s ∈ (["id", "type", "x", "y", "z", "c_eng"] : List String).drop 5, goodName s) ∧
    (∃ (R R2 : Timestep) (k k2 : Nat) (outLines : List Line),
      parseTimestep "a.out" (mkRecordLines 7 1 ["pp", "pp", "pp"] (0, 1) (0, 1) (0, 1)
          ["id", "type", "x", "y", "z", "c_eng"]
          [⟨1, 2, mkRat 1 2, 0, 0, [Tok.float (mkRat 3 2)]⟩]) none false 0 none
        = .ok (R, k) ∧
      R.dumpLines = .ok outLines ∧
      parseTimestep "b.out" outLines none false 0 none = .ok (R2, k2) ∧
      R2.index = R.index ∧
      R2.getattr "ids" = R.getattr "ids" ∧
      R2.getattr "types" = R.getattr "types" ∧
      R2.getattr "periodic" = R.getattr "periodic" ∧
      R.getattr "xyz" = .ok (.xyzArr
        ([(⟨1, 2, mkRat 1 2, 0, 0, [Tok.float (mkRat 3 2)]⟩ : ARow)].map
          fun r => (r.x, r.y, r.z))) ∧
      R2.getattr "xyz" = .ok (.xyzArr
        ([(⟨1, 2, mkRat 1 2, 0, 0, [Tok.float (mkRat 3 2)]⟩ : ARow)].map
          fun r => (r5 r.x, r5 r.y, r5 r.z))) ∧
      R.getattr "box" = .ok (.boxArr [((0 : ℚ), (1 : ℚ)), (0, 1), (0, 1)]) ∧
      R2.getattr "box" = .ok (.boxArr [(r4 (0 : ℚ), r4 (1 : ℚ)), (r4 0, r4 1),
        (r4 0, r4 1)]) ∧
      R.getattr "extras" = .ok (.strsO ("ids" ::
        (["id", "type", "x", "y", "z", "c_eng"] : List String).drop 5)) ∧
      R2.getattr "extras" = .ok (.strsO ("ids" :: "ids" ::
        (["id", "type", "x", "y", "z", "c_eng"] : List String).drop 5)) ∧
      Timestep.beq R R2 = .ok false) :=
  ⟨by decide, by decide, by decide, by decide, by decide, by decide,
   claim_C1_roundtrip "a.out" "b.out" 7 1 ["pp", "pp", "pp"] (0, 1) (0, 1) (0, 1)
     ["id", "type", "x", "y", "z", "c_eng"]
     [⟨1, 2, mkRat 1 2, 0, 0, [Tok.float (mkRat 3 2)]⟩]
     (by decide) (by decide) (by decide) (by decide) (by decide) (by decide)⟩

end GBLearn
